import Mathlib

/-! # Backup / restore orchestration of the OpenSearch DBaaS adapter

A shallow embedding of `backup/backup.go` (with the helpers it uses from
`common/common.go` and `common/naming.go`).

Strings stay strings, Go's `len` on a string is `String.utf8ByteSize`, a Go
`(value, error)` pair is a pair whose second component is an `Option String`
(`none` is the nil error), a nil map is `none`.

Everything the code does to the outside world (Curator HTTP calls, search
engine queries, UUID generation, sleeping) is recorded in a trace of events,
threaded through the functions.  The outside world answers through oracles
that see the trace so far, so an answer may change from one call to the next.
-/

set_option linter.dupNamespace false

namespace Backup

/-! ## Data model -/

/-- An HTTP request as built with `http.NewRequest` and the header setters. -/
structure HttpRequest where
  Method : String
  URL : String
  Body : Option String
  Header : List (String × String)
  BasicAuth : Option (String × String)
deriving DecidableEq, Repr

/-- An HTTP response: status code, and the outcome of reading its body. -/
structure HttpResponse where
  StatusCode : Nat
  Body : Except String String

/-- Source of a shard recovery (`RecoverySourceInfo`). -/
structure RecoverySourceInfo where
  Snapshot : String
  Repository : String
  Index : String
deriving DecidableEq, Repr

/-- Recovery descriptor of one shard (`ShardRecoveryInfo`); `Kind` is the Go
field `Type`. -/
structure ShardRecoveryInfo where
  Kind : String
  Stage : String
  Source : RecoverySourceInfo
deriving DecidableEq, Repr

/-- Recovery descriptors of one index (`IndexRecoveryInfo`). -/
structure IndexRecoveryInfo where
  Shards : List ShardRecoveryInfo
deriving DecidableEq, Repr

/-- The Go type is `map[string]IndexRecoveryInfo`; the list holds its entries
in the order in which `range` visits them. -/
abbrev RecoveryInfo := List (String × IndexRecoveryInfo)

/-- One snapshot of a snapshot-status answer (`SnapshotStatus`).  `Indices` is a
Go map whose values are never read: the list holds its keys in the order in
which `range` visits them. -/
structure SnapshotStatus where
  State : String
  Snapshot : String
  Indices : List String
deriving DecidableEq, Repr

/-- The answer of a snapshot-status query (`Snapshots`). -/
structure Snapshots where
  Snapshots : List SnapshotStatus
deriving DecidableEq, Repr

/-- A non-nil `map[string]string`, as an association list with unique keys. -/
abbrev NameMap := List (String × String)

/-- Reading `m[k]` from a non-nil map; `none` when the key is absent. -/
def NameMap.get? (m : NameMap) (k : String) : Option String :=
  match m with
  | [] => none
  | (k', v) :: rest => if k' = k then some v else NameMap.get? rest k

/-- The assignment `m[k] = v`. -/
def NameMap.set (m : NameMap) (k v : String) : NameMap :=
  match m with
  | [] => [(k, v)]
  | (k', v') :: rest => if k' = k then (k, v) :: rest else (k', v') :: NameMap.set rest k v

/-- Go's `m[k]` on a possibly nil map: the zero value `""` when absent. -/
def mapIndex (m : Option NameMap) (k : String) : String :=
  match m with
  | none => ""
  | some m => (m.get? k).getD ""

/-- Details of a track (`TrackDetails`). -/
structure TrackDetails where
  LocalId : String
deriving DecidableEq, Repr

/-- The externally visible result (`ActionTrack`). -/
structure ActionTrack where
  Action : String
  Details : TrackDetails
  Status : String
  TrackID : String
  ChangedNameDb : Option NameMap
  TrackPath : Option String
deriving DecidableEq, Repr

/-- What the code does to the outside world, in the order it does it. -/
inductive Event where
  | curatorDo (request : HttpRequest)
  | snapshotStatus (repository : String) (snapshot : List String)
  | indicesRecovery (index : List String)
  | uuidNewV4
  | sleep (seconds : Nat)
deriving DecidableEq, Repr

abbrev Trace := List Event

/-- The request context: the value stored under `common.RequestIdKey`, when
there is one of type string, and its cancellation: with `some n` the context is
cancelled (its `Done` channel closed) from the moment the trace holds `n`
events, with `none` it never is. -/
structure Context where
  requestId : Option String
  cancelledAfter : Option Nat := none
deriving DecidableEq, Repr

/-- Whether the context is cancelled when the trace so far is `tr`. -/
def Context.cancelled (ctx : Context) (tr : Trace) : Bool :=
  match ctx.cancelledAfter with
  | none => false
  | some n => decide (n ≤ tr.length)

/-- The search engine client (`common.Client`) as seen through
`common.DoRequest`: for each of the two requests the code sends, either the
error of `DoRequest` or the decoded answer. -/
structure Client where
  indicesRecovery : Trace → List String → Except String RecoveryInfo
  snapshotStatus : Trace → String → List String → Except String Snapshots

/-- Curator connection (`Curator`); `client` is `http.Client.Do`. -/
structure Curator where
  url : String
  username : String
  password : String
  client : Trace → HttpRequest → Except String HttpResponse

/-- Index naming adapter (`common.IndexAdapter`). -/
structure IndexAdapter where
  defaultPrefix : String
  delimiter : String
deriving DecidableEq, Repr

/-- Curator's answer to a job status request (`JobStatus`). -/
structure JobStatus where
  State : String
  Message : String
  Vault : String
  Kind : String
  Error : String
  TaskId : String
deriving DecidableEq, Repr

/-- The parts of the Go runtime and libraries the code calls: `uuid.NewV4`,
whether `http.NewRequest` accepts a URL, and the JSON decoding of a job status
body. -/
structure Runtime where
  uuidNewV4 : Trace → Except String String
  newRequestOk : String → Bool
  decodeJobStatus : String → Except String JobStatus

/-- The provider (`BackupProvider`). -/
structure BackupProvider where
  client : Client
  indexNames : IndexAdapter
  repoRoot : String
  Curator : Curator

/-- A call either returns or panics. -/
inductive Outcome (α : Type) where
  | returned (a : α)
  | panicked (msg : String)
deriving DecidableEq, Repr

/-! ## `common` -/

def RequestIdKey : String := "X-Request-Id"

def NewIndexAdapter : IndexAdapter :=
  { defaultPrefix := "dbaas", delimiter := "_" }

def Max (x y : Nat) : Nat :=
  if x > y then x else y

def GetUUID (rt : Runtime) (tr : Trace) : String × Trace :=
  match rt.uuidNewV4 tr with
  | .error _ => ("", tr ++ [Event.uuidNewV4])
  | .ok uuidValue => (uuidValue, tr ++ [Event.uuidNewV4])

def IndexAdapter.NameIndexPrefixed (adapter : IndexAdapter) (rt : Runtime) (pfx : String)
    (tr : Trace) : String × Trace :=
  let p := if pfx = "" then adapter.defaultPrefix else pfx
  let u := GetUUID rt tr
  (p ++ adapter.delimiter ++ u.1, u.2)

def IndexAdapter.NameIndex (adapter : IndexAdapter) (rt : Runtime) (tr : Trace) :
    String × Trace :=
  adapter.NameIndexPrefixed rt adapter.defaultPrefix tr

/-! ## `backup` -/

def backupTrack (backupId backupStatus : String) : ActionTrack :=
  { Action := "BACKUP"
    Details := { LocalId := backupId }
    Status := backupStatus
    TrackID := backupId
    ChangedNameDb := none
    TrackPath := none }

def restoreTrack (backupId restoreStatus : String) (changedNameDb : Option NameMap) :
    ActionTrack :=
  { Action := "RESTORE"
    Details := { LocalId := backupId }
    Status := restoreStatus
    TrackID := backupId
    ChangedNameDb := changedNameDb
    TrackPath := none }

def namesRegenerateRequestPart (pattern replacement : String) : String :=
  if pattern = "" then ""
  else "\n\t\t,\"rename_pattern\": \"" ++ pattern ++ "\",\n\t\t\"rename_replacement\": \""
    ++ replacement ++ "\"\n\t"

/-- The body `requestRestore` formats. -/
def restoreRequestBody (dbs : List String) (backupId pattern replacement : String) : String :=
  "\n\t\t\x7b\n\t\t\t\"vault\": \"" ++ backupId ++ "\",\t\n\t\t\t\"dbs\": [\""
    ++ ",".intercalate dbs ++ "\"]\n\t\t" ++ namesRegenerateRequestPart pattern replacement
    ++ "\n\t\t\x7d\t\t\n\t\t"

/-- The request `requestRestore` builds for Curator, once the context has
given its request id. -/
def restoreRequest (bp : BackupProvider) (requestId : String) (dbs : List String)
    (backupId pattern replacement : String) : HttpRequest :=
  { Method := "POST"
    URL := bp.Curator.url ++ "/" ++ "restore"
    Body := some (restoreRequestBody dbs backupId pattern replacement)
    Header := [("Content-Type", "application/json"), (RequestIdKey, requestId)]
    BasicAuth := some (bp.Curator.username, bp.Curator.password) }

def requestRestore (rt : Runtime) (bp : BackupProvider) (ctx : Context) (dbs : List String)
    (backupId pattern replacement : String) (tr : Trace) : Outcome (Option String) × Trace :=
  if rt.newRequestOk (bp.Curator.url ++ "/" ++ "restore") then
    match ctx.requestId with
    | none => (.panicked "interface conversion: interface \x7b\x7d is nil, not string", tr)
    | some requestId =>
      let request := restoreRequest bp requestId dbs backupId pattern replacement
      match bp.Curator.client tr request with
      | .error err => (.returned (some err), tr ++ [Event.curatorDo request])
      | .ok _ => (.returned none, tr ++ [Event.curatorDo request])
  else (.panicked "http.NewRequest failed", tr)

/-- The inner loop of `TrackRestoreIndices` over the shards of one index:
`none` is the early `return` with `PROCEEDING`, otherwise the new value of
`foundOneDone`. -/
def shardLoop (backupId repoName : String) :
    List ShardRecoveryInfo → Bool → Option Bool
  | [], foundOneDone => some foundOneDone
  | shardInfo :: rest, foundOneDone =>
    if shardInfo.Source.Snapshot = backupId ∧ shardInfo.Source.Repository = repoName then
      if shardInfo.Stage ≠ "DONE" ∧ shardInfo.Stage ≠ "done" then none
      else shardLoop backupId repoName rest true
    else shardLoop backupId repoName rest foundOneDone

/-- The outer loop of `TrackRestoreIndices` over the entries of the recovery
info. -/
def indexLoop (backupId repoName : String) : RecoveryInfo → Bool → Option Bool
  | [], foundOneDone => some foundOneDone
  | (_, indexRecInfo) :: rest, foundOneDone =>
    match shardLoop backupId repoName indexRecInfo.Shards foundOneDone with
    | none => none
    | some found => indexLoop backupId repoName rest found

def TrackRestoreIndices (bp : BackupProvider) (_ctx : Context) (backupId : String)
    (indices : List String) (repoName : String) (changedNameDb : Option NameMap)
    (tr : Trace) : ActionTrack × Trace :=
  let repoName := if repoName = "" then backupId else repoName
  let tr1 := tr ++ [Event.indicesRecovery indices]
  match bp.client.indicesRecovery tr indices with
  | .error _ => (restoreTrack backupId "PROCEEDING" changedNameDb, tr1)
  | .ok info =>
    match indexLoop backupId repoName info false with
    | none => (restoreTrack backupId "PROCEEDING" changedNameDb, tr1)
    | some true => (restoreTrack backupId "SUCCESS" changedNameDb, tr1)
    | some false => (restoreTrack backupId "PROCEEDING" changedNameDb, tr1)

/-- The poll loop `TrackLoop` of `RestoreBackup` for one renamed index.  The
first argument is `limit - tries`, the number of rounds the loop condition
`tries < limit` still admits. -/
def trackLoop (bp : BackupProvider) (ctx : Context) (backupId newName fromRepo : String) :
    Nat → Nat → String → Trace → (Nat × String) × Trace
  | 0, tries, status, tr => ((tries, status), tr)
  | remaining + 1, tries, _, tr =>
    let tries := tries + 1
    let track := TrackRestoreIndices bp ctx backupId [newName] fromRepo none tr
    let status := track.1.Status
    if status = "PROCEEDING" then
      trackLoop bp ctx backupId newName fromRepo remaining tries status
        (track.2 ++ [Event.sleep 1])
    else ((tries, status), track.2)

/-- The message of the error `RestoreBackup` returns when an index did not
reach `SUCCESS`. -/
def restoreFailedMessage (index newName status : String) (tries : Nat) : String :=
  "failed to restore " ++ index ++ "->" ++ newName ++ ", status is '" ++ status
    ++ "' after " ++ toString tries ++ " retries"

/-- The sequential branch of `RestoreBackup`: the loop over the indices, one
restore request and one poll loop per index. -/
def sequentialRestore (rt : Runtime) (bp : BackupProvider) (ctx : Context)
    (backupId fromRepo : String) :
    List String → NameMap → Trace → Outcome (Option NameMap × Option String) × Trace
  | [], changedNameDb, tr => (.returned (some changedNameDb, none), tr)
  | index :: rest, changedNameDb, tr =>
    let name := bp.indexNames.NameIndex rt tr
    let newName := name.1
    match requestRestore rt bp ctx [index] backupId index newName name.2 with
    | (.panicked msg, tr1) => (.panicked msg, tr1)
    | (.returned (some err), tr1) => (.returned (none, some err), tr1)
    | (.returned none, tr1) =>
      let changedNameDb := changedNameDb.set index newName
      let limit := 120
      let polled := trackLoop bp ctx backupId newName fromRepo limit 0 "" tr1
      let tries := polled.1.1
      let status := polled.1.2
      if status ≠ "SUCCESS" then
        (.returned (none, some (restoreFailedMessage index newName status tries)), polled.2)
      else sequentialRestore rt bp ctx backupId fromRepo rest changedNameDb polled.2

/-- The bulk branch of `RestoreBackup`: one restore request renaming every
index with the shared prefix, then the mapping built without waiting. -/
def bulkRestore (rt : Runtime) (bp : BackupProvider) (ctx : Context) (backupId : String)
    (indices : List String) (pfx : String) (changedNameDb : NameMap) (tr : Trace) :
    Outcome (Option NameMap × Option String) × Trace :=
  match requestRestore rt bp ctx indices backupId ".+" (pfx ++ "$0") tr with
  | (.panicked msg, tr1) => (.panicked msg, tr1)
  | (.returned (some err), tr1) => (.returned (none, some err), tr1)
  | (.returned none, tr1) =>
    (.returned
      (some (indices.foldl (fun m indexName => m.set indexName (pfx ++ indexName))
        changedNameDb), none), tr1)

def getSnapshotStatus (bp : BackupProvider) (snapshotName repo : String) (_ctx : Context)
    (tr : Trace) : (SnapshotStatus × Option String) × Trace :=
  let tr1 := tr ++ [Event.snapshotStatus repo [snapshotName]]
  let zero : SnapshotStatus := { State := "", Snapshot := "", Indices := [] }
  match bp.client.snapshotStatus tr repo [snapshotName] with
  | .error err => ((zero, some err), tr1)
  | .ok snapshots =>
    match snapshots.Snapshots.find? (fun snapshot => snapshot.Snapshot = snapshotName) with
    | some snapshot => ((snapshot, none), tr1)
    | none =>
      ((zero, some ("failed to find '" ++ snapshotName ++ "' snapshot in " ++ repo)), tr1)

def getActualIndices (bp : BackupProvider) (backupId repoName : String)
    (changedNameDb : Option NameMap) (ctx : Context) (tr : Trace) :
    (List String × Option String) × Trace :=
  let repoName := if repoName = "" then backupId else repoName
  match getSnapshotStatus bp backupId repoName ctx tr with
  | ((_, some err), tr1) =>
    (([], some ("failed to find '" ++ backupId ++ "' snapshot: " ++ err)), tr1)
  | ((snapshot, none), tr1) =>
    ((snapshot.Indices.map (fun name =>
        let newName := mapIndex changedNameDb name
        if newName = "" then name else newName), none), tr1)

/-- The loop of `RestoreBackup` that finds the longest index name. -/
def longestName (indices : List String) : Nat :=
  indices.foldl (fun maxLen index => Max index.utf8ByteSize maxLen) 0

def RestoreBackup (rt : Runtime) (bp : BackupProvider) (backupId : String)
    (dbs : List String) (fromRepo : String) (regenerateNames : Bool) (ctx : Context)
    (tr : Trace) : Outcome (Option NameMap × Option String) × Trace :=
  if dbs.length = 0 then
    (.returned (none, some "database prefixes to restore are not specified"), tr)
  else if regenerateNames then
    match getActualIndices bp backupId fromRepo (some []) ctx tr with
    | ((_, some err), tr1) => (.returned (none, some err), tr1)
    | ((indices, none), tr1) =>
      let maxLen := longestName indices
      let changedNameDb : NameMap := []
      let name := bp.indexNames.NameIndex rt tr1
      let pfx := name.1 ++ "_"
      if pfx.utf8ByteSize + maxLen ≥ 255 then
        sequentialRestore rt bp ctx backupId fromRepo indices changedNameDb name.2
      else bulkRestore rt bp ctx backupId indices pfx changedNameDb name.2
  else
    match requestRestore rt bp ctx dbs backupId "" "" tr with
    | (.panicked msg, tr1) => (.panicked msg, tr1)
    | (.returned err, tr1) => (.returned (none, err), tr1)

/-- The `switch` of `getJobStatus` on Curator's raw state. -/
def translateState (state : String) : String :=
  if state = "Failed" then "FAIL"
  else if state = "Successful" then "SUCCESS"
  else if state = "Queued" then "PROCEEDING"
  else if state = "Processing" then "PROCEEDING"
  else "FAIL"

def getJobStatus (rt : Runtime) (bp : BackupProvider) (snapshotName : String)
    (ctx : Context) (tr : Trace) : Outcome (String × Option String) × Trace :=
  let url := bp.Curator.url ++ "/" ++ "jobstatus" ++ "/" ++ snapshotName
  if rt.newRequestOk url then
    match ctx.requestId with
    | none => (.panicked "interface conversion: interface \x7b\x7d is nil, not string", tr)
    | some requestId =>
      let request : HttpRequest :=
        { Method := "GET"
          URL := url
          Body := none
          Header := [(RequestIdKey, requestId)]
          BasicAuth := some (bp.Curator.username, bp.Curator.password) }
      let tr1 := tr ++ [Event.curatorDo request]
      match bp.Curator.client tr request with
      | .error err => (.returned ("FAIL", some err), tr1)
      | .ok response =>
        match response.Body with
        | .error err => (.returned ("FAIL", some err), tr1)
        | .ok body =>
          match rt.decodeJobStatus body with
          | .error err => (.returned ("FAIL", some err), tr1)
          | .ok jobStatus => (.returned (translateState jobStatus.State, none), tr1)
  else (.returned ("FAIL", some "http.NewRequest failed"), tr)

def TrackBackup (rt : Runtime) (bp : BackupProvider) (backupID : String) (ctx : Context)
    (tr : Trace) : Outcome ActionTrack × Trace :=
  match getJobStatus rt bp backupID ctx tr with
  | (.panicked msg, tr1) => (.panicked msg, tr1)
  | (.returned (_, some _), tr1) => (.returned (backupTrack backupID "FAIL"), tr1)
  | (.returned (jobStatus, none), tr1) => (.returned (backupTrack backupID jobStatus), tr1)

def TrackRestore (rt : Runtime) (bp : BackupProvider) (backupId : String) (ctx : Context)
    (tr : Trace) : Outcome ActionTrack × Trace :=
  match getJobStatus rt bp backupId ctx tr with
  | (.panicked msg, tr1) => (.panicked msg, tr1)
  | (.returned (_, some _), tr1) => (.returned (backupTrack backupId "FAIL"), tr1)
  | (.returned (jobStatus, none), tr1) =>
    (.returned (restoreTrack backupId jobStatus none), tr1)

/-- The body `CollectBackup` formats for a non-empty list. -/
def collectRequestBody (dbs : List String) : String :=
  "\n\t\t\x7b\n\t\t\t\"dbs\": [\"" ++ ",".intercalate dbs ++ "\"]\n\t\t\x7d"

/-- The request `CollectBackup` builds for Curator, once the context has given
its request id. -/
def collectRequest (bp : BackupProvider) (requestId : String) (dbs : List String) :
    HttpRequest :=
  { Method := "POST"
    URL := bp.Curator.url ++ "/" ++ "backup"
    Body := some (collectRequestBody dbs)
    Header := [("Content-Type", "application/json"), (RequestIdKey, requestId)]
    BasicAuth := some (bp.Curator.username, bp.Curator.password) }

/-- With an empty list the body stays a nil `*strings.Reader`; `http.NewRequest`
calls `Len` on it, a nil pointer dereference. -/
def CollectBackup (rt : Runtime) (bp : BackupProvider) (dbs : List String) (ctx : Context)
    (tr : Trace) : Outcome (String × Option String) × Trace :=
  if rt.newRequestOk (bp.Curator.url ++ "/" ++ "backup") then
    if dbs.length ≠ 0 then
      match ctx.requestId with
      | none => (.panicked "interface conversion: interface \x7b\x7d is nil, not string", tr)
      | some requestId =>
        let request := collectRequest bp requestId dbs
        let tr1 := tr ++ [Event.curatorDo request]
        match bp.Curator.client tr request with
        | .error err => (.returned ("", some err), tr1)
        | .ok response =>
          match response.Body with
          | .error err => (.returned ("", some err), tr1)
          | .ok responseBody => (.returned (responseBody, none), tr1)
    else (.panicked "invalid memory address or nil pointer dereference", tr)
  else (.panicked "http.NewRequest failed", tr)

/-- The function `strings.ReplaceAll(s, "-", "")`. -/
def removeDashes (s : String) : String :=
  String.mk (s.data.filter (fun c => c ≠ '-'))

def GenerateUUID (rt : Runtime) (tr : Trace) : String × Trace :=
  let u := GetUUID rt tr
  (removeDashes u.1, u.2)

/-- The parts of the `*http.Request` that `RestoreBackupHandler` reads: the
`X-Request-Id` header (`""` when absent), the cancellation of the request's
context, the `backupID` path variable, the outcome of decoding the body as a
JSON list of strings, and the `regenerateNames` query parameter (`""` when
absent); and the `indices` path variable that
`TrackRestoreFromIndicesHandler` reads. -/
structure RestoreHttpRequest where
  requestIdHeader : String
  cancelledAfter : Option Nat
  backupID : String
  databases : Except String (List String)
  regenerateNames : String
  indices : String := ""

def PrepareContext (rt : Runtime) (r : RestoreHttpRequest) (tr : Trace) : Context × Trace :=
  if r.requestIdHeader = "" then
    let u := GenerateUUID rt tr
    ({ requestId := some u.1, cancelledAfter := r.cancelledAfter }, u.2)
  else ({ requestId := some r.requestIdHeader, cancelledAfter := r.cancelledAfter }, tr)

/-- What a handler writes: status 500 with a message, or status 200 with the
JSON rendering of a track (`json.Marshal` has no failing case on an
`ActionTrack`). -/
inductive HandlerResponse where
  | internalServerError (body : String)
  | ok (track : ActionTrack)
deriving DecidableEq, Repr

def RestoreBackupHandler (rt : Runtime) (bp : BackupProvider) (repo basePath : String)
    (r : RestoreHttpRequest) (tr : Trace) : Outcome HandlerResponse × Trace :=
  let prepared := PrepareContext rt r tr
  let ctx := prepared.1
  let backupID := r.backupID
  match r.databases with
  | .error err => (.returned (.internalServerError err), prepared.2)
  | .ok databases =>
    let regenerateNames := decide (r.regenerateNames = "true")
    match RestoreBackup rt bp backupID databases repo regenerateNames ctx prepared.2 with
    | (.panicked msg, tr1) => (.panicked msg, tr1)
    | (.returned (_, some err), tr1) => (.returned (.internalServerError err), tr1)
    | (.returned (changedNameDb, none), tr1) =>
      match TrackRestore rt bp backupID ctx tr1 with
      | (.panicked msg, tr2) => (.panicked msg, tr2)
      | (.returned response, tr2) =>
        if regenerateNames then
          match getActualIndices bp backupID repo changedNameDb ctx tr2 with
          | ((_, some err), tr3) => (.returned (.internalServerError err), tr3)
          | ((indices, none), tr3) =>
            let trackPath := basePath ++ "/backups/track/restoring/backups/" ++ backupID
              ++ "/indices/" ++ ",".intercalate indices
            (.returned (.ok { response with TrackPath := some trackPath }), tr3)
        else (.returned (.ok response), tr2)

/-- The function `strings.Split(s, sep)` for a separator of one character:
the pieces of `s` between the separators, `[s]` when there is none. -/
def stringsSplit (s : String) (sep : Char) : List String :=
  (s.data.splitOn sep).map String.mk

def TrackRestoreFromIndicesHandler (rt : Runtime) (bp : BackupProvider) (fromRepo : String)
    (r : RestoreHttpRequest) (tr : Trace) : Outcome HandlerResponse × Trace :=
  let prepared := PrepareContext rt r tr
  let ctx := prepared.1
  let backupID := r.backupID
  let indicesLine := r.indices
  let indices := stringsSplit indicesLine ','
  let response := TrackRestoreIndices bp ctx backupID indices fromRepo none prepared.2
  (.returned (.ok response.1), response.2)

/-! ## Reading a trace -/

/-- The event is a request sent to Curator. -/
def Event.isCuratorDo : Event → Bool
  | .curatorDo _ => true
  | _ => false

/-- The event is an indices-recovery query (one tracking poll). -/
def Event.isIndicesRecovery : Event → Bool
  | .indicesRecovery _ => true
  | _ => false

/-- The event is a snapshot-status query. -/
def Event.isSnapshotStatus : Event → Bool
  | .snapshotStatus _ _ => true
  | _ => false

/-- The event is a sleep. -/
def Event.isSleep : Event → Bool
  | .sleep _ => true
  | _ => false

/-- All shard descriptors of a recovery info, in the order the loops visit
them. -/
def allShards (info : RecoveryInfo) : List ShardRecoveryInfo :=
  info.flatMap (fun entry => entry.2.Shards)

/-- The shard comes from the given snapshot and repository. -/
def shardMatches (backupId repoName : String) (shardInfo : ShardRecoveryInfo) : Bool :=
  decide (shardInfo.Source.Snapshot = backupId ∧ shardInfo.Source.Repository = repoName)

/-- The two strings are equal ignoring letter case: the comparison the
specification words for the stage of a shard (the code compares with two
literals instead, see `shardLoop`). -/
def equalIgnoringCase (a b : String) : Bool :=
  a.data.map Char.toUpper == b.data.map Char.toUpper

/-! ## Reading a JSON text -/

/-- A token of a JSON text: one of the six structural characters or a string. -/
inductive JsonToken where
  | beginObject
  | endObject
  | beginArray
  | endArray
  | nameSeparator
  | valueSeparator
  | string (s : String)
deriving DecidableEq, Repr

/-- Where the reading of a JSON text stands: between tokens, inside a string
(with its characters so far, last first), or right after a backslash inside a
string. -/
inductive JsonMode where
  | outside
  | inString (chars : List Char)
  | escaped (chars : List Char)
deriving DecidableEq, Repr

/-- The character a two-character escape of a JSON string stands for. -/
def jsonEscape (c : Char) : Option Char :=
  if c = Char.ofNat 34 then some (Char.ofNat 34)
  else if c = Char.ofNat 92 then some (Char.ofNat 92)
  else if c = '/' then some '/'
  else if c = 'b' then some (Char.ofNat 8)
  else if c = 'f' then some (Char.ofNat 12)
  else if c = 'n' then some '\n'
  else if c = 'r' then some '\r'
  else if c = 't' then some '\t'
  else none

/-- The structural character a character stands for outside a string. -/
def jsonStructural (c : Char) : Option JsonToken :=
  if c = Char.ofNat 123 then some .beginObject
  else if c = Char.ofNat 125 then some .endObject
  else if c = '[' then some .beginArray
  else if c = ']' then some .endArray
  else if c = ':' then some .nameSeparator
  else if c = ',' then some .valueSeparator
  else none

/-- The tokens of a JSON text (RFC 8259) made of structural characters,
strings and white space; `tokens` holds the tokens read so far, last first.  A
string holds any character except the quotation mark, the backslash and the
control characters below U+0020, or a two-character escape.  A text with
anything else (a number, a literal name, a `\u` escape) is refused. -/
def jsonTokens : JsonMode → List JsonToken → List Char → Option (List JsonToken)
  | .outside, tokens, [] => some tokens.reverse
  | .outside, tokens, c :: cs =>
    if c = ' ' ∨ c = '\t' ∨ c = '\n' ∨ c = '\r' then jsonTokens .outside tokens cs
    else if c = Char.ofNat 34 then jsonTokens (.inString []) tokens cs
    else
      match jsonStructural c with
      | some token => jsonTokens .outside (token :: tokens) cs
      | none => none
  | .inString _, _, [] => none
  | .inString chars, tokens, c :: cs =>
    if c = Char.ofNat 34 then
      jsonTokens .outside (.string (String.mk chars.reverse) :: tokens) cs
    else if c = Char.ofNat 92 then jsonTokens (.escaped chars) tokens cs
    else if c.toNat < 32 then none
    else jsonTokens (.inString (c :: chars)) tokens cs
  | .escaped _, _, [] => none
  | .escaped chars, tokens, c :: cs =>
    match jsonEscape c with
    | some char => jsonTokens (.inString (char :: chars)) tokens cs
    | none => none

/-- The value of a member of the objects read here: a string or an array of
strings. -/
inductive JsonMember where
  | string (s : String)
  | strings (items : List String)
deriving DecidableEq, Repr

/-- The rest of an array of strings after one of its elements. -/
def readMoreItems : List JsonToken → Option (List String × List JsonToken)
  | .endArray :: rest => some ([], rest)
  | .valueSeparator :: .string s :: rest =>
    match readMoreItems rest with
    | some (items, rest1) => some (s :: items, rest1)
    | none => none
  | _ => none

/-- An array of strings after its opening bracket. -/
def readItems : List JsonToken → Option (List String × List JsonToken)
  | .endArray :: rest => some ([], rest)
  | .string s :: rest =>
    match readMoreItems rest with
    | some (items, rest1) => some (s :: items, rest1)
    | none => none
  | _ => none

/-- One member of an object: a name, the name separator and a value. -/
def readMember : List JsonToken → Option ((String × JsonMember) × List JsonToken)
  | .string name :: .nameSeparator :: .string value :: rest =>
    some ((name, .string value), rest)
  | .string name :: .nameSeparator :: .beginArray :: rest =>
    match readItems rest with
    | some (items, rest1) => some ((name, .strings items), rest1)
    | none => none
  | _ => none

/-- The rest of an object after one of its members, up to the end of the text;
`fuel` bounds the number of members. -/
def readMoreMembers : Nat → List JsonToken → Option (List (String × JsonMember))
  | _, [.endObject] => some []
  | fuel + 1, .valueSeparator :: rest =>
    match readMember rest with
    | some (member, rest1) =>
      match readMoreMembers fuel rest1 with
      | some members => some (member :: members)
      | none => none
    | none => none
  | _, _ => none

/-- A token list that is one object whose members are strings and arrays of
strings: its members in order. -/
def readMembers : List JsonToken → Option (List (String × JsonMember))
  | [.beginObject, .endObject] => some []
  | .beginObject :: rest =>
    match readMember rest with
    | some (member, rest1) =>
      match readMoreMembers rest1.length rest1 with
      | some members => some (member :: members)
      | none => none
    | none => none
  | _ => none

/-- The members of a JSON text that is one object whose members are strings
and arrays of strings; `none` for any other text. -/
def readObject (text : String) : Option (List (String × JsonMember)) :=
  match jsonTokens .outside [] text.data with
  | some tokens => readMembers tokens
  | none => none

/-- The string has no quotation mark, no backslash and no control character:
it can stand between quotation marks in a JSON text as it is. -/
def plainText (s : String) : Bool :=
  s.data.all (fun c => c ≠ Char.ofNat 34 ∧ c ≠ Char.ofNat 92 ∧ 32 ≤ c.toNat)

/-! ## `common`: connection properties as a map -/

/-- Connection properties (`common.ConnectionProperties`); the JSON names of
the fields are `dbName`, `host`, `port`, `url`, and, each with `omitempty`,
`username`, `password`, `resourcePrefix`, `role` and `tls`. -/
structure ConnectionProperties where
  DbName : String
  Host : String
  Port : Int
  Url : String
  Username : String
  Password : String
  ResourcePrefix : String
  Role : String
  Tls : Bool
deriving DecidableEq, Repr

/-- A JSON value as `json.Marshal` writes it for a field of
`ConnectionProperties`. -/
inductive JsonValue where
  | string (s : String)
  | number (n : Int)
  | bool (b : Bool)
deriving DecidableEq, Repr

/-- A value `json.Unmarshal` stores in a `map[string]interface{}`: a string, a
`float64` or a bool.  `float64 n` is the Go value `float64(n)`: the number is
written as the decimal of the integer `n` and parsed to the nearest
`float64`. -/
inductive AnyValue where
  | string (s : String)
  | float64 (n : Int)
  | bool (b : Bool)
deriving DecidableEq, Repr

/-- A non-nil `map[string]interface{}`, as an association list with unique
keys. -/
abbrev AnyMap := List (String × AnyValue)

/-- Reading `m[k]`; `none` when the key is absent. -/
def AnyMap.get? (m : AnyMap) (k : String) : Option AnyValue :=
  match m with
  | [] => none
  | (k', v) :: rest => if k' = k then some v else AnyMap.get? rest k

/-- The assignment `m[k] = v`. -/
def AnyMap.set (m : AnyMap) (k : String) (v : AnyValue) : AnyMap :=
  match m with
  | [] => [(k, v)]
  | (k', v') :: rest => if k' = k then (k, v) :: rest else (k', v') :: AnyMap.set rest k v

/-- The members of the object `json.Marshal` writes for connection
properties, in field order; a field with `omitempty` is left out when it is the
empty string or false.  Marshalling strings, an int and a bool has no failing
case. -/
def jsonMarshal (properties : ConnectionProperties) :
    Except String (List (String × JsonValue)) :=
  .ok ([("dbName", .string properties.DbName), ("host", .string properties.Host),
      ("port", .number properties.Port), ("url", .string properties.Url)]
    ++ (if properties.Username = "" then [] else [("username", .string properties.Username)])
    ++ (if properties.Password = "" then [] else [("password", .string properties.Password)])
    ++ (if properties.ResourcePrefix = "" then []
        else [("resourcePrefix", .string properties.ResourcePrefix)])
    ++ (if properties.Role = "" then [] else [("role", .string properties.Role)])
    ++ (if properties.Tls = false then [] else [("tls", .bool properties.Tls)]))

/-- What `json.Unmarshal` stores for a JSON value in an `interface{}`. -/
def decodeValue : JsonValue → AnyValue
  | .string s => .string s
  | .number n => .float64 n
  | .bool b => .bool b

/-- The function `json.Unmarshal` of an object into a
`map[string]interface{}`: the members are stored one after the other. -/
def jsonUnmarshal (body : List (String × JsonValue)) : Except String AnyMap :=
  .ok (body.foldl (fun m member => m.set member.1 (decodeValue member.2)) [])

def ConvertStructToMap (properties : ConnectionProperties) : Option AnyMap × Option String :=
  match jsonMarshal properties with
  | .error err => (none, some err)
  | .ok body =>
    match jsonUnmarshal body with
    | .error err => (none, some err)
    | .ok result => (some result, none)

/-! ## `common`: background executor -/

/-- The executor (`common.BackgroundExecutor`) with the state of its channel:
`queue` is the content of the channel buffer, oldest first, `closed` tells
whether the channel is closed, `active` is the Go field.  Two more components
record what the goroutine of `start` did: the works it ran, in order, and
whether it has returned.  A work is a value of `Task`. -/
structure BackgroundExecutor (Task : Type) where
  queue : List Task
  closed : Bool
  active : Bool
  executed : List Task
  stopped : Bool
deriving DecidableEq, Repr

/-- The capacity of the channel `NewBackgroundExecutor` makes. -/
def queueCapacity : Nat := 5

def NewBackgroundExecutor (Task : Type) : BackgroundExecutor Task :=
  { queue := [], closed := false, active := true, executed := [], stopped := false }

/-- The call `Submit(work)`; `none` while the send blocks on a full buffer. -/
def BackgroundExecutor.Submit {Task : Type} (executor : BackgroundExecutor Task)
    (work : Task) : Option (BackgroundExecutor Task) :=
  if executor.active then
    if executor.queue.length < queueCapacity then
      some { executor with queue := executor.queue ++ [work] }
    else none
  else some executor

def BackgroundExecutor.Shutdown {Task : Type} (executor : BackgroundExecutor Task) :
    BackgroundExecutor Task :=
  if executor.active then { executor with active := false, closed := true }
  else executor

/-- One round of the goroutine of `start`: it takes the oldest work and runs
it, or returns when the channel is closed and empty; `none` while the receive
blocks on an empty open channel, and after the goroutine has returned. -/
def BackgroundExecutor.receive {Task : Type} (executor : BackgroundExecutor Task) :
    Option (BackgroundExecutor Task) :=
  if executor.stopped then none
  else
    match executor.queue with
    | work :: rest =>
      some { executor with queue := rest, executed := executor.executed ++ [work] }
    | [] => if executor.closed then some { executor with stopped := true } else none

/-- What can happen to an executor: a caller submits a work, a caller shuts it
down, or its goroutine makes one round. -/
inductive ExecutorAction (Task : Type) where
  | submit (work : Task)
  | shutdown
  | receive
deriving DecidableEq, Repr

def BackgroundExecutor.step {Task : Type} (executor : BackgroundExecutor Task) :
    ExecutorAction Task → Option (BackgroundExecutor Task)
  | .submit work => executor.Submit work
  | .shutdown => some executor.Shutdown
  | .receive => executor.receive

/-- A sequence of actions, one after the other; `none` when one of them
cannot complete in the state it meets. -/
def BackgroundExecutor.run {Task : Type} (executor : BackgroundExecutor Task) :
    List (ExecutorAction Task) → Option (BackgroundExecutor Task)
  | [] => some executor
  | action :: rest =>
    match executor.step action with
    | none => none
    | some next => next.run rest

/-- The works submitted before the first shutdown of a sequence of actions, in
the order of their submission. -/
def submittedBeforeShutdown {Task : Type} : List (ExecutorAction Task) → List Task
  | [] => []
  | .submit work :: rest => work :: submittedBeforeShutdown rest
  | .shutdown :: _ => []
  | .receive :: rest => submittedBeforeShutdown rest

/-! ## `health` -/

/-- Health of one component (`common.ComponentHealth`). -/
structure ComponentHealth where
  Status : String
deriving DecidableEq, Repr

/-- The adapter health (`health.Health`); `DbaasAggregatorHealth` is a pointer,
`none` when nil.  The `Opensearch` field is only used for `GetHealth`, whose
answer is an argument of `DetermineHealthStatus`. -/
structure Health where
  Status : String
  OpensearchHealth : ComponentHealth
  DbaasAggregatorHealth : Option ComponentHealth
deriving DecidableEq, Repr

def healthStatuses : List String :=
  ["DOWN", "OUT_OF_SERVICE", "PROBLEM", "WARNING", "UNKNOWN", "UP"]

/-- The loop of `DetermineHealthStatus` over the statuses that are left. -/
def healthLoop : List String → Health → Outcome Health
  | [], h => .returned h
  | status :: rest, h =>
    if status = h.OpensearchHealth.Status then .returned { h with Status := status }
    else
      match h.DbaasAggregatorHealth with
      | none => .panicked "invalid memory address or nil pointer dereference"
      | some aggregator =>
        if status = aggregator.Status then .returned { h with Status := status }
        else healthLoop rest h

/-- The argument `getHealth` is the answer of `h.Opensearch.GetHealth(ctx)`. -/
def DetermineHealthStatus (getHealth : String) (h : Health) : Outcome Health :=
  healthLoop healthStatuses { h with OpensearchHealth := { Status := getHealth } }

/-- The position of a status in `healthStatuses`, the most severe first; 6 for
a string that is none of them. -/
def severity (status : String) : Nat :=
  healthStatuses.indexOf status

/-! ## Concrete scenarios -/

/-- A runtime whose UUIDs are all `"u"`, which accepts every URL and reads a
job status body as the bare state. -/
def sampleRuntime : Runtime :=
  { uuidNewV4 := fun _ => .ok "u"
    newRequestOk := fun _ => true
    decodeJobStatus := fun body =>
      .ok { State := body, Message := "", Vault := "", Kind := "", Error := "",
            TaskId := "" } }

/-- A snapshot `"dbaas_1_1"` holding the indices `"a"` and `"b"`. -/
def sampleSnapshots : Snapshots :=
  { Snapshots := [{ State := "SUCCESS", Snapshot := "dbaas_1_1", Indices := ["a", "b"] }] }

/-- A search engine that knows `sampleSnapshots` and reports no recovery. -/
def sampleClient : Client :=
  { indicesRecovery := fun _ _ => .ok []
    snapshotStatus := fun _ _ _ => .ok sampleSnapshots }

/-- A Curator that accepts every request and answers `Queued`. -/
def sampleCurator : Curator :=
  { url := "http://curator"
    username := "user"
    password := "pass"
    client := fun _ _ => .ok { StatusCode := 200, Body := .ok "Queued" } }

/-- A Curator that answers with the unknown state `Weird`. -/
def weirdCurator : Curator :=
  { url := "http://curator"
    username := "user"
    password := "pass"
    client := fun _ _ => .ok { StatusCode := 200, Body := .ok "Weird" } }

def sampleProvider : BackupProvider :=
  { client := sampleClient
    indexNames := NewIndexAdapter
    repoRoot := "snapshots/"
    Curator := sampleCurator }

def weirdProvider : BackupProvider :=
  { client := sampleClient
    indexNames := NewIndexAdapter
    repoRoot := "snapshots/"
    Curator := weirdCurator }

def sampleContext : Context :=
  { requestId := some "r1" }

/-- A shard restored from snapshot `"dbaas_1_1"` of repository `"snapshots"`. -/
def restoredShard (stage index : String) : ShardRecoveryInfo :=
  { Kind := "SNAPSHOT"
    Stage := stage
    Source := { Snapshot := "dbaas_1_1", Repository := "snapshots", Index := index } }

/-- A shard restored from another snapshot. -/
def foreignShard (stage index : String) : ShardRecoveryInfo :=
  { Kind := "SNAPSHOT"
    Stage := stage
    Source := { Snapshot := "other", Repository := "snapshots", Index := index } }

/-- Two finished shards of `"dbaas_1_1"` and an unfinished shard of another
snapshot. -/
def doneInfo : RecoveryInfo :=
  [("a", { Shards := [restoredShard "DONE" "a", restoredShard "done" "a"] }),
   ("b", { Shards := [foreignShard "INDEX" "b"] })]

/-- One shard of `"dbaas_1_1"` whose stage is spelled `Done`. -/
def mixedCaseInfo : RecoveryInfo :=
  [("a", { Shards := [restoredShard "Done" "a"] })]

/-- A search engine that always answers the given recovery info. -/
def clientWithRecovery (info : RecoveryInfo) : Client :=
  { indicesRecovery := fun _ _ => .ok info
    snapshotStatus := fun _ _ _ => .ok sampleSnapshots }

def providerWithRecovery (info : RecoveryInfo) : BackupProvider :=
  { client := clientWithRecovery info
    indexNames := NewIndexAdapter
    repoRoot := "snapshots/"
    Curator := sampleCurator }

/-- An index name of 250 bytes, too long for the bulk restoration. -/
def longIndex : String :=
  String.mk (List.replicate 250 'x')

/-- A snapshot `"dbaas_1_1"` holding `longIndex` and `"b"`. -/
def longSnapshots : Snapshots :=
  { Snapshots :=
      [{ State := "SUCCESS", Snapshot := "dbaas_1_1", Indices := [longIndex, "b"] }] }

/-- A search engine that knows `longSnapshots` and whose recovery query fails
every time, so that tracking reports `PROCEEDING` forever. -/
def stalledClient : Client :=
  { indicesRecovery := fun _ _ => .error "no recovery in progress"
    snapshotStatus := fun _ _ _ => .ok longSnapshots }

def stalledProvider : BackupProvider :=
  { client := stalledClient
    indexNames := NewIndexAdapter
    repoRoot := "snapshots/"
    Curator := sampleCurator }

/-- A Curator that cannot be reached. -/
def unreachableCurator : Curator :=
  { url := "http://curator"
    username := "user"
    password := "pass"
    client := fun _ _ => .error "connection refused" }

def unreachableProvider : BackupProvider :=
  { client := sampleClient
    indexNames := NewIndexAdapter
    repoRoot := "snapshots/"
    Curator := unreachableCurator }

/-- A Curator that answers every request with status 500. -/
def failingCurator : Curator :=
  { url := "http://curator"
    username := "user"
    password := "pass"
    client := fun _ _ => .ok { StatusCode := 500, Body := .ok "Internal Server Error" } }

def failingProvider : BackupProvider :=
  { client := sampleClient
    indexNames := NewIndexAdapter
    repoRoot := "snapshots/"
    Curator := failingCurator }

/-- The context of `sampleContext`, cancelled from the moment the trace holds
five events. -/
def cancelledContext : Context :=
  { requestId := some "r1", cancelledAfter := some 5 }

/-- A search engine that knows `longSnapshots`; its recovery query reports the
finished recovery `doneInfo` at the second poll of the first restored index
(one Curator request and one sleep so far) and fails at every other poll. -/
def slowClient : Client :=
  { indicesRecovery := fun tr _ =>
      if tr.countP Event.isCuratorDo = 1 ∧ tr.countP Event.isSleep = 1 then .ok doneInfo
      else .error "no recovery in progress"
    snapshotStatus := fun _ _ _ => .ok longSnapshots }

def slowProvider : BackupProvider :=
  { client := slowClient
    indexNames := NewIndexAdapter
    repoRoot := "snapshots/"
    Curator := sampleCurator }

/-- A restore request for the backup `dbaas_1_1` that asks for new names. -/
def sampleRestoreRequest : RestoreHttpRequest :=
  { requestIdHeader := "r1"
    cancelledAfter := none
    backupID := "dbaas_1_1"
    databases := .ok ["db1"]
    regenerateNames := "true" }

/-! ## Theorems -/

/-- C1: for every backupId, repository and value of regenerateNames,
`RestoreBackup` called with an empty database list returns a non-nil error and
a nil name mapping, and leaves the trace untouched: no Curator request and no
search-engine query was issued. -/
theorem RestoreBackup_empty_databases (rt : Runtime) (bp : BackupProvider)
    (backupId fromRepo : String) (regenerateNames : Bool) (ctx : Context) (tr : Trace) :
    ∃ err : String,
      RestoreBackup rt bp backupId [] fromRepo regenerateNames ctx tr
        = (.returned (none, some err), tr) :=
  ⟨"database prefixes to restore are not specified", by simp [RestoreBackup]⟩

/-- C2: for a non-empty database list with regenerateNames=false (the Curator
URL being accepted by `http.NewRequest` and the context carrying a request id),
`RestoreBackup` adds exactly one event to the trace, a Curator restore request
whose body carries the comma-joined requested names and nothing between the
`dbs` array and the closing brace; it makes no search-engine query; it returns
a nil mapping, and a nil error exactly when that request had no transport
error. -/
theorem RestoreBackup_without_regeneration (rt : Runtime) (bp : BackupProvider)
    (backupId : String) (dbs : List String) (fromRepo : String) (ctx : Context)
    (tr : Trace) (requestId : String)
    (hdbs : dbs ≠ [])
    (hurl : rt.newRequestOk (bp.Curator.url ++ "/restore") = true)
    (hctx : ctx.requestId = some requestId) :
    let request : HttpRequest :=
      { Method := "POST"
        URL := bp.Curator.url ++ "/restore"
        Body := some ("\n\t\t\x7b\n\t\t\t\"vault\": \"" ++ backupId
          ++ "\",\t\n\t\t\t\"dbs\": [\"" ++ ",".intercalate dbs
          ++ "\"]\n\t\t\n\t\t\x7d\t\t\n\t\t")
        Header := [("Content-Type", "application/json"), ("X-Request-Id", requestId)]
        BasicAuth := some (bp.Curator.username, bp.Curator.password) }
    let result := RestoreBackup rt bp backupId dbs fromRepo false ctx tr
    result.2 = tr ++ [Event.curatorDo request] ∧
    ∃ err : Option String, result.1 = .returned (none, err) ∧
      (err = none ↔ ∃ response, bp.Curator.client tr request = .ok response) := by
  intro request result
  have hlen : dbs.length ≠ 0 := by
    intro h; exact hdbs (List.length_eq_zero.mp h)
  have hurl' : rt.newRequestOk (bp.Curator.url ++ "/" ++ "restore") = true := by
    simpa [String.append_assoc] using hurl
  have hbody : restoreRequestBody dbs backupId "" "" = ("\n\t\t\x7b\n\t\t\t\"vault\": \"" ++ backupId
          ++ "\",\t\n\t\t\t\"dbs\": [\"" ++ ",".intercalate dbs
          ++ "\"]\n\t\t\n\t\t\x7d\t\t\n\t\t") := by
    simp [restoreRequestBody, namesRegenerateRequestPart, String.append_assoc]
  have hreq : requestRestore rt bp ctx dbs backupId "" "" tr =
      (match bp.Curator.client tr request with
        | .error err => (.returned (some err), tr ++ [Event.curatorDo request])
        | .ok _ => (.returned none, tr ++ [Event.curatorDo request])) := by
    simp only [requestRestore, restoreRequest, hurl', hctx, hbody, RequestIdKey, if_true]
    have hu : bp.Curator.url ++ "/" ++ "restore" = bp.Curator.url ++ "/restore" := by
      simp [String.append_assoc]
    simp only [hu, request]
  have hres : result = (match requestRestore rt bp ctx dbs backupId "" "" tr with
      | (.panicked msg, tr1) => (.panicked msg, tr1)
      | (.returned err, tr1) => (.returned (none, err), tr1)) := by
    simp [result, RestoreBackup, hlen]
  rw [hres, hreq]
  cases hc : bp.Curator.client tr request with
  | error e => simp
  | ok response => simp

/-- Witness of C2 on the scenario of `TestRestoreBackup`. -/
theorem RestoreBackup_without_regeneration_witness :
    ["db1", "db2"] ≠ [] ∧
    sampleRuntime.newRequestOk (sampleProvider.Curator.url ++ "/restore") = true ∧
    sampleContext.requestId = some "r1" ∧
    (RestoreBackup sampleRuntime sampleProvider "dbaas_1_1" ["db1", "db2"] "snapshots"
        false sampleContext []).2
      = [Event.curatorDo
          { Method := "POST"
            URL := "http://curator/restore"
            Body := some
              "\n\t\t\x7b\n\t\t\t\"vault\": \"dbaas_1_1\",\t\n\t\t\t\"dbs\": [\"db1,db2\"]\n\t\t\n\t\t\x7d\t\t\n\t\t"
            Header := [("Content-Type", "application/json"), ("X-Request-Id", "r1")]
            BasicAuth := some ("user", "pass") }] :=
  ⟨by decide, rfl, rfl,
    (RestoreBackup_without_regeneration sampleRuntime sampleProvider "dbaas_1_1"
      ["db1", "db2"] "snapshots" sampleContext [] "r1" (by decide) rfl rfl).1⟩

/-- C3: the job-status translation of `getJobStatus` is a total function of
Curator's raw state: whenever Curator answers and the answer decodes,
`getJobStatus` returns a nil error and a status that is `FAIL` for `Failed`,
`SUCCESS` for `Successful`, `PROCEEDING` for `Queued` and `Processing`, and
`FAIL` for every other string; the status is always one of the three. -/
theorem getJobStatus_translation (rt : Runtime) (bp : BackupProvider)
    (snapshotName : String) (ctx : Context) (tr : Trace) (requestId : String)
    (response : HttpResponse) (body : String) (jobStatus : JobStatus)
    (hurl : rt.newRequestOk (bp.Curator.url ++ "/jobstatus/" ++ snapshotName) = true)
    (hctx : ctx.requestId = some requestId)
    (hdo : bp.Curator.client tr
      { Method := "GET"
        URL := bp.Curator.url ++ "/jobstatus/" ++ snapshotName
        Body := none
        Header := [("X-Request-Id", requestId)]
        BasicAuth := some (bp.Curator.username, bp.Curator.password) } = .ok response)
    (hbody : response.Body = .ok body)
    (hdecode : rt.decodeJobStatus body = .ok jobStatus) :
    ∃ status : String,
      (getJobStatus rt bp snapshotName ctx tr).1 = .returned (status, none) ∧
      (jobStatus.State = "Failed" → status = "FAIL") ∧
      (jobStatus.State = "Successful" → status = "SUCCESS") ∧
      (jobStatus.State = "Queued" → status = "PROCEEDING") ∧
      (jobStatus.State = "Processing" → status = "PROCEEDING") ∧
      (jobStatus.State ≠ "Failed" → jobStatus.State ≠ "Successful" →
        jobStatus.State ≠ "Queued" → jobStatus.State ≠ "Processing" → status = "FAIL") ∧
      (status = "FAIL" ∨ status = "SUCCESS" ∨ status = "PROCEEDING") := by
  have hu : bp.Curator.url ++ "/" ++ "jobstatus" ++ "/" ++ snapshotName
      = bp.Curator.url ++ "/jobstatus/" ++ snapshotName := by
    simp [String.append_assoc]
  refine ⟨translateState jobStatus.State, ?_, ?_, ?_, ?_, ?_, ?_, ?_⟩
  · simp only [getJobStatus, hu, hurl, hctx, RequestIdKey, hdo, hbody, hdecode, if_true]
  · intro h; simp [translateState, h]
  · intro h; simp [translateState, h]
  · intro h; simp [translateState, h]
  · intro h; simp [translateState, h]
  · intro h1 h2 h3 h4; simp [translateState, h1, h2, h3, h4]
  · unfold translateState
    split_ifs <;> simp

/-- Witness of C3: the unknown state `Weird` is translated to `FAIL`. -/
theorem getJobStatus_translation_witness :
    sampleRuntime.newRequestOk (weirdProvider.Curator.url ++ "/jobstatus/" ++ "b") = true ∧
    sampleContext.requestId = some "r1" ∧
    (getJobStatus sampleRuntime weirdProvider "b" sampleContext []).1
      = .returned ("FAIL", none) := by
  refine ⟨rfl, rfl, ?_⟩
  obtain ⟨status, hret, -, -, -, -, hother, -⟩ :=
    getJobStatus_translation sampleRuntime weirdProvider "b" sampleContext [] "r1"
      { StatusCode := 200, Body := .ok "Weird" } "Weird"
      { State := "Weird", Message := "", Vault := "", Kind := "", Error := "", TaskId := "" }
      rfl rfl rfl rfl rfl
  rw [hret, hother (by decide) (by decide) (by decide) (by decide)]

/-! ### The recovery scan -/

theorem shardLoop_none_iff (backupId repoName : String) (shards : List ShardRecoveryInfo)
    (found : Bool) :
    shardLoop backupId repoName shards found = none ↔
      ∃ s ∈ shards, shardMatches backupId repoName s = true ∧
        s.Stage ≠ "DONE" ∧ s.Stage ≠ "done" := by
  induction shards generalizing found with
  | nil => simp [shardLoop]
  | cons s rest ih =>
    by_cases hm : s.Source.Snapshot = backupId ∧ s.Source.Repository = repoName
    · by_cases hd : s.Stage ≠ "DONE" ∧ s.Stage ≠ "done"
      · simp only [shardLoop]
        rw [if_pos hm, if_pos hd]
        simp only [true_iff]
        exact ⟨s, List.mem_cons_self _ _, by simp [shardMatches, hm], hd⟩
      · simp only [shardLoop]
        rw [if_pos hm, if_neg hd, ih]
        constructor
        · rintro ⟨x, hx, h⟩
          exact ⟨x, List.mem_cons_of_mem _ hx, h⟩
        · rintro ⟨x, hx, h⟩
          rcases List.mem_cons.mp hx with rfl | hx
          · exact absurd h.2 hd
          · exact ⟨x, hx, h⟩
    · simp only [shardLoop]
      rw [if_neg hm, ih]
      constructor
      · rintro ⟨x, hx, h⟩
        exact ⟨x, List.mem_cons_of_mem _ hx, h⟩
      · rintro ⟨x, hx, h⟩
        rcases List.mem_cons.mp hx with rfl | hx
        · exact absurd (by simpa [shardMatches] using h.1) hm
        · exact ⟨x, hx, h⟩

theorem shardLoop_some (backupId repoName : String) (shards : List ShardRecoveryInfo)
    (found f : Bool) (h : shardLoop backupId repoName shards found = some f) :
    f = (found || shards.any (shardMatches backupId repoName)) := by
  induction shards generalizing found with
  | nil => simp [shardLoop] at h; simp [h]
  | cons s rest ih =>
    by_cases hm : s.Source.Snapshot = backupId ∧ s.Source.Repository = repoName
    · by_cases hd : s.Stage ≠ "DONE" ∧ s.Stage ≠ "done"
      · simp only [shardLoop] at h
        rw [if_pos hm, if_pos hd] at h
        exact Option.noConfusion h
      · simp only [shardLoop] at h
        rw [if_pos hm, if_neg hd] at h
        have := ih true h
        simp [this, shardMatches, hm]
    · simp only [shardLoop] at h
      rw [if_neg hm] at h
      have := ih found h
      simp [this, shardMatches, hm]

theorem shardLoop_append (backupId repoName : String) (l₁ l₂ : List ShardRecoveryInfo)
    (found : Bool) :
    shardLoop backupId repoName (l₁ ++ l₂) found =
      (shardLoop backupId repoName l₁ found).bind (shardLoop backupId repoName l₂) := by
  induction l₁ generalizing found with
  | nil => simp [shardLoop]
  | cons s rest ih =>
    rw [List.cons_append]
    by_cases hm : s.Source.Snapshot = backupId ∧ s.Source.Repository = repoName
    · by_cases hd : s.Stage ≠ "DONE" ∧ s.Stage ≠ "done"
      · simp only [shardLoop]
        rw [if_pos hm, if_pos hd, if_pos hm, if_pos hd]
        rfl
      · simp only [shardLoop]
        rw [if_pos hm, if_neg hd, if_pos hm, if_neg hd]
        exact ih true
    · simp only [shardLoop]
      rw [if_neg hm, if_neg hm]
      exact ih found

theorem indexLoop_eq_shardLoop (backupId repoName : String) (info : RecoveryInfo)
    (found : Bool) :
    indexLoop backupId repoName info found
      = shardLoop backupId repoName (allShards info) found := by
  induction info generalizing found with
  | nil => simp [indexLoop, allShards, shardLoop]
  | cons entry rest ih =>
    obtain ⟨name, indexRecInfo⟩ := entry
    have hall : allShards ((name, indexRecInfo) :: rest)
        = indexRecInfo.Shards ++ allShards rest := by
      simp [allShards]
    rw [hall, shardLoop_append]
    simp only [indexLoop]
    cases hs : shardLoop backupId repoName indexRecInfo.Shards found with
    | none => simp
    | some f => simp [ih]

/-- The status `TrackRestoreIndices` reports for a fetched recovery info. -/
theorem TrackRestoreIndices_status (bp : BackupProvider) (ctx : Context)
    (backupId : String) (indices : List String) (repoName : String)
    (changedNameDb : Option NameMap) (tr : Trace) (info : RecoveryInfo)
    (hinfo : bp.client.indicesRecovery tr indices = .ok info) :
    (TrackRestoreIndices bp ctx backupId indices repoName changedNameDb tr).1.Status =
      if (∃ s ∈ allShards info,
            shardMatches backupId (if repoName = "" then backupId else repoName) s = true) ∧
          (∀ s ∈ allShards info,
            shardMatches backupId (if repoName = "" then backupId else repoName) s = true →
              (s.Stage = "DONE" ∨ s.Stage = "done"))
      then "SUCCESS" else "PROCEEDING" := by
  set repo := (if repoName = "" then backupId else repoName) with hrepo
  have hscan := indexLoop_eq_shardLoop backupId repo info false
  simp only [TrackRestoreIndices, hinfo, ← hrepo]
  cases hl : indexLoop backupId repo info false with
  | none =>
    rw [hl] at hscan
    obtain ⟨s, hs, hm, hd1, hd2⟩ :=
      (shardLoop_none_iff backupId repo (allShards info) false).mp hscan.symm
    have : ¬ ∀ s ∈ allShards info, shardMatches backupId repo s = true →
        (s.Stage = "DONE" ∨ s.Stage = "done") := by
      intro hall
      rcases hall s hs hm with h | h
      · exact hd1 h
      · exact hd2 h
    simp [restoreTrack, this]
  | some f =>
    rw [hl] at hscan
    have hf := shardLoop_some backupId repo (allShards info) false f hscan.symm
    have hnone : ¬ ∃ s ∈ allShards info, shardMatches backupId repo s = true ∧
        s.Stage ≠ "DONE" ∧ s.Stage ≠ "done" := by
      intro hex
      have := (shardLoop_none_iff backupId repo (allShards info) false).mpr hex
      rw [← hscan] at this
      exact Option.noConfusion this
    have hall : ∀ s ∈ allShards info, shardMatches backupId repo s = true →
        (s.Stage = "DONE" ∨ s.Stage = "done") := by
      intro s hs hm
      by_contra hcon
      push_neg at hcon
      exact hnone ⟨s, hs, hm, hcon.1, hcon.2⟩
    cases f with
    | true =>
      have hex : ∃ s ∈ allShards info, shardMatches backupId repo s = true := by
        simpa [List.any_eq_true] using hf.symm
      rw [if_pos ⟨hex, hall⟩]
      simp [restoreTrack]
    | false =>
      have hex : ¬ ∃ s ∈ allShards info, shardMatches backupId repo s = true := by
        intro hex
        have : (allShards info).any (shardMatches backupId repo) = true := by
          simpa [List.any_eq_true] using hex
        simp [this] at hf
      simp [restoreTrack, hex]

/-- C4: for a successfully fetched recovery info, where a shard matches when
its source snapshot is backupId and its source repository is the repository
(backupId when the repository argument is empty) and a stage counts as DONE
when it is `DONE` or `done`: `TrackRestoreIndices` reports `SUCCESS` if at
least one shard matches and every matching shard is DONE, and `PROCEEDING` if
some matching shard is not DONE; the status is the same for every other
recovery info whose matching shards are a rearrangement of these, so shards
that do not match and the visiting order of indices and shards never
influence it. -/
theorem TrackRestoreIndices_aggregate (bp : BackupProvider) (ctx : Context)
    (backupId : String) (indices : List String) (repoName : String)
    (changedNameDb : Option NameMap) (tr : Trace) (info : RecoveryInfo)
    (hinfo : bp.client.indicesRecovery tr indices = .ok info) :
    let repo := if repoName = "" then backupId else repoName
    let status :=
      (TrackRestoreIndices bp ctx backupId indices repoName changedNameDb tr).1.Status
    ((∃ s ∈ allShards info, shardMatches backupId repo s = true) →
      (∀ s ∈ allShards info, shardMatches backupId repo s = true →
        (s.Stage = "DONE" ∨ s.Stage = "done")) → status = "SUCCESS") ∧
    ((∃ s ∈ allShards info, shardMatches backupId repo s = true ∧
        s.Stage ≠ "DONE" ∧ s.Stage ≠ "done") → status = "PROCEEDING") ∧
    (∀ (bp' : BackupProvider) (ctx' : Context) (indices' : List String)
        (changedNameDb' : Option NameMap) (tr' : Trace) (info' : RecoveryInfo),
      bp'.client.indicesRecovery tr' indices' = .ok info' →
      ((allShards info').filter (shardMatches backupId repo)).Perm
        ((allShards info).filter (shardMatches backupId repo)) →
      (TrackRestoreIndices bp' ctx' backupId indices' repoName changedNameDb' tr').1.Status
        = status) := by
  intro repo status
  have hst := TrackRestoreIndices_status bp ctx backupId indices repoName changedNameDb tr
    info hinfo
  refine ⟨?_, ?_, ?_⟩
  · intro hex hall
    show (TrackRestoreIndices bp ctx backupId indices repoName changedNameDb tr).1.Status = _
    rw [hst, if_pos ⟨hex, hall⟩]
  · rintro ⟨s, hs, hm, hd1, hd2⟩
    show (TrackRestoreIndices bp ctx backupId indices repoName changedNameDb tr).1.Status = _
    rw [hst, if_neg]
    rintro ⟨-, hall⟩
    rcases hall s hs hm with h | h
    · exact hd1 h
    · exact hd2 h
  · intro bp' ctx' indices' changedNameDb' tr' info' hinfo' hperm
    have hst' := TrackRestoreIndices_status bp' ctx' backupId indices' repoName
      changedNameDb' tr' info' hinfo'
    show _ = (TrackRestoreIndices bp ctx backupId indices repoName changedNameDb tr).1.Status
    rw [hst, hst']
    have hmem : ∀ s, (s ∈ allShards info' ∧ shardMatches backupId repo s = true) ↔
        (s ∈ allShards info ∧ shardMatches backupId repo s = true) := by
      intro s
      have := hperm.mem_iff (a := s)
      simpa [List.mem_filter] using this
    have hex : (∃ s ∈ allShards info', shardMatches backupId repo s = true) ↔
        (∃ s ∈ allShards info, shardMatches backupId repo s = true) :=
      exists_congr hmem
    have hall : (∀ s ∈ allShards info', shardMatches backupId repo s = true →
          (s.Stage = "DONE" ∨ s.Stage = "done")) ↔
        (∀ s ∈ allShards info, shardMatches backupId repo s = true →
          (s.Stage = "DONE" ∨ s.Stage = "done")) := by
      constructor
      · intro h s hs hm
        exact h s ((hmem s).mpr ⟨hs, hm⟩).1 hm
      · intro h s hs hm
        exact h s ((hmem s).mp ⟨hs, hm⟩).1 hm
    simp only [repo] at hex hall
    simp only [hex, hall]

/-- Witness of C4: two finished shards of the snapshot, spelled `DONE` and
`done`, next to an unfinished shard of another snapshot, give `SUCCESS`. -/
theorem TrackRestoreIndices_aggregate_witness :
    (providerWithRecovery doneInfo).client.indicesRecovery [] ["a", "b"] = .ok doneInfo ∧
    (TrackRestoreIndices (providerWithRecovery doneInfo) sampleContext "dbaas_1_1"
      ["a", "b"] "snapshots" none []).1.Status = "SUCCESS" :=
  ⟨rfl,
    (TrackRestoreIndices_aggregate (providerWithRecovery doneInfo) sampleContext "dbaas_1_1"
      ["a", "b"] "snapshots" none [] doneInfo rfl).1 (by decide) (by decide)⟩

/-- C5: `TrackRestoreIndices` never reports `FAIL`: its status is `PROCEEDING`
or `SUCCESS` for every input, `PROCEEDING` when the recovery query fails and
`PROCEEDING` when the query succeeds but no shard matches the snapshot and
repository. -/
theorem TrackRestoreIndices_never_fail (bp : BackupProvider) (ctx : Context)
    (backupId : String) (indices : List String) (repoName : String)
    (changedNameDb : Option NameMap) (tr : Trace) :
    let repo := if repoName = "" then backupId else repoName
    let status :=
      (TrackRestoreIndices bp ctx backupId indices repoName changedNameDb tr).1.Status
    (status = "PROCEEDING" ∨ status = "SUCCESS") ∧ status ≠ "FAIL" ∧
    (∀ err, bp.client.indicesRecovery tr indices = .error err → status = "PROCEEDING") ∧
    (∀ info, bp.client.indicesRecovery tr indices = .ok info →
      (∀ s ∈ allShards info, shardMatches backupId repo s = false) →
      status = "PROCEEDING") := by
  intro repo status
  have hfail : ∀ err, bp.client.indicesRecovery tr indices = .error err →
      (TrackRestoreIndices bp ctx backupId indices repoName changedNameDb tr).1.Status
        = "PROCEEDING" := by
    intro err herr
    simp [TrackRestoreIndices, herr, restoreTrack]
  have hcases : (TrackRestoreIndices bp ctx backupId indices repoName changedNameDb
      tr).1.Status = "PROCEEDING" ∨ (TrackRestoreIndices bp ctx backupId indices repoName
      changedNameDb tr).1.Status = "SUCCESS" := by
    cases hq : bp.client.indicesRecovery tr indices with
    | error err => exact Or.inl (hfail err hq)
    | ok info =>
      rw [TrackRestoreIndices_status bp ctx backupId indices repoName changedNameDb tr info hq]
      exact (ite_eq_or_eq _ _ _).symm
  refine ⟨hcases, ?_, hfail, ?_⟩
  · rcases hcases with h | h
    · show (TrackRestoreIndices bp ctx backupId indices repoName changedNameDb tr).1.Status ≠ _
      rw [h]; decide
    · show (TrackRestoreIndices bp ctx backupId indices repoName changedNameDb tr).1.Status ≠ _
      rw [h]; decide
  · intro info hq hnone
    show (TrackRestoreIndices bp ctx backupId indices repoName changedNameDb tr).1.Status = _
    rw [TrackRestoreIndices_status bp ctx backupId indices repoName changedNameDb tr info hq,
      if_neg]
    rintro ⟨⟨s, hs, hm⟩, -⟩
    have := hnone s hs
    simp only [repo] at this
    rw [this] at hm
    exact Bool.noConfusion hm

/-- C6, as stated, fails: a recovery info whose only matching shard carries the
stage `Done`, which equals `DONE` ignoring letter case, yields `PROCEEDING`
and not `SUCCESS`. -/
theorem TrackRestoreIndices_mixed_case_counterexample :
    equalIgnoringCase "Done" "DONE" = true ∧
    (providerWithRecovery mixedCaseInfo).client.indicesRecovery [] ["a"]
      = .ok [("a", { Shards := [restoredShard "Done" "a"] })] ∧
    shardMatches "dbaas_1_1" "snapshots" (restoredShard "Done" "a") = true ∧
    (TrackRestoreIndices (providerWithRecovery mixedCaseInfo) sampleContext "dbaas_1_1"
      ["a"] "snapshots" none []).1.Status = "PROCEEDING" ∧
    (TrackRestoreIndices (providerWithRecovery mixedCaseInfo) sampleContext "dbaas_1_1"
      ["a"] "snapshots" none []).1.Status ≠ "SUCCESS" := by
  refine ⟨by decide, rfl, by decide, by decide, by decide⟩

/-- C6 amended: the stage of a matching shard is compared with the two
spellings `DONE` and `done` only.  A recovery info with at least one matching
shard whose matching shards all carry one of these two spellings yields
`SUCCESS`; a matching shard whose stage is any other string, also one that
equals `DONE` ignoring letter case such as `Done` or `dOnE`, yields
`PROCEEDING`. -/
theorem TrackRestoreIndices_stage_spelling (bp : BackupProvider) (ctx : Context)
    (backupId : String) (indices : List String) (repoName : String)
    (changedNameDb : Option NameMap) (tr : Trace) (info : RecoveryInfo)
    (hinfo : bp.client.indicesRecovery tr indices = .ok info)
    (hmatch : ∃ s ∈ allShards info,
      shardMatches backupId (if repoName = "" then backupId else repoName) s = true) :
    let repo := if repoName = "" then backupId else repoName
    let status :=
      (TrackRestoreIndices bp ctx backupId indices repoName changedNameDb tr).1.Status
    ((∀ s ∈ allShards info, shardMatches backupId repo s = true →
        (s.Stage = "DONE" ∨ s.Stage = "done")) → status = "SUCCESS") ∧
    (∀ stage : String, stage ≠ "DONE" → stage ≠ "done" →
      (∃ s ∈ allShards info, shardMatches backupId repo s = true ∧ s.Stage = stage) →
      status = "PROCEEDING") := by
  intro repo status
  have hst := TrackRestoreIndices_status bp ctx backupId indices repoName changedNameDb tr
    info hinfo
  refine ⟨?_, ?_⟩
  · intro hall
    show (TrackRestoreIndices bp ctx backupId indices repoName changedNameDb tr).1.Status = _
    rw [hst, if_pos ⟨hmatch, hall⟩]
  · rintro stage h1 h2 ⟨s, hs, hm, hstage⟩
    show (TrackRestoreIndices bp ctx backupId indices repoName changedNameDb tr).1.Status = _
    rw [hst, if_neg]
    rintro ⟨-, hall⟩
    rcases hall s hs hm with h | h
    · exact h1 (hstage ▸ h)
    · exact h2 (hstage ▸ h)

/-- Witness of the amended C6: the spellings `DONE` and `done` give `SUCCESS`. -/
theorem TrackRestoreIndices_stage_spelling_witness :
    (providerWithRecovery doneInfo).client.indicesRecovery [] ["a"] = .ok doneInfo ∧
    (∃ s ∈ allShards doneInfo, shardMatches "dbaas_1_1" "snapshots" s = true) ∧
    (TrackRestoreIndices (providerWithRecovery doneInfo) sampleContext "dbaas_1_1"
      ["a"] "snapshots" none []).1.Status = "SUCCESS" :=
  ⟨rfl, by decide,
    (TrackRestoreIndices_stage_spelling (providerWithRecovery doneInfo) sampleContext
      "dbaas_1_1" ["a"] "snapshots" none [] doneInfo rfl (by decide)).1 (by decide)⟩

/-! ### Restore requests and the longest name -/

theorem requestRestore_eq (rt : Runtime) (bp : BackupProvider) (ctx : Context)
    (dbs : List String) (backupId pattern replacement : String) (tr : Trace)
    (requestId : String)
    (hurl : rt.newRequestOk (bp.Curator.url ++ "/restore") = true)
    (hctx : ctx.requestId = some requestId) :
    requestRestore rt bp ctx dbs backupId pattern replacement tr =
      (match bp.Curator.client tr
          (restoreRequest bp requestId dbs backupId pattern replacement) with
        | .error err => .returned (some err)
        | .ok _ => .returned none,
       tr ++ [Event.curatorDo (restoreRequest bp requestId dbs backupId pattern replacement)])
    := by
  have hurl' : rt.newRequestOk (bp.Curator.url ++ "/" ++ "restore") = true := by
    simpa [String.append_assoc] using hurl
  simp only [requestRestore, hurl', hctx, if_true]
  cases bp.Curator.client tr (restoreRequest bp requestId dbs backupId pattern replacement)
    <;> rfl

theorem Max_eq_max (x y : Nat) : Max x y = max x y := by
  unfold Max
  split_ifs with h
  · exact (max_eq_left (Nat.le_of_lt h)).symm
  · exact (max_eq_right (Nat.le_of_not_lt h)).symm

theorem foldl_Max_ge_init (indices : List String) (a : Nat) :
    a ≤ indices.foldl (fun maxLen index => Max index.utf8ByteSize maxLen) a := by
  induction indices generalizing a with
  | nil => simp
  | cons i rest ih =>
    simp only [List.foldl_cons]
    exact le_trans (by rw [Max_eq_max]; exact le_max_right _ _) (ih _)

theorem foldl_Max_ge_mem (indices : List String) (a : Nat) :
    ∀ i ∈ indices,
      i.utf8ByteSize ≤ indices.foldl (fun maxLen index => Max index.utf8ByteSize maxLen) a := by
  induction indices generalizing a with
  | nil => simp
  | cons j rest ih =>
    intro i hi
    simp only [List.foldl_cons]
    rcases List.mem_cons.mp hi with rfl | hi
    · exact le_trans (by rw [Max_eq_max]; exact le_max_left _ _) (foldl_Max_ge_init rest _)
    · exact ih _ i hi

theorem foldl_Max_attained (indices : List String) (a : Nat) :
    indices.foldl (fun maxLen index => Max index.utf8ByteSize maxLen) a = a ∨
    ∃ i ∈ indices,
      i.utf8ByteSize = indices.foldl (fun maxLen index => Max index.utf8ByteSize maxLen) a := by
  induction indices generalizing a with
  | nil => simp
  | cons j rest ih =>
    simp only [List.foldl_cons]
    rcases ih (Max j.utf8ByteSize a) with h | ⟨i, hi, h⟩
    · rw [h, Max_eq_max]
      rcases le_total j.utf8ByteSize a with hle | hle
      · left; exact max_eq_right hle
      · right; exact ⟨j, List.mem_cons_self _ _, (max_eq_left hle).symm⟩
    · right; exact ⟨i, List.mem_cons_of_mem _ hi, h⟩

/-- The loop of `RestoreBackup` finds the greatest byte length among the
names, 0 when there are none. -/
theorem longestName_eq (indices : List String) (m : Nat)
    (hbound : ∀ i ∈ indices, i.utf8ByteSize ≤ m)
    (hattained : (indices = [] ∧ m = 0) ∨ ∃ i ∈ indices, i.utf8ByteSize = m) :
    longestName indices = m := by
  apply le_antisymm
  · rcases foldl_Max_attained indices 0 with h | ⟨i, hi, h⟩
    · unfold longestName; rw [h]; exact Nat.zero_le _
    · unfold longestName; rw [← h]; exact hbound i hi
  · rcases hattained with ⟨-, h0⟩ | ⟨i, hi, h⟩
    · rw [h0]; exact Nat.zero_le _
    · rw [← h]; exact foldl_Max_ge_mem indices 0 i hi

theorem RestoreBackup_regenerate (rt : Runtime) (bp : BackupProvider) (backupId : String)
    (dbs : List String) (fromRepo : String) (ctx : Context) (tr tr1 : Trace)
    (indices : List String)
    (hdbs : dbs ≠ [])
    (hindices : getActualIndices bp backupId fromRepo (some []) ctx tr
      = ((indices, none), tr1)) :
    RestoreBackup rt bp backupId dbs fromRepo true ctx tr =
      if ((bp.indexNames.NameIndex rt tr1).1 ++ "_").utf8ByteSize + longestName indices < 255
      then bulkRestore rt bp ctx backupId indices ((bp.indexNames.NameIndex rt tr1).1 ++ "_")
        [] (bp.indexNames.NameIndex rt tr1).2
      else sequentialRestore rt bp ctx backupId fromRepo indices []
        (bp.indexNames.NameIndex rt tr1).2 := by
  have hlen : dbs.length ≠ 0 := by
    intro h; exact hdbs (List.length_eq_zero.mp h)
  simp only [RestoreBackup, hlen, hindices, if_false, if_true]
  by_cases hc : ((bp.indexNames.NameIndex rt tr1).1 ++ "_").utf8ByteSize
      + longestName indices < 255
  · rw [if_pos hc, if_neg (by omega)]
  · rw [if_neg hc, if_pos (by omega)]

/-- C7: with regenerateNames=true and the snapshot's actual index names
resolved, the choice between bulk and sequential restoration depends on two
numbers only: for the generated index name followed by `_` as prefix and for
the number m that is the greatest byte length among the actual index names
(0 when there are none), `RestoreBackup` proceeds as the bulk branch if
len(prefix) + m < 255 and as the sequential branch otherwise. -/
theorem RestoreBackup_mode_choice (rt : Runtime) (bp : BackupProvider) (backupId : String)
    (dbs : List String) (fromRepo : String) (ctx : Context) (tr tr1 : Trace)
    (indices : List String) (m : Nat)
    (hdbs : dbs ≠ [])
    (hindices : getActualIndices bp backupId fromRepo (some []) ctx tr
      = ((indices, none), tr1))
    (hbound : ∀ i ∈ indices, i.utf8ByteSize ≤ m)
    (hattained : (indices = [] ∧ m = 0) ∨ ∃ i ∈ indices, i.utf8ByteSize = m) :
    let name := bp.indexNames.NameIndex rt tr1
    let pfx := name.1 ++ "_"
    RestoreBackup rt bp backupId dbs fromRepo true ctx tr =
      if pfx.utf8ByteSize + m < 255
      then bulkRestore rt bp ctx backupId indices pfx [] name.2
      else sequentialRestore rt bp ctx backupId fromRepo indices [] name.2 := by
  intro name pfx
  rw [RestoreBackup_regenerate rt bp backupId dbs fromRepo ctx tr tr1 indices hdbs hindices,
    longestName_eq indices m hbound hattained]

/-- Witness of C7: the indices `a` and `b` with the 8-byte prefix `dbaas_u_`
are restored in bulk. -/
theorem RestoreBackup_mode_choice_witness :
    ["db1"] ≠ [] ∧
    getActualIndices sampleProvider "dbaas_1_1" "snapshots" (some []) sampleContext []
      = ((["a", "b"], none), [Event.snapshotStatus "snapshots" ["dbaas_1_1"]]) ∧
    (∀ i ∈ ["a", "b"], i.utf8ByteSize ≤ 1) ∧
    (∃ i ∈ ["a", "b"], i.utf8ByteSize = 1) ∧
    RestoreBackup sampleRuntime sampleProvider "dbaas_1_1" ["db1"] "snapshots" true
        sampleContext []
      = bulkRestore sampleRuntime sampleProvider sampleContext "dbaas_1_1" ["a", "b"]
          "dbaas_u_" [] [Event.snapshotStatus "snapshots" ["dbaas_1_1"], Event.uuidNewV4] :=
  ⟨by decide, by decide, by decide, by decide,
    RestoreBackup_mode_choice sampleRuntime sampleProvider "dbaas_1_1" ["db1"] "snapshots"
      sampleContext [] [Event.snapshotStatus "snapshots" ["dbaas_1_1"]] ["a", "b"] 1
      (by decide) (by decide) (by decide) (Or.inr (by decide))⟩

/-! ### The bulk branch -/

theorem NameMap.get?_set (m : NameMap) (k v x : String) :
    (m.set k v).get? x = if x = k then some v else m.get? x := by
  induction m with
  | nil =>
    by_cases h : x = k
    · simp [NameMap.set, NameMap.get?, h]
    · have h' : ¬ k = x := fun e => h e.symm
      simp [NameMap.set, NameMap.get?, h, h']
  | cons p rest ih =>
    obtain ⟨k', v'⟩ := p
    by_cases hk : k' = k
    · by_cases h : x = k
      · simp [NameMap.set, NameMap.get?, hk, h]
      · have h' : ¬ k = x := fun e => h e.symm
        simp [NameMap.set, NameMap.get?, hk, h, h']
    · by_cases h : x = k
      · have hx : ¬ k' = x := fun e => hk (e.trans h)
        simp only [NameMap.set, if_neg hk, NameMap.get?, if_neg hx, ih, if_pos h]
      · simp only [NameMap.set, if_neg hk, NameMap.get?, ih, if_neg h]

theorem foldl_set_get? (indices : List String) (pfx : String) (m : NameMap) (x : String) :
    (indices.foldl (fun m indexName => m.set indexName (pfx ++ indexName)) m).get? x =
      if x ∈ indices then some (pfx ++ x) else m.get? x := by
  induction indices generalizing m with
  | nil => simp
  | cons i rest ih =>
    simp only [List.foldl_cons, ih, NameMap.get?_set, List.mem_cons]
    by_cases hr : x ∈ rest
    · simp [hr]
    · by_cases hi : x = i
      · simp [hi]
      · simp [hr, hi]

theorem getActualIndices_trace (bp : BackupProvider) (backupId repoName : String)
    (changedNameDb : Option NameMap) (ctx : Context) (tr : Trace) :
    (getActualIndices bp backupId repoName changedNameDb ctx tr).2 =
      tr ++ [Event.snapshotStatus (if repoName = "" then backupId else repoName)
        [backupId]] := by
  simp only [getActualIndices, getSnapshotStatus]
  cases bp.client.snapshotStatus tr (if repoName = "" then backupId else repoName)
      [backupId] with
  | error err => rfl
  | ok snapshots =>
    simp only []
    cases List.find? (fun snapshot => decide (snapshot.Snapshot = backupId))
      snapshots.Snapshots <;> rfl

theorem NameIndex_trace (adapter : IndexAdapter) (rt : Runtime) (tr : Trace) :
    (adapter.NameIndex rt tr).2 = tr ++ [Event.uuidNewV4] := by
  simp only [IndexAdapter.NameIndex, IndexAdapter.NameIndexPrefixed, GetUUID]
  cases rt.uuidNewV4 tr <;> rfl

/-- C8: in bulk mode, when the Curator restore request succeeds, the mapping
`RestoreBackup` returns is non-nil (also for a snapshot without indices), has
exactly the snapshot's actual index names as keys and maps every such name idx
to prefix + idx, with the one prefix generated for the call. -/
theorem RestoreBackup_bulk_mapping (rt : Runtime) (bp : BackupProvider) (backupId : String)
    (dbs : List String) (fromRepo : String) (ctx : Context) (tr tr1 : Trace)
    (indices : List String) (requestId : String)
    (hdbs : dbs ≠ [])
    (hindices : getActualIndices bp backupId fromRepo (some []) ctx tr
      = ((indices, none), tr1))
    (hurl : rt.newRequestOk (bp.Curator.url ++ "/restore") = true)
    (hctx : ctx.requestId = some requestId)
    (hbulk : ((bp.indexNames.NameIndex rt tr1).1 ++ "_").utf8ByteSize
      + longestName indices < 255)
    (hok : ∃ response, bp.Curator.client (bp.indexNames.NameIndex rt tr1).2
      (restoreRequest bp requestId indices backupId ".+"
        ((bp.indexNames.NameIndex rt tr1).1 ++ "_" ++ "$0")) = .ok response) :
    let pfx := (bp.indexNames.NameIndex rt tr1).1 ++ "_"
    ∃ mapping : NameMap,
      (RestoreBackup rt bp backupId dbs fromRepo true ctx tr).1
        = .returned (some mapping, none) ∧
      (∀ idx ∈ indices, mapping.get? idx = some (pfx ++ idx)) ∧
      (∀ key, key ∉ indices → mapping.get? key = none) ∧
      (∀ key, (mapping.get? key).isSome ↔ key ∈ indices) := by
  intro pfx
  obtain ⟨response, hresp⟩ := hok
  refine ⟨indices.foldl (fun m indexName => m.set indexName (pfx ++ indexName)) [],
    ?_, ?_, ?_, ?_⟩
  · rw [RestoreBackup_regenerate rt bp backupId dbs fromRepo ctx tr tr1 indices hdbs
      hindices, if_pos hbulk]
    simp only [bulkRestore, requestRestore_eq rt bp ctx indices backupId ".+" _ _ requestId
      hurl hctx, hresp, pfx]
  · intro idx hidx
    rw [foldl_set_get?, if_pos hidx]
  · intro key hkey
    rw [foldl_set_get?, if_neg hkey]
    rfl
  · intro key
    rw [foldl_set_get?]
    by_cases hkey : key ∈ indices
    · simp [hkey]
    · simp [hkey, NameMap.get?]

/-- Witness of C8: the indices `a` and `b` are mapped to `dbaas_u_a` and
`dbaas_u_b`. -/
theorem RestoreBackup_bulk_mapping_witness :
    ["db1"] ≠ [] ∧
    getActualIndices sampleProvider "dbaas_1_1" "snapshots" (some []) sampleContext []
      = ((["a", "b"], none), [Event.snapshotStatus "snapshots" ["dbaas_1_1"]]) ∧
    sampleRuntime.newRequestOk (sampleProvider.Curator.url ++ "/restore") = true ∧
    sampleContext.requestId = some "r1" ∧
    ("dbaas_u_".utf8ByteSize + longestName ["a", "b"] < 255) ∧
    ∃ mapping : NameMap,
      (RestoreBackup sampleRuntime sampleProvider "dbaas_1_1" ["db1"] "snapshots" true
        sampleContext []).1 = .returned (some mapping, none) ∧
      mapping.get? "a" = some "dbaas_u_a" ∧ mapping.get? "b" = some "dbaas_u_b" := by
  refine ⟨by decide, by decide, rfl, rfl, by decide, ?_⟩
  obtain ⟨mapping, hret, hmap, -, -⟩ :=
    RestoreBackup_bulk_mapping sampleRuntime sampleProvider "dbaas_1_1" ["db1"] "snapshots"
      sampleContext [] [Event.snapshotStatus "snapshots" ["dbaas_1_1"]] ["a", "b"] "r1"
      (by decide) (by decide) rfl rfl (by decide) ⟨_, rfl⟩
  exact ⟨mapping, hret, hmap "a" (by decide), hmap "b" (by decide)⟩

/-- C9: in bulk mode (the Curator URL being accepted by `http.NewRequest` and
the context carrying a request id) `RestoreBackup` adds to the trace the
snapshot-status query, the generation of the prefix and exactly one Curator
restore request, for all actual index names of the snapshot, with rename
pattern `.+` and rename replacement prefix + `$0`; it makes no recovery poll;
if that request fails, its error is returned with a nil mapping. -/
theorem RestoreBackup_bulk_request (rt : Runtime) (bp : BackupProvider) (backupId : String)
    (dbs : List String) (fromRepo : String) (ctx : Context) (tr tr1 : Trace)
    (indices : List String) (requestId : String)
    (hdbs : dbs ≠ [])
    (hindices : getActualIndices bp backupId fromRepo (some []) ctx tr
      = ((indices, none), tr1))
    (hurl : rt.newRequestOk (bp.Curator.url ++ "/restore") = true)
    (hctx : ctx.requestId = some requestId)
    (hbulk : ((bp.indexNames.NameIndex rt tr1).1 ++ "_").utf8ByteSize
      + longestName indices < 255) :
    let pfx := (bp.indexNames.NameIndex rt tr1).1 ++ "_"
    let request : HttpRequest :=
      { Method := "POST"
        URL := bp.Curator.url ++ "/restore"
        Body := some ("\n\t\t\x7b\n\t\t\t\"vault\": \"" ++ backupId
          ++ "\",\t\n\t\t\t\"dbs\": [\"" ++ ",".intercalate indices
          ++ "\"]\n\t\t\n\t\t,\"rename_pattern\": \".+\",\n\t\t\"rename_replacement\": \""
          ++ pfx ++ "$0\"\n\t\n\t\t\x7d\t\t\n\t\t")
        Header := [("Content-Type", "application/json"), ("X-Request-Id", requestId)]
        BasicAuth := some (bp.Curator.username, bp.Curator.password) }
    let result := RestoreBackup rt bp backupId dbs fromRepo true ctx tr
    result.2 = tr ++ [Event.snapshotStatus (if fromRepo = "" then backupId else fromRepo)
        [backupId], Event.uuidNewV4, Event.curatorDo request] ∧
    (result.2.drop tr.length).countP Event.isCuratorDo = 1 ∧
    (result.2.drop tr.length).countP Event.isIndicesRecovery = 0 ∧
    (∀ err, bp.Curator.client (tr ++ [Event.snapshotStatus
        (if fromRepo = "" then backupId else fromRepo) [backupId], Event.uuidNewV4]) request
        = .error err → result.1 = .returned (none, some err)) := by
  intro pfx request result
  have htr1 : tr1 = tr ++ [Event.snapshotStatus (if fromRepo = "" then backupId else fromRepo)
      [backupId]] := by
    have h := getActualIndices_trace bp backupId fromRepo (some []) ctx tr
    rw [hindices] at h
    exact h
  have hname : (bp.indexNames.NameIndex rt tr1).2 = tr ++ [Event.snapshotStatus
      (if fromRepo = "" then backupId else fromRepo) [backupId], Event.uuidNewV4] := by
    rw [NameIndex_trace, htr1]; simp
  have hreq : restoreRequest bp requestId indices backupId ".+" (pfx ++ "$0") = request := by
    have hu : bp.Curator.url ++ "/" ++ "restore" = bp.Curator.url ++ "/restore" := by
      simp [String.append_assoc]
    have hb : restoreRequestBody indices backupId ".+" (pfx ++ "$0")
        = "\n\t\t\x7b\n\t\t\t\"vault\": \"" ++ backupId
          ++ "\",\t\n\t\t\t\"dbs\": [\"" ++ ",".intercalate indices
          ++ "\"]\n\t\t\n\t\t,\"rename_pattern\": \".+\",\n\t\t\"rename_replacement\": \""
          ++ pfx ++ "$0\"\n\t\n\t\t\x7d\t\t\n\t\t" := by
      have hp : ¬ (".+" : String) = "" := by decide
      simp only [restoreRequestBody, namesRegenerateRequestPart, if_neg hp]
      apply String.ext
      simp
    simp only [restoreRequest, hu, hb, RequestIdKey, request]
  have hres : result = (match bp.Curator.client (bp.indexNames.NameIndex rt tr1).2 request with
      | .error err => (.returned (none, some err), (bp.indexNames.NameIndex rt tr1).2
          ++ [Event.curatorDo request])
      | .ok _ => (.returned (some (indices.foldl
          (fun m indexName => m.set indexName (pfx ++ indexName)) []), none),
          (bp.indexNames.NameIndex rt tr1).2 ++ [Event.curatorDo request])) := by
    show RestoreBackup rt bp backupId dbs fromRepo true ctx tr = _
    rw [RestoreBackup_regenerate rt bp backupId dbs fromRepo ctx tr tr1 indices hdbs
      hindices, if_pos hbulk]
    simp only [bulkRestore, requestRestore_eq rt bp ctx indices backupId ".+" _ _ requestId
      hurl hctx]
    rw [hreq]
    cases bp.Curator.client (bp.indexNames.NameIndex rt tr1).2 request <;> rfl
  have htrace : result.2 = tr ++ [Event.snapshotStatus
      (if fromRepo = "" then backupId else fromRepo) [backupId], Event.uuidNewV4,
      Event.curatorDo request] := by
    rw [hres]
    cases bp.Curator.client (bp.indexNames.NameIndex rt tr1).2 request <;>
      simp [hname]
  refine ⟨htrace, ?_, ?_, ?_⟩
  · rw [htrace, List.drop_left]
    simp [List.countP_cons, Event.isCuratorDo]
  · rw [htrace, List.drop_left]
    simp [List.countP_cons, Event.isIndicesRecovery]
  · intro err herr
    rw [hres, hname, herr]

/-- Witness of C9 on the snapshot with the indices `a` and `b`. -/
theorem RestoreBackup_bulk_request_witness :
    ["db1"] ≠ [] ∧
    getActualIndices sampleProvider "dbaas_1_1" "snapshots" (some []) sampleContext []
      = ((["a", "b"], none), [Event.snapshotStatus "snapshots" ["dbaas_1_1"]]) ∧
    sampleRuntime.newRequestOk (sampleProvider.Curator.url ++ "/restore") = true ∧
    sampleContext.requestId = some "r1" ∧
    ("dbaas_u_".utf8ByteSize + longestName ["a", "b"] < 255) ∧
    (RestoreBackup sampleRuntime sampleProvider "dbaas_1_1" ["db1"] "snapshots" true
        sampleContext []).2
      = [Event.snapshotStatus "snapshots" ["dbaas_1_1"], Event.uuidNewV4,
          Event.curatorDo
            { Method := "POST"
              URL := "http://curator/restore"
              Body := some
                "\n\t\t\x7b\n\t\t\t\"vault\": \"dbaas_1_1\",\t\n\t\t\t\"dbs\": [\"a,b\"]\n\t\t\n\t\t,\"rename_pattern\": \".+\",\n\t\t\"rename_replacement\": \"dbaas_u_$0\"\n\t\n\t\t\x7d\t\t\n\t\t"
              Header := [("Content-Type", "application/json"), ("X-Request-Id", "r1")]
              BasicAuth := some ("user", "pass") }] :=
  ⟨by decide, by decide, rfl, rfl, by decide,
    (RestoreBackup_bulk_request sampleRuntime sampleProvider "dbaas_1_1" ["db1"] "snapshots"
      sampleContext [] [Event.snapshotStatus "snapshots" ["dbaas_1_1"]] ["a", "b"] "r1"
      (by decide) (by decide) rfl rfl (by decide)).1⟩

/-! ### The sequential branch -/

theorem TrackRestoreIndices_trace (bp : BackupProvider) (ctx : Context) (backupId : String)
    (indices : List String) (repoName : String) (changedNameDb : Option NameMap)
    (tr : Trace) :
    (TrackRestoreIndices bp ctx backupId indices repoName changedNameDb tr).2
      = tr ++ [Event.indicesRecovery indices] := by
  simp only [TrackRestoreIndices]
  cases bp.client.indicesRecovery tr indices with
  | error err => rfl
  | ok info =>
    simp only []
    cases indexLoop backupId (if repoName = "" then backupId else repoName) info false with
    | none => rfl
    | some f => cases f <;> rfl

/-- With a tracker that reports `PROCEEDING` at every poll, the poll loop uses
up all its rounds, polling and sleeping once in each. -/
theorem trackLoop_proceeding (bp : BackupProvider) (ctx : Context)
    (backupId newName fromRepo : String)
    (hproceeding : ∀ tr' : Trace,
      (TrackRestoreIndices bp ctx backupId [newName] fromRepo none tr').1.Status
        = "PROCEEDING")
    (remaining tries : Nat) (status : String) (tr : Trace) :
    trackLoop bp ctx backupId newName fromRepo remaining tries status tr =
      ((tries + remaining, if remaining = 0 then status else "PROCEEDING"),
        tr ++ (List.replicate remaining
          [Event.indicesRecovery [newName], Event.sleep 1]).flatten) := by
  induction remaining generalizing tries status tr with
  | zero => simp [trackLoop]
  | succ n ih =>
    simp only [trackLoop, hproceeding tr, if_true, ih, TrackRestoreIndices_trace]
    have h1 : tries + 1 + n = tries + (n + 1) := by omega
    have h2 : (if n = 0 then "PROCEEDING" else "PROCEEDING") = "PROCEEDING" := by
      split_ifs <;> rfl
    simp [h1, h2, List.replicate_succ]

/-- One round of the loop over the indices, once Curator has accepted the
restore request of the index. -/
theorem sequentialRestore_cons (rt : Runtime) (bp : BackupProvider) (ctx : Context)
    (backupId fromRepo : String) (index : String) (rest : List String)
    (changedNameDb : NameMap) (tr : Trace) (requestId : String)
    (hurl : rt.newRequestOk (bp.Curator.url ++ "/restore") = true)
    (hctx : ctx.requestId = some requestId)
    (haccepted : ∃ response, bp.Curator.client (bp.indexNames.NameIndex rt tr).2
      (restoreRequest bp requestId [index] backupId index (bp.indexNames.NameIndex rt tr).1)
        = .ok response) :
    sequentialRestore rt bp ctx backupId fromRepo (index :: rest) changedNameDb tr =
      if (trackLoop bp ctx backupId (bp.indexNames.NameIndex rt tr).1 fromRepo 120 0 ""
          ((bp.indexNames.NameIndex rt tr).2 ++ [Event.curatorDo (restoreRequest bp requestId
            [index] backupId index (bp.indexNames.NameIndex rt tr).1)])).1.2 ≠ "SUCCESS"
      then
        (.returned (none, some (restoreFailedMessage index (bp.indexNames.NameIndex rt tr).1
          (trackLoop bp ctx backupId (bp.indexNames.NameIndex rt tr).1 fromRepo 120 0 ""
            ((bp.indexNames.NameIndex rt tr).2 ++ [Event.curatorDo (restoreRequest bp
              requestId [index] backupId index (bp.indexNames.NameIndex rt tr).1)])).1.2
          (trackLoop bp ctx backupId (bp.indexNames.NameIndex rt tr).1 fromRepo 120 0 ""
            ((bp.indexNames.NameIndex rt tr).2 ++ [Event.curatorDo (restoreRequest bp
              requestId [index] backupId index (bp.indexNames.NameIndex rt tr).1)])).1.1)),
         (trackLoop bp ctx backupId (bp.indexNames.NameIndex rt tr).1 fromRepo 120 0 ""
            ((bp.indexNames.NameIndex rt tr).2 ++ [Event.curatorDo (restoreRequest bp
              requestId [index] backupId index (bp.indexNames.NameIndex rt tr).1)])).2)
      else
        sequentialRestore rt bp ctx backupId fromRepo rest
          (changedNameDb.set index (bp.indexNames.NameIndex rt tr).1)
          (trackLoop bp ctx backupId (bp.indexNames.NameIndex rt tr).1 fromRepo 120 0 ""
            ((bp.indexNames.NameIndex rt tr).2 ++ [Event.curatorDo (restoreRequest bp
              requestId [index] backupId index (bp.indexNames.NameIndex rt tr).1)])).2 := by
  obtain ⟨response, hresp⟩ := haccepted
  rw [sequentialRestore]
  simp only [requestRestore_eq rt bp ctx [index] backupId index _ _ requestId hurl hctx,
    hresp]

theorem countP_flatten_replicate (p : Event → Bool) (l : List Event) (n : Nat) :
    ((List.replicate n l).flatten).countP p = n * l.countP p := by
  induction n with
  | zero => simp
  | succ k ih =>
    rw [List.replicate_succ, List.flatten_cons, List.countP_append, ih]
    ring

/-- C10: in sequential mode (the Curator URL being accepted by
`http.NewRequest`, the context carrying a request id and Curator accepting the
restore request of the first index), with a tracker that reports `PROCEEDING`
forever and a snapshot of one or more indices, `RestoreBackup` returns an error
and a nil mapping after exactly one Curator restore request and exactly 120
tracking polls, each followed by a one second sleep; no further index is
attempted.  More generally, at whatever point of the loop over the indices and
for every tracker, an index whose poll loop ends without `SUCCESS` makes the
loop return an error and a nil mapping right after that poll loop, whatever
indices are left. -/
theorem RestoreBackup_sequential_exhausted (rt : Runtime) (bp : BackupProvider)
    (backupId : String) (dbs : List String) (fromRepo : String) (ctx : Context)
    (tr tr1 : Trace) (index : String) (rest : List String) (requestId : String)
    (hdbs : dbs ≠ [])
    (hindices : getActualIndices bp backupId fromRepo (some []) ctx tr
      = ((index :: rest, none), tr1))
    (hurl : rt.newRequestOk (bp.Curator.url ++ "/restore") = true)
    (hctx : ctx.requestId = some requestId)
    (hsequential : ((bp.indexNames.NameIndex rt tr1).1 ++ "_").utf8ByteSize
      + longestName (index :: rest) ≥ 255)
    (haccepted : ∃ response,
      bp.Curator.client (bp.indexNames.NameIndex rt (bp.indexNames.NameIndex rt tr1).2).2
        (restoreRequest bp requestId [index] backupId index
          (bp.indexNames.NameIndex rt (bp.indexNames.NameIndex rt tr1).2).1) = .ok response)
    (hproceeding : ∀ (indices' : List String) (tr' : Trace),
      (TrackRestoreIndices bp ctx backupId indices' fromRepo none tr').1.Status
        = "PROCEEDING") :
    let newName := (bp.indexNames.NameIndex rt (bp.indexNames.NameIndex rt tr1).2).1
    let result := RestoreBackup rt bp backupId dbs fromRepo true ctx tr
    (result.1 = .returned (none, some ("failed to restore " ++ index ++ "->" ++ newName
        ++ ", status is 'PROCEEDING' after 120 retries")) ∧
      result.2 = tr ++ [Event.snapshotStatus (if fromRepo = "" then backupId else fromRepo)
          [backupId], Event.uuidNewV4, Event.uuidNewV4,
          Event.curatorDo (restoreRequest bp requestId [index] backupId index newName)]
        ++ (List.replicate 120 [Event.indicesRecovery [newName], Event.sleep 1]).flatten ∧
      (result.2.drop tr.length).countP Event.isCuratorDo = 1 ∧
      (result.2.drop tr.length).countP Event.isIndicesRecovery = 120) ∧
    (∀ (index' : String) (rest' : List String) (changedNameDb : NameMap) (tr' : Trace),
      (∃ response, bp.Curator.client (bp.indexNames.NameIndex rt tr').2
        (restoreRequest bp requestId [index'] backupId index'
          (bp.indexNames.NameIndex rt tr').1) = .ok response) →
      ∀ polled, polled = trackLoop bp ctx backupId (bp.indexNames.NameIndex rt tr').1
          fromRepo 120 0 "" ((bp.indexNames.NameIndex rt tr').2 ++ [Event.curatorDo
            (restoreRequest bp requestId [index'] backupId index'
              (bp.indexNames.NameIndex rt tr').1)]) →
        polled.1.2 ≠ "SUCCESS" →
        ∃ err, sequentialRestore rt bp ctx backupId fromRepo (index' :: rest')
          changedNameDb tr' = (.returned (none, some err), polled.2)) := by
  intro newName result
  have htr1 : tr1 = tr ++ [Event.snapshotStatus (if fromRepo = "" then backupId else fromRepo)
      [backupId]] := by
    have h := getActualIndices_trace bp backupId fromRepo (some []) ctx tr
    rw [hindices] at h
    exact h
  have hloop := trackLoop_proceeding bp ctx backupId newName fromRepo
    (hproceeding [newName]) 120 0 ""
      ((bp.indexNames.NameIndex rt (bp.indexNames.NameIndex rt tr1).2).2
        ++ [Event.curatorDo (restoreRequest bp requestId [index] backupId index newName)])
  have hres : result =
      (.returned (none, some (restoreFailedMessage index newName "PROCEEDING" 120)),
        (bp.indexNames.NameIndex rt (bp.indexNames.NameIndex rt tr1).2).2
          ++ [Event.curatorDo (restoreRequest bp requestId [index] backupId index newName)]
          ++ (List.replicate 120 [Event.indicesRecovery [newName], Event.sleep 1]).flatten)
      := by
    show RestoreBackup rt bp backupId dbs fromRepo true ctx tr = _
    rw [RestoreBackup_regenerate rt bp backupId dbs fromRepo ctx tr tr1 (index :: rest) hdbs
      hindices, if_neg (by omega),
      sequentialRestore_cons rt bp ctx backupId fromRepo index rest [] _ requestId hurl hctx
        haccepted]
    simp only [newName] at hloop
    rw [hloop]
    have hne : ("PROCEEDING" : String) ≠ "SUCCESS" := by decide
    simp [hne]
  have hmsg : restoreFailedMessage index newName "PROCEEDING" 120
      = "failed to restore " ++ index ++ "->" ++ newName
        ++ ", status is 'PROCEEDING' after 120 retries" := by
    have h120 : toString (120 : Nat) = "120" := by decide
    simp only [restoreFailedMessage, h120]
    apply String.ext
    simp
  have htrace : result.2 = tr ++ [Event.snapshotStatus
        (if fromRepo = "" then backupId else fromRepo) [backupId], Event.uuidNewV4,
        Event.uuidNewV4,
        Event.curatorDo (restoreRequest bp requestId [index] backupId index newName)]
      ++ (List.replicate 120 [Event.indicesRecovery [newName], Event.sleep 1]).flatten := by
    rw [hres]
    simp [NameIndex_trace, htr1]
  refine ⟨⟨?_, htrace, ?_, ?_⟩, ?_⟩
  · rw [hres, hmsg]
  · rw [htrace, List.append_assoc, List.drop_left, List.countP_append,
      countP_flatten_replicate]
    simp [List.countP_cons, Event.isCuratorDo]
  · rw [htrace, List.append_assoc, List.drop_left, List.countP_append,
      countP_flatten_replicate]
    simp [List.countP_cons, Event.isIndicesRecovery]
  · intro index' rest' changedNameDb tr' hacc polled hpolled hstatus
    rw [sequentialRestore_cons rt bp ctx backupId fromRepo index' rest' changedNameDb tr'
      requestId hurl hctx hacc, ← hpolled, if_pos hstatus]
    exact ⟨_, rfl⟩

set_option maxRecDepth 100000

/-- Witness of C10: a snapshot whose first index name has 250 bytes, restored
with a search engine that never reports a recovery. -/
theorem RestoreBackup_sequential_exhausted_witness :
    ["db1"] ≠ [] ∧
    getActualIndices stalledProvider "dbaas_1_1" "snapshots" (some []) sampleContext []
      = (([longIndex, "b"], none), [Event.snapshotStatus "snapshots" ["dbaas_1_1"]]) ∧
    sampleRuntime.newRequestOk (stalledProvider.Curator.url ++ "/restore") = true ∧
    sampleContext.requestId = some "r1" ∧
    ("dbaas_u_".utf8ByteSize + longestName [longIndex, "b"] ≥ 255) ∧
    (∀ (indices' : List String) (tr' : Trace),
      (TrackRestoreIndices stalledProvider sampleContext "dbaas_1_1" indices' "snapshots"
        none tr').1.Status = "PROCEEDING") ∧
    ((RestoreBackup sampleRuntime stalledProvider "dbaas_1_1" ["db1"] "snapshots" true
        sampleContext []).2.drop 0).countP Event.isCuratorDo = 1 ∧
    ((RestoreBackup sampleRuntime stalledProvider "dbaas_1_1" ["db1"] "snapshots" true
        sampleContext []).2.drop 0).countP Event.isIndicesRecovery = 120 := by
  have hidx : getActualIndices stalledProvider "dbaas_1_1" "snapshots" (some [])
      sampleContext []
      = (([longIndex, "b"], none), [Event.snapshotStatus "snapshots" ["dbaas_1_1"]]) := by
    decide
  have hseq : "dbaas_u_".utf8ByteSize + longestName [longIndex, "b"] ≥ 255 := by decide
  have hproc : ∀ (indices' : List String) (tr' : Trace),
      (TrackRestoreIndices stalledProvider sampleContext "dbaas_1_1" indices' "snapshots"
        none tr').1.Status = "PROCEEDING" := fun _ _ => rfl
  have h := (RestoreBackup_sequential_exhausted sampleRuntime stalledProvider "dbaas_1_1"
    ["db1"] "snapshots" sampleContext [] [Event.snapshotStatus "snapshots" ["dbaas_1_1"]]
    longIndex ["b"] "r1" (by decide) hidx rfl rfl hseq ⟨_, rfl⟩ hproc).1
  exact ⟨by decide, hidx, rfl, rfl, hseq, hproc, h.2.2.1, h.2.2.2⟩

/-! ### Snapshot indices and tracks -/

/-- What `getActualIndices` answers once the snapshot is found. -/
theorem getActualIndices_found (bp : BackupProvider) (backupId repoName : String)
    (changedNameDb : Option NameMap) (ctx : Context) (tr : Trace) (snapshots : Snapshots)
    (snapshot : SnapshotStatus)
    (hquery : bp.client.snapshotStatus tr (if repoName = "" then backupId else repoName)
      [backupId] = .ok snapshots)
    (hfound : snapshots.Snapshots.find? (fun s => decide (s.Snapshot = backupId))
      = some snapshot) :
    getActualIndices bp backupId repoName changedNameDb ctx tr =
      ((snapshot.Indices.map (fun name =>
          if mapIndex changedNameDb name = "" then name else mapIndex changedNameDb name),
        none),
       tr ++ [Event.snapshotStatus (if repoName = "" then backupId else repoName)
        [backupId]]) := by
  simp only [getActualIndices, getSnapshotStatus, hquery, hfound]

/-- C12: `getActualIndices` fails when the snapshot-status query fails or its
answer contains no snapshot named backupId.  Otherwise, for a mapping that
holds index names (none of them empty), it returns one name per index captured
in the snapshot, in the same order: the renamed counterpart when the index is
present in the mapping, else the original name; so the result has as many
entries as the snapshot has indices, and with a nil or empty mapping it is the
list of the snapshot's original index names. -/
theorem getActualIndices_spec (bp : BackupProvider) (backupId repoName : String)
    (changedNameDb : Option NameMap) (ctx : Context) (tr : Trace)
    (hnames : ∀ m, changedNameDb = some m → ∀ key, m.get? key ≠ some "") :
    let repo := if repoName = "" then backupId else repoName
    let answer := (getActualIndices bp backupId repoName changedNameDb ctx tr).1
    (∀ err, bp.client.snapshotStatus tr repo [backupId] = .error err →
      ∃ err', answer = ([], some err')) ∧
    (∀ snapshots, bp.client.snapshotStatus tr repo [backupId] = .ok snapshots →
      (∀ s ∈ snapshots.Snapshots, s.Snapshot ≠ backupId) →
      ∃ err', answer = ([], some err')) ∧
    (∀ snapshots snapshot, bp.client.snapshotStatus tr repo [backupId] = .ok snapshots →
      snapshots.Snapshots.find? (fun s => decide (s.Snapshot = backupId)) = some snapshot →
      ∃ result, answer = (result, none) ∧
        result.length = snapshot.Indices.length ∧
        List.Forall₂ (fun name newName =>
            (∀ renamed, changedNameDb.bind (fun m => m.get? name) = some renamed →
              newName = renamed) ∧
            (changedNameDb.bind (fun m => m.get? name) = none → newName = name))
          snapshot.Indices result ∧
        ((changedNameDb = none ∨ changedNameDb = some []) →
          result = snapshot.Indices)) := by
  intro repo answer
  refine ⟨?_, ?_, ?_⟩
  · intro err herr
    refine ⟨"failed to find '" ++ backupId ++ "' snapshot: " ++ err, ?_⟩
    simp only [answer, getActualIndices, getSnapshotStatus]
    rw [herr]
  · intro snapshots hquery hnone
    have hfind : snapshots.Snapshots.find? (fun s => decide (s.Snapshot = backupId))
        = none := by
      rw [List.find?_eq_none]
      intro s hs
      simpa using hnone s hs
    refine ⟨"failed to find '" ++ backupId ++ "' snapshot: " ++
      ("failed to find '" ++ backupId ++ "' snapshot in " ++ repo), ?_⟩
    simp only [answer, getActualIndices, getSnapshotStatus]
    rw [hquery]
    simp only [hfind]
  · intro snapshots snapshot hquery hfound
    have h := getActualIndices_found bp backupId repoName changedNameDb ctx tr snapshots
      snapshot hquery hfound
    refine ⟨_, by simp only [answer]; rw [h], by simp, ?_, ?_⟩
    · rw [List.forall₂_map_right_iff, List.forall₂_same]
      intro name _
      cases hm : changedNameDb with
      | none => simp [mapIndex]
      | some m =>
        cases hg : m.get? name with
        | none => simp [mapIndex, hg]
        | some v =>
          have hv : v ≠ "" := by
            intro hv
            exact hnames m hm name (by rw [hg, hv])
          simp [mapIndex, hg, hv]
    · rintro (hm | hm)
      · simp [hm, mapIndex]
      · simp [hm, mapIndex, NameMap.get?]

/-- Witness of C12: with the mapping of `a` to `x`, the indices `a` and `b` of
the snapshot are answered as `x` and `b`. -/
theorem getActualIndices_spec_witness :
    (∀ m, some [("a", "x")] = some m → ∀ key, NameMap.get? m key ≠ some "") ∧
    ∃ result, (getActualIndices sampleProvider "dbaas_1_1" "snapshots" (some [("a", "x")])
      sampleContext []).1 = (result, none) ∧ result.length = 2 ∧ result = ["x", "b"] := by
  have hnames : ∀ m, some [("a", "x")] = some m → ∀ key, NameMap.get? m key ≠ some "" := by
    intro m hm key
    cases hm
    simp only [NameMap.get?]
    split_ifs <;> simp
  refine ⟨hnames, ?_⟩
  obtain ⟨result, hanswer, hlength, -, -⟩ :=
    (getActualIndices_spec sampleProvider "dbaas_1_1" "snapshots" (some [("a", "x")])
      sampleContext [] hnames).2.2 sampleSnapshots
      { State := "SUCCESS", Snapshot := "dbaas_1_1", Indices := ["a", "b"] } rfl rfl
  have hvalue : (getActualIndices sampleProvider "dbaas_1_1" "snapshots"
      (some [("a", "x")]) sampleContext []).1 = (["x", "b"], none) := by decide
  refine ⟨result, hanswer, hlength, ?_⟩
  rw [hanswer] at hvalue
  exact (Prod.mk.inj hvalue).1

/-- The outcome of `getJobStatus` for a context that carries a request id. -/
theorem getJobStatus_eq (rt : Runtime) (bp : BackupProvider) (snapshotName : String)
    (ctx : Context) (tr : Trace) (requestId : String)
    (hctx : ctx.requestId = some requestId) :
    getJobStatus rt bp snapshotName ctx tr =
      if rt.newRequestOk (bp.Curator.url ++ "/jobstatus/" ++ snapshotName) = true then
        (.returned
          (match bp.Curator.client tr
              { Method := "GET"
                URL := bp.Curator.url ++ "/jobstatus/" ++ snapshotName
                Body := none
                Header := [("X-Request-Id", requestId)]
                BasicAuth := some (bp.Curator.username, bp.Curator.password) } with
            | .error err => ("FAIL", some err)
            | .ok response =>
              match response.Body with
              | .error err => ("FAIL", some err)
              | .ok body =>
                match rt.decodeJobStatus body with
                | .error err => ("FAIL", some err)
                | .ok jobStatus => (translateState jobStatus.State, none)),
         tr ++ [Event.curatorDo
            { Method := "GET"
              URL := bp.Curator.url ++ "/jobstatus/" ++ snapshotName
              Body := none
              Header := [("X-Request-Id", requestId)]
              BasicAuth := some (bp.Curator.username, bp.Curator.password) }])
      else (.returned ("FAIL", some "http.NewRequest failed"), tr) := by
  have hu : bp.Curator.url ++ "/" ++ "jobstatus" ++ "/" ++ snapshotName
      = bp.Curator.url ++ "/jobstatus/" ++ snapshotName := by
    simp [String.append_assoc]
  simp only [getJobStatus, hu, hctx, RequestIdKey]
  split_ifs with h
  · cases bp.Curator.client tr
        { Method := "GET"
          URL := bp.Curator.url ++ "/jobstatus/" ++ snapshotName
          Body := none
          Header := [("X-Request-Id", requestId)]
          BasicAuth := some (bp.Curator.username, bp.Curator.password) } with
    | error err => rfl
    | ok response =>
      simp only []
      cases response.Body with
      | error err => rfl
      | ok body =>
        simp only []
        cases rt.decodeJobStatus body <;> rfl
  · rfl

/-- C13: for every backupId (the context carrying a request id), `TrackBackup`
returns an `ActionTrack` with action `BACKUP`, trackId and details.localId
equal to backupId, absent changedNameDb and trackPath, and a status that is the
translation of Curator's raw job state, or `FAIL` when the job-status call
fails (request not built, transport error, unreadable or undecodable answer);
a raw state `Queued` yields `PROCEEDING`. -/
theorem TrackBackup_spec (rt : Runtime) (bp : BackupProvider) (backupID : String)
    (ctx : Context) (tr : Trace) (requestId : String)
    (hctx : ctx.requestId = some requestId) :
    let request : HttpRequest :=
      { Method := "GET"
        URL := bp.Curator.url ++ "/jobstatus/" ++ backupID
        Body := none
        Header := [("X-Request-Id", requestId)]
        BasicAuth := some (bp.Curator.username, bp.Curator.password) }
    ∃ status : String,
      (TrackBackup rt bp backupID ctx tr).1 = .returned
        { Action := "BACKUP"
          Details := { LocalId := backupID }
          Status := status
          TrackID := backupID
          ChangedNameDb := none
          TrackPath := none } ∧
      (rt.newRequestOk request.URL = false → status = "FAIL") ∧
      (rt.newRequestOk request.URL = true →
        (∀ err, bp.Curator.client tr request = .error err → status = "FAIL") ∧
        (∀ response, bp.Curator.client tr request = .ok response →
          (∀ err, response.Body = .error err → status = "FAIL") ∧
          (∀ body, response.Body = .ok body →
            (∀ err, rt.decodeJobStatus body = .error err → status = "FAIL") ∧
            (∀ jobStatus, rt.decodeJobStatus body = .ok jobStatus →
              status = translateState jobStatus.State ∧
              (jobStatus.State = "Queued" → status = "PROCEEDING"))))) := by
  intro request
  have hjob := getJobStatus_eq rt bp backupID ctx tr requestId hctx
  by_cases hurl : rt.newRequestOk (bp.Curator.url ++ "/jobstatus/" ++ backupID) = true
  · rw [if_pos hurl] at hjob
    cases hdo : bp.Curator.client tr request with
    | error err =>
      refine ⟨"FAIL", ?_, fun _ => rfl, fun _ => ⟨fun _ _ => rfl, ?_⟩⟩
      · simp only [TrackBackup, hjob]
        rw [hdo]
        rfl
      · intro response h
        exact Except.noConfusion h
    | ok response =>
      cases hbody : response.Body with
      | error err =>
        refine ⟨"FAIL", ?_, fun _ => rfl, fun _ => ⟨fun _ _ => rfl, ?_⟩⟩
        · simp only [TrackBackup, hjob]
          rw [hdo]
          simp only [hbody]
          rfl
        · intro response' h
          cases h
          exact ⟨fun _ _ => rfl, fun body h => by rw [hbody] at h; exact Except.noConfusion h⟩
      | ok body =>
        cases hdecode : rt.decodeJobStatus body with
        | error err =>
          refine ⟨"FAIL", ?_, fun _ => rfl, fun _ => ⟨fun _ _ => rfl, ?_⟩⟩
          · simp only [TrackBackup, hjob]
            rw [hdo]
            simp only [hbody, hdecode]
            rfl
          · intro response' h
            cases h
            refine ⟨fun _ _ => rfl, fun body' h => ?_⟩
            rw [hbody] at h
            cases h
            exact ⟨fun _ _ => rfl, fun js h => by rw [hdecode] at h; exact Except.noConfusion h⟩
        | ok jobStatus =>
          refine ⟨translateState jobStatus.State, ?_, ?_, fun _ => ⟨?_, ?_⟩⟩
          · simp only [TrackBackup, hjob]
            rw [hdo]
            simp only [hbody, hdecode]
            rfl
          · intro h
            rw [hurl] at h
            exact Bool.noConfusion h
          · intro err h
            exact Except.noConfusion h
          · intro response' h
            cases h
            refine ⟨fun err h => by rw [hbody] at h; exact Except.noConfusion h,
              fun body' h => ?_⟩
            rw [hbody] at h
            cases h
            refine ⟨fun err h => by rw [hdecode] at h; exact Except.noConfusion h,
              fun js h => ?_⟩
            rw [hdecode] at h
            cases h
            exact ⟨rfl, fun hq => by simp [translateState, hq]⟩
  · rw [if_neg hurl] at hjob
    refine ⟨"FAIL", ?_, fun _ => rfl, fun h => absurd h hurl⟩
    simp only [TrackBackup, hjob]
    rfl

/-- Witness of C13: Curator reporting `Queued` gives the status `PROCEEDING`. -/
theorem TrackBackup_spec_witness :
    sampleContext.requestId = some "r1" ∧
    (TrackBackup sampleRuntime sampleProvider "20240322T091826" sampleContext []).1
      = .returned
        { Action := "BACKUP"
          Details := { LocalId := "20240322T091826" }
          Status := "PROCEEDING"
          TrackID := "20240322T091826"
          ChangedNameDb := none
          TrackPath := none } := by
  refine ⟨rfl, ?_⟩
  obtain ⟨status, hret, -, hok⟩ :=
    TrackBackup_spec sampleRuntime sampleProvider "20240322T091826" sampleContext [] "r1" rfl
  have hstatus := (((hok rfl).2 { StatusCode := 200, Body := .ok "Queued" } rfl).2
    "Queued" rfl).2
    { State := "Queued", Message := "", Vault := "", Kind := "", Error := "", TaskId := "" }
    rfl
  rw [hret, hstatus.2 rfl]

/-- C14, the code at the failing input: when the job-status call fails,
`TrackRestore` answers with the action `BACKUP` instead of `RESTORE`. -/
theorem TrackRestore_failed_status_action :
    (TrackRestore sampleRuntime unreachableProvider "dbaas_1_1" sampleContext []).1
      = .returned
        { Action := "BACKUP"
          Details := { LocalId := "dbaas_1_1" }
          Status := "FAIL"
          TrackID := "dbaas_1_1"
          ChangedNameDb := none
          TrackPath := none } ∧
    (TrackRestore sampleRuntime sampleProvider "dbaas_1_1" sampleContext []).1
      = .returned
        { Action := "RESTORE"
          Details := { LocalId := "dbaas_1_1" }
          Status := "PROCEEDING"
          TrackID := "dbaas_1_1"
          ChangedNameDb := none
          TrackPath := none } := by
  constructor <;> decide

/-! ### Curator requests -/

theorem CollectBackup_eq (rt : Runtime) (bp : BackupProvider) (dbs : List String)
    (ctx : Context) (tr : Trace) (requestId : String)
    (hdbs : dbs ≠ [])
    (hurl : rt.newRequestOk (bp.Curator.url ++ "/backup") = true)
    (hctx : ctx.requestId = some requestId) :
    CollectBackup rt bp dbs ctx tr =
      (.returned
        (match bp.Curator.client tr (collectRequest bp requestId dbs) with
          | .error err => ("", some err)
          | .ok response =>
            match response.Body with
            | .error err => ("", some err)
            | .ok responseBody => (responseBody, none)),
       tr ++ [Event.curatorDo (collectRequest bp requestId dbs)]) := by
  have hurl' : rt.newRequestOk (bp.Curator.url ++ "/" ++ "backup") = true := by
    simpa [String.append_assoc] using hurl
  have hlen : dbs.length ≠ 0 := by
    intro h; exact hdbs (List.length_eq_zero.mp h)
  simp only [CollectBackup, hurl', hlen, hctx, if_true, ne_eq, not_false_eq_true]
  cases bp.Curator.client tr (collectRequest bp requestId dbs) with
  | error err => rfl
  | ok response =>
    simp only []
    cases response.Body <;> rfl

/-- C15, as stated, fails: Curator answering with status 500, outside
200..299, `CollectBackup` returns the response body as backup id with a nil
error, and `requestRestore` and `RestoreBackup` return a nil error. -/
theorem Curator_status_500_counterexample :
    ¬ (200 ≤ 500 ∧ 500 ≤ 299) ∧
    failingProvider.Curator.client [] (collectRequest failingProvider "r1" ["db1", "db2"])
      = .ok { StatusCode := 500, Body := .ok "Internal Server Error" } ∧
    (CollectBackup sampleRuntime failingProvider ["db1", "db2"] sampleContext []).1
      = .returned ("Internal Server Error", none) ∧
    (requestRestore sampleRuntime failingProvider sampleContext ["db1", "db2"] "dbaas_1_1"
      "" "" []).1 = .returned none ∧
    (RestoreBackup sampleRuntime failingProvider "dbaas_1_1" ["db1", "db2"] "snapshots" false
      sampleContext []).1 = .returned (none, none) := by
  refine ⟨by decide, rfl, by decide, by decide, by decide⟩

/-- C15 amended: `CollectBackup` and `requestRestore` surface a transport
error of their Curator call as an error to their caller, but not a non-2xx
response, neither of them reading the status code: for a non-empty list of
database names and every response, whatever its status code, `CollectBackup`
returns the response body as backup id with a nil error (an error only when
the body cannot be read) and `requestRestore`, hence `RestoreBackup` without
name regeneration, returns a nil error. -/
theorem Curator_status_code_ignored (rt : Runtime) (bp : BackupProvider)
    (dbs : List String) (ctx : Context) (tr : Trace) (requestId : String)
    (backupId pattern replacement fromRepo : String)
    (hdbs : dbs ≠ [])
    (hbackup : rt.newRequestOk (bp.Curator.url ++ "/backup") = true)
    (hrestore : rt.newRequestOk (bp.Curator.url ++ "/restore") = true)
    (hctx : ctx.requestId = some requestId) :
    (∀ err, bp.Curator.client tr (collectRequest bp requestId dbs) = .error err →
      (CollectBackup rt bp dbs ctx tr).1 = .returned ("", some err)) ∧
    (∀ (code : Nat) (body : String),
      bp.Curator.client tr (collectRequest bp requestId dbs)
        = .ok { StatusCode := code, Body := .ok body } →
      (CollectBackup rt bp dbs ctx tr).1 = .returned (body, none)) ∧
    (∀ (code : Nat) (err : String),
      bp.Curator.client tr (collectRequest bp requestId dbs)
        = .ok { StatusCode := code, Body := .error err } →
      (CollectBackup rt bp dbs ctx tr).1 = .returned ("", some err)) ∧
    (∀ err, bp.Curator.client tr
        (restoreRequest bp requestId dbs backupId pattern replacement) = .error err →
      (requestRestore rt bp ctx dbs backupId pattern replacement tr).1
        = .returned (some err)) ∧
    (∀ (code : Nat) (body : Except String String),
      bp.Curator.client tr (restoreRequest bp requestId dbs backupId pattern replacement)
        = .ok { StatusCode := code, Body := body } →
      (requestRestore rt bp ctx dbs backupId pattern replacement tr).1 = .returned none) ∧
    (∀ (code : Nat) (body : Except String String),
      bp.Curator.client tr (restoreRequest bp requestId dbs backupId "" "")
        = .ok { StatusCode := code, Body := body } →
      (RestoreBackup rt bp backupId dbs fromRepo false ctx tr).1
        = .returned (none, none)) := by
  have hcollect := CollectBackup_eq rt bp dbs ctx tr requestId hdbs hbackup hctx
  have hreq := requestRestore_eq rt bp ctx dbs backupId pattern replacement tr requestId
    hrestore hctx
  have hlen : dbs.length ≠ 0 := by
    intro h; exact hdbs (List.length_eq_zero.mp h)
  refine ⟨?_, ?_, ?_, ?_, ?_, ?_⟩
  · intro err h
    rw [hcollect, h]
  · intro code body h
    rw [hcollect, h]
  · intro code err h
    rw [hcollect, h]
  · intro err h
    rw [hreq, h]
  · intro code body h
    rw [hreq, h]
  · intro code body h
    have hplain := requestRestore_eq rt bp ctx dbs backupId "" "" tr requestId hrestore hctx
    simp only [RestoreBackup, hlen, if_false, hplain, h]
    rfl

/-- Witness of the amended C15 on the Curator that answers 500. -/
theorem Curator_status_code_ignored_witness :
    ["db1", "db2"] ≠ [] ∧
    sampleRuntime.newRequestOk (failingProvider.Curator.url ++ "/backup") = true ∧
    sampleRuntime.newRequestOk (failingProvider.Curator.url ++ "/restore") = true ∧
    sampleContext.requestId = some "r1" ∧
    (CollectBackup sampleRuntime failingProvider ["db1", "db2"] sampleContext []).1
      = .returned ("Internal Server Error", none) :=
  ⟨by decide, rfl, rfl, rfl,
    (Curator_status_code_ignored sampleRuntime failingProvider ["db1", "db2"] sampleContext
      [] "r1" "dbaas_1_1" "" "" "snapshots" (by decide) rfl rfl rfl).2.1 500
      "Internal Server Error" rfl⟩

/-! ### The bodies of the Curator requests as JSON texts -/

/-- Characters that need no escape are read into the string one by one. -/
theorem jsonTokens_plain (s : List Char) (chars : List Char) (tokens : List JsonToken)
    (rest : List Char)
    (hs : ∀ c ∈ s, c ≠ Char.ofNat 34 ∧ c ≠ Char.ofNat 92 ∧ 32 ≤ c.toNat) :
    jsonTokens (.inString chars) tokens (s ++ Char.ofNat 34 :: rest)
      = jsonTokens .outside (.string (String.mk (chars.reverse ++ s)) :: tokens) rest := by
  induction s generalizing chars with
  | nil => simp [jsonTokens]
  | cons c cs ih =>
    obtain ⟨h1, h2, h3⟩ := hs c (List.mem_cons_self _ _)
    have h3' : ¬ c.toNat < 32 := by omega
    have h := ih (c :: chars) (fun d hd => hs d (List.mem_cons_of_mem _ hd))
    simp only [List.reverse_cons, List.append_assoc, List.singleton_append] at h
    simp only [List.cons_append, jsonTokens, if_neg h1, if_neg h2, if_neg h3']
    exact h

/-- A string of the text between two quotation marks is read as it is. -/
theorem jsonTokens_plainText (s : String) (tokens : List JsonToken) (rest : List Char)
    (hs : plainText s = true) :
    jsonTokens (.inString []) tokens (s.data ++ Char.ofNat 34 :: rest)
      = jsonTokens .outside (.string s :: tokens) rest := by
  have h : ∀ c ∈ s.data, c ≠ Char.ofNat 34 ∧ c ≠ Char.ofNat 92 ∧ 32 ≤ c.toNat := by
    intro c hc
    have hall := List.all_eq_true.mp hs c hc
    simpa using hall
  rw [jsonTokens_plain s.data [] tokens rest h]
  rfl

theorem intercalate_go_data (acc sep : String) (rest : List String) :
    (String.intercalate.go acc sep rest).data
      = acc.data ++ (rest.map (fun a => sep.data ++ a.data)).flatten := by
  induction rest generalizing acc with
  | nil => simp [String.intercalate.go]
  | cons a rest ih =>
    simp only [String.intercalate.go, ih, String.data_append, List.map_cons,
      List.flatten_cons, List.append_assoc]

/-- Names that can stand in a JSON string as they are give, joined by commas,
such a string. -/
theorem plainText_intercalate (names : List String)
    (hnames : ∀ name ∈ names, plainText name = true) :
    plainText (",".intercalate names) = true := by
  cases names with
  | nil => rfl
  | cons first rest =>
    simp only [plainText, String.intercalate, intercalate_go_data, List.all_append,
      Bool.and_eq_true, List.all_eq_true, List.mem_flatten, List.mem_map]
    constructor
    · intro c hc
      exact List.all_eq_true.mp (hnames first (List.mem_cons_self _ _)) c hc
    · rintro c ⟨l, ⟨name, hname, rfl⟩, hc⟩
      rcases List.mem_append.mp hc with h | h
      · have hcomma : c = ',' := by simpa using h
        rw [hcomma]
        decide
      · exact List.all_eq_true.mp (hnames name (List.mem_cons_of_mem _ hname)) c h

/-- The body of `CollectBackup` read as a JSON text. -/
theorem readObject_collectRequestBody (dbs : List String)
    (hdbs : plainText (",".intercalate dbs) = true) :
    readObject (collectRequestBody dbs)
      = some [("dbs", .strings [",".intercalate dbs])] := by
  have htail : ("\"]\n\t\t\x7d" : String).data
      = Char.ofNat 34 :: ("]\n\t\t\x7d" : String).data := rfl
  have hhead : ∀ rest : List Char,
      jsonTokens .outside [] (("\n\t\t\x7b\n\t\t\t\"dbs\": [\"" : String).data ++ rest)
        = jsonTokens (.inString [])
            [.beginArray, .nameSeparator, .string "dbs", .beginObject] rest :=
    fun _ => rfl
  simp only [readObject, collectRequestBody, String.data_append, List.append_assoc, htail,
    hhead, jsonTokens_plainText _ _ _ hdbs]
  rfl

/-- The body of `requestRestore` read as a JSON text. -/
theorem readObject_restoreRequestBody (dbs : List String)
    (backupId pattern replacement : String)
    (hdbs : plainText (",".intercalate dbs) = true)
    (hbackupId : plainText backupId = true)
    (hpattern : plainText pattern = true)
    (hreplacement : plainText replacement = true) :
    readObject (restoreRequestBody dbs backupId pattern replacement)
      = some ([("vault", .string backupId), ("dbs", .strings [",".intercalate dbs])]
          ++ (if pattern = "" then []
              else [("rename_pattern", .string pattern),
                ("rename_replacement", .string replacement)])) := by
  have hhead : ∀ rest : List Char,
      jsonTokens .outside [] (("\n\t\t\x7b\n\t\t\t\"vault\": \"" : String).data ++ rest)
        = jsonTokens (.inString []) [.nameSeparator, .string "vault", .beginObject] rest :=
    fun _ => rfl
  have hdbsPart : ∀ (tokens : List JsonToken) (rest : List Char),
      jsonTokens .outside tokens ((",\t\n\t\t\t\"dbs\": [\"" : String).data ++ rest)
        = jsonTokens (.inString [])
            (.beginArray :: .nameSeparator :: .string "dbs" :: .valueSeparator :: tokens)
            rest :=
    fun _ _ => rfl
  have hrename : ∀ (tokens : List JsonToken) (rest : List Char),
      jsonTokens .outside tokens
          (("]\n\t\t\n\t\t,\"rename_pattern\": \"" : String).data ++ rest)
        = jsonTokens (.inString [])
            (.nameSeparator :: .string "rename_pattern" :: .valueSeparator :: .endArray
              :: tokens) rest :=
    fun _ _ => rfl
  have hreplace : ∀ (tokens : List JsonToken) (rest : List Char),
      jsonTokens .outside tokens ((",\n\t\t\"rename_replacement\": \"" : String).data ++ rest)
        = jsonTokens (.inString [])
            (.nameSeparator :: .string "rename_replacement" :: .valueSeparator :: tokens)
            rest :=
    fun _ _ => rfl
  by_cases hp : pattern = ""
  · have hdata : (restoreRequestBody dbs backupId pattern replacement).data
        = ("\n\t\t\x7b\n\t\t\t\"vault\": \"" : String).data ++ (backupId.data
          ++ Char.ofNat 34 :: ((",\t\n\t\t\t\"dbs\": [\"" : String).data
          ++ ((",".intercalate dbs).data
          ++ Char.ofNat 34 :: ("]\n\t\t\n\t\t\x7d\t\t\n\t\t" : String).data))) := by
      simp [restoreRequestBody, namesRegenerateRequestPart, hp]
    rw [readObject, hdata, hhead, jsonTokens_plainText _ _ _ hbackupId, hdbsPart,
      jsonTokens_plainText _ _ _ hdbs, if_pos hp]
    rfl
  · have hdata : (restoreRequestBody dbs backupId pattern replacement).data
        = ("\n\t\t\x7b\n\t\t\t\"vault\": \"" : String).data ++ (backupId.data
          ++ Char.ofNat 34 :: ((",\t\n\t\t\t\"dbs\": [\"" : String).data
          ++ ((",".intercalate dbs).data
          ++ Char.ofNat 34 :: (("]\n\t\t\n\t\t,\"rename_pattern\": \"" : String).data
          ++ (pattern.data
          ++ Char.ofNat 34 :: ((",\n\t\t\"rename_replacement\": \"" : String).data
          ++ (replacement.data
          ++ Char.ofNat 34 :: ("\n\t\n\t\t\x7d\t\t\n\t\t" : String).data))))))) := by
      simp [restoreRequestBody, namesRegenerateRequestPart, hp]
    rw [readObject, hdata, hhead, jsonTokens_plainText _ _ _ hbackupId, hdbsPart,
      jsonTokens_plainText _ _ _ hdbs, hrename, jsonTokens_plainText _ _ _ hpattern,
      hreplace, jsonTokens_plainText _ _ _ hreplacement, if_neg hp]
    rfl

/-- C19, as stated, fails: for the two names `db1` and `db2` the `dbs` member
of both bodies is an array of one string, `db1,db2`, not an array of the two
names; with a backupId that holds quotation marks the `vault` member of the
restore body is not the backupId; and with a name that holds a tab the body is
not a JSON text, a control character standing unescaped in a string. -/
theorem Curator_bodies_counterexample :
    (CollectBackup sampleRuntime sampleProvider ["db1", "db2"] sampleContext []).2
      = [Event.curatorDo
          { Method := "POST"
            URL := "http://curator/backup"
            Body := some "\n\t\t\x7b\n\t\t\t\"dbs\": [\"db1,db2\"]\n\t\t\x7d"
            Header := [("Content-Type", "application/json"), ("X-Request-Id", "r1")]
            BasicAuth := some ("user", "pass") }] ∧
    readObject "\n\t\t\x7b\n\t\t\t\"dbs\": [\"db1,db2\"]\n\t\t\x7d"
      = some [("dbs", .strings ["db1,db2"])] ∧
    (requestRestore sampleRuntime sampleProvider sampleContext ["db1", "db2"] "dbaas_1_1"
        "" "" []).2
      = [Event.curatorDo
          { Method := "POST"
            URL := "http://curator/restore"
            Body := some
              "\n\t\t\x7b\n\t\t\t\"vault\": \"dbaas_1_1\",\t\n\t\t\t\"dbs\": [\"db1,db2\"]\n\t\t\n\t\t\x7d\t\t\n\t\t"
            Header := [("Content-Type", "application/json"), ("X-Request-Id", "r1")]
            BasicAuth := some ("user", "pass") }] ∧
    readObject
        "\n\t\t\x7b\n\t\t\t\"vault\": \"dbaas_1_1\",\t\n\t\t\t\"dbs\": [\"db1,db2\"]\n\t\t\n\t\t\x7d\t\t\n\t\t"
      = some [("vault", .string "dbaas_1_1"), ("dbs", .strings ["db1,db2"])] ∧
    readObject "\x7b\"dbs\": [\"db1\", \"db2\"]\x7d" = some [("dbs", .strings ["db1", "db2"])] ∧
    JsonMember.strings ["db1,db2"] ≠ JsonMember.strings ["db1", "db2"] ∧
    restoreRequestBody ["db1"] "x\", \"y\": \"z" "" ""
      = "\n\t\t\x7b\n\t\t\t\"vault\": \"x\", \"y\": \"z\",\t\n\t\t\t\"dbs\": [\"db1\"]\n\t\t\n\t\t\x7d\t\t\n\t\t" ∧
    readObject (restoreRequestBody ["db1"] "x\", \"y\": \"z" "" "")
      = some [("vault", .string "x"), ("y", .string "z"), ("dbs", .strings ["db1"])] ∧
    JsonMember.string "x" ≠ JsonMember.string "x\", \"y\": \"z" ∧
    collectRequestBody ["a\tb"] = "\n\t\t\x7b\n\t\t\t\"dbs\": [\"a\tb\"]\n\t\t\x7d" ∧
    readObject (collectRequestBody ["a\tb"]) = none := by
  refine ⟨by decide, by decide, by decide, by decide, by decide, by decide, by decide,
    by decide, by decide, by decide, by decide⟩

/-- C19 amended: for every non-empty list of database names, the names, the
backupId, the pattern and the replacement being free of quotation marks,
backslashes and control characters, the body built by `CollectBackup` is a JSON
object whose one member `dbs` is an array of one string, the names joined by
commas in order (for a single name, that name), and the body built by
`requestRestore` is a JSON object with `vault` equal to backupId and `dbs` such
an array, plus `rename_pattern` equal to the pattern and `rename_replacement`
equal to the replacement exactly when a non-empty pattern is given. -/
theorem Curator_bodies (rt : Runtime) (bp : BackupProvider) (dbs : List String)
    (ctx : Context) (tr : Trace) (requestId backupId pattern replacement : String)
    (hdbs : dbs ≠ [])
    (hbackup : rt.newRequestOk (bp.Curator.url ++ "/backup") = true)
    (hrestore : rt.newRequestOk (bp.Curator.url ++ "/restore") = true)
    (hctx : ctx.requestId = some requestId)
    (hnames : ∀ name ∈ dbs, plainText name = true)
    (hbackupId : plainText backupId = true)
    (hpattern : plainText pattern = true)
    (hreplacement : plainText replacement = true) :
    (∃ request body,
      (CollectBackup rt bp dbs ctx tr).2 = tr ++ [Event.curatorDo request] ∧
      request.Body = some body ∧
      body = "\n\t\t\x7b\n\t\t\t\"dbs\": [\"" ++ ",".intercalate dbs ++ "\"]\n\t\t\x7d" ∧
      readObject body = some [("dbs", .strings [",".intercalate dbs])]) ∧
    (∃ request body,
      (requestRestore rt bp ctx dbs backupId pattern replacement tr).2
        = tr ++ [Event.curatorDo request] ∧
      request.Body = some body ∧
      (pattern = "" → body = "\n\t\t\x7b\n\t\t\t\"vault\": \"" ++ backupId
        ++ "\",\t\n\t\t\t\"dbs\": [\"" ++ ",".intercalate dbs
        ++ "\"]\n\t\t\n\t\t\x7d\t\t\n\t\t") ∧
      (pattern ≠ "" → body = "\n\t\t\x7b\n\t\t\t\"vault\": \"" ++ backupId
        ++ "\",\t\n\t\t\t\"dbs\": [\"" ++ ",".intercalate dbs
        ++ "\"]\n\t\t\n\t\t,\"rename_pattern\": \"" ++ pattern
        ++ "\",\n\t\t\"rename_replacement\": \"" ++ replacement
        ++ "\"\n\t\n\t\t\x7d\t\t\n\t\t") ∧
      readObject body
        = some ([("vault", .string backupId), ("dbs", .strings [",".intercalate dbs])]
            ++ (if pattern = "" then []
                else [("rename_pattern", .string pattern),
                  ("rename_replacement", .string replacement)]))) ∧
    (∀ name, dbs = [name] → ",".intercalate dbs = name) := by
  have hjoined := plainText_intercalate dbs hnames
  refine ⟨⟨collectRequest bp requestId dbs, collectRequestBody dbs, ?_, rfl, ?_, ?_⟩,
    ⟨restoreRequest bp requestId dbs backupId pattern replacement,
      restoreRequestBody dbs backupId pattern replacement, ?_, rfl, ?_, ?_, ?_⟩, ?_⟩
  · rw [CollectBackup_eq rt bp dbs ctx tr requestId hdbs hbackup hctx]
  · simp only [collectRequestBody]
  · exact readObject_collectRequestBody dbs hjoined
  · rw [requestRestore_eq rt bp ctx dbs backupId pattern replacement tr requestId hrestore
      hctx]
  · intro hp
    simp only [restoreRequestBody, namesRegenerateRequestPart, if_pos hp]
    apply String.ext
    simp
  · intro hp
    simp only [restoreRequestBody, namesRegenerateRequestPart, if_neg hp]
    apply String.ext
    simp
  · exact readObject_restoreRequestBody dbs backupId pattern replacement hjoined hbackupId
      hpattern hreplacement
  · intro name hname
    rw [hname]
    rfl

/-- Witness of the amended C19 on the names `db1` and `db2`. -/
theorem Curator_bodies_witness :
    ["db1", "db2"] ≠ [] ∧
    sampleRuntime.newRequestOk (sampleProvider.Curator.url ++ "/backup") = true ∧
    sampleRuntime.newRequestOk (sampleProvider.Curator.url ++ "/restore") = true ∧
    sampleContext.requestId = some "r1" ∧
    (∀ name ∈ ["db1", "db2"], plainText name = true) ∧
    plainText "dbaas_1_1" = true ∧
    plainText ".+" = true ∧
    plainText "dbaas_u_$0" = true ∧
    ∃ request body,
      (requestRestore sampleRuntime sampleProvider sampleContext ["db1", "db2"] "dbaas_1_1"
        ".+" "dbaas_u_$0" []).2 = [] ++ [Event.curatorDo request] ∧
      request.Body = some body ∧
      readObject body
        = some [("vault", .string "dbaas_1_1"), ("dbs", .strings ["db1,db2"]),
            ("rename_pattern", .string ".+"),
            ("rename_replacement", .string "dbaas_u_$0")] := by
  refine ⟨by decide, rfl, rfl, rfl, by decide, by decide, by decide, by decide, ?_⟩
  obtain ⟨request, body, htrace, hbody, -, -, hread⟩ :=
    (Curator_bodies sampleRuntime sampleProvider ["db1", "db2"] sampleContext [] "r1"
      "dbaas_1_1" ".+" "dbaas_u_$0" (by decide) rfl rfl rfl (by decide) (by decide)
      (by decide) (by decide)).2.1
  exact ⟨request, body, htrace, hbody, hread⟩

/-! ### Cancellation and waiting time -/

theorem requestRestore_congr_ctx (rt : Runtime) (bp : BackupProvider) (ctx ctx' : Context)
    (dbs : List String) (backupId pattern replacement : String) (tr : Trace)
    (h : ctx.requestId = ctx'.requestId) :
    requestRestore rt bp ctx dbs backupId pattern replacement tr
      = requestRestore rt bp ctx' dbs backupId pattern replacement tr := by
  simp only [requestRestore, h]

theorem trackLoop_congr_ctx (bp : BackupProvider) (ctx ctx' : Context)
    (backupId newName fromRepo : String) (remaining tries : Nat) (status : String)
    (tr : Trace) :
    trackLoop bp ctx backupId newName fromRepo remaining tries status tr
      = trackLoop bp ctx' backupId newName fromRepo remaining tries status tr := by
  induction remaining generalizing tries status tr with
  | zero => rfl
  | succ n ih =>
    have htrack : TrackRestoreIndices bp ctx backupId [newName] fromRepo none tr
        = TrackRestoreIndices bp ctx' backupId [newName] fromRepo none tr := rfl
    simp only [trackLoop, htrack, ih]

theorem sequentialRestore_congr_ctx (rt : Runtime) (bp : BackupProvider)
    (ctx ctx' : Context) (backupId fromRepo : String) (indices : List String)
    (changedNameDb : NameMap) (tr : Trace) (h : ctx.requestId = ctx'.requestId) :
    sequentialRestore rt bp ctx backupId fromRepo indices changedNameDb tr
      = sequentialRestore rt bp ctx' backupId fromRepo indices changedNameDb tr := by
  induction indices generalizing changedNameDb tr with
  | nil => rfl
  | cons index rest ih =>
    simp only [sequentialRestore, requestRestore_congr_ctx rt bp ctx ctx' [index] backupId _
      _ _ h, trackLoop_congr_ctx bp ctx ctx', ih]

/-- C16, as stated, fails: with a context that is cancelled while the first
index is being polled (after the first poll), `RestoreBackup` still makes all
120 polls, 119 of them after the cancellation, and returns the error of an
unfinished restoration, the same result as with a context that is never
cancelled. -/
theorem RestoreBackup_cancelled_counterexample :
    (RestoreBackup sampleRuntime stalledProvider "dbaas_1_1" ["db1"] "snapshots" true
        cancelledContext []).2.take 5
      = [Event.snapshotStatus "snapshots" ["dbaas_1_1"], Event.uuidNewV4, Event.uuidNewV4,
          Event.curatorDo (restoreRequest stalledProvider "r1" [longIndex] "dbaas_1_1"
            longIndex "dbaas_u"),
          Event.indicesRecovery ["dbaas_u"]] ∧
    cancelledContext.cancelled ((RestoreBackup sampleRuntime stalledProvider "dbaas_1_1"
        ["db1"] "snapshots" true cancelledContext []).2.take 4) = false ∧
    cancelledContext.cancelled ((RestoreBackup sampleRuntime stalledProvider "dbaas_1_1"
        ["db1"] "snapshots" true cancelledContext []).2.take 5) = true ∧
    ((RestoreBackup sampleRuntime stalledProvider "dbaas_1_1" ["db1"] "snapshots" true
        cancelledContext []).2.drop 5).countP Event.isIndicesRecovery = 119 ∧
    (RestoreBackup sampleRuntime stalledProvider "dbaas_1_1" ["db1"] "snapshots" true
        cancelledContext []).1
      = .returned (none, some ("failed to restore " ++ longIndex
          ++ "->dbaas_u, status is 'PROCEEDING' after 120 retries")) ∧
    RestoreBackup sampleRuntime stalledProvider "dbaas_1_1" ["db1"] "snapshots" true
        cancelledContext []
      = RestoreBackup sampleRuntime stalledProvider "dbaas_1_1" ["db1"] "snapshots" true
        sampleContext [] := by
  refine ⟨by decide, by decide, by decide, by decide, by decide, by decide⟩

/-- C16 amended: `RestoreBackup` does not consult the caller's cancellation
signal: for two contexts that carry the same request id and differ only in
whether and when they are cancelled, it makes the same calls, polls and sleeps
included, and returns the same result; a cancellation during the poll loop of
an index neither stops the loop nor changes the error. -/
theorem RestoreBackup_ignores_cancellation (rt : Runtime) (bp : BackupProvider)
    (backupId : String) (dbs : List String) (fromRepo : String) (regenerateNames : Bool)
    (ctx ctx' : Context) (tr : Trace)
    (hsame : ctx.requestId = ctx'.requestId) :
    RestoreBackup rt bp backupId dbs fromRepo regenerateNames ctx tr
      = RestoreBackup rt bp backupId dbs fromRepo regenerateNames ctx' tr := by
  have hindices : getActualIndices bp backupId fromRepo (some []) ctx tr
      = getActualIndices bp backupId fromRepo (some []) ctx' tr := rfl
  simp only [RestoreBackup, bulkRestore, hindices,
    requestRestore_congr_ctx rt bp ctx ctx' _ backupId _ _ _ hsame,
    sequentialRestore_congr_ctx rt bp ctx ctx' backupId fromRepo _ _ _ hsame]

/-- Witness of the amended C16: the cancelled context and the one that is never
cancelled give the same run. -/
theorem RestoreBackup_ignores_cancellation_witness :
    cancelledContext.requestId = sampleContext.requestId ∧
    cancelledContext.cancelledAfter ≠ sampleContext.cancelledAfter ∧
    RestoreBackup sampleRuntime stalledProvider "dbaas_1_1" ["db1"] "snapshots" true
        cancelledContext []
      = RestoreBackup sampleRuntime stalledProvider "dbaas_1_1" ["db1"] "snapshots" true
        sampleContext [] :=
  ⟨rfl, by decide,
    RestoreBackup_ignores_cancellation sampleRuntime stalledProvider "dbaas_1_1" ["db1"]
      "snapshots" true cancelledContext sampleContext [] rfl⟩

theorem requestRestore_sleeps (rt : Runtime) (bp : BackupProvider) (ctx : Context)
    (dbs : List String) (backupId pattern replacement : String) (tr : Trace) :
    (requestRestore rt bp ctx dbs backupId pattern replacement tr).2.countP Event.isSleep
      = tr.countP Event.isSleep := by
  simp only [requestRestore]
  split_ifs
  · cases ctx.requestId with
    | none => rfl
    | some requestId =>
      simp only []
      cases bp.Curator.client tr
        (restoreRequest bp requestId dbs backupId pattern replacement) <;>
        simp [List.countP_append, List.countP_cons, Event.isSleep]
  · rfl

theorem trackLoop_sleeps (bp : BackupProvider) (ctx : Context)
    (backupId newName fromRepo : String) (remaining tries : Nat) (status : String)
    (tr : Trace) :
    (trackLoop bp ctx backupId newName fromRepo remaining tries status tr).2.countP
        Event.isSleep ≤ tr.countP Event.isSleep + remaining := by
  induction remaining generalizing tries status tr with
  | zero => simp [trackLoop]
  | succ n ih =>
    simp only [trackLoop]
    split_ifs
    · refine le_trans (ih _ _ _) ?_
      simp [TrackRestoreIndices_trace, List.countP_append, List.countP_cons, Event.isSleep]
      omega
    · simp [TrackRestoreIndices_trace, List.countP_append, List.countP_cons, Event.isSleep]

theorem sequentialRestore_sleeps (rt : Runtime) (bp : BackupProvider) (ctx : Context)
    (backupId fromRepo : String) (indices : List String) (changedNameDb : NameMap)
    (tr : Trace) :
    (sequentialRestore rt bp ctx backupId fromRepo indices changedNameDb tr).2.countP
        Event.isSleep ≤ tr.countP Event.isSleep + 120 * indices.length := by
  induction indices generalizing changedNameDb tr with
  | nil => simp [sequentialRestore]
  | cons index rest ih =>
    have hreq := requestRestore_sleeps rt bp ctx [index] backupId index
      (bp.indexNames.NameIndex rt tr).1 (bp.indexNames.NameIndex rt tr).2
    have hname : (bp.indexNames.NameIndex rt tr).2.countP Event.isSleep
        = tr.countP Event.isSleep := by
      simp [NameIndex_trace, List.countP_append, List.countP_cons, Event.isSleep]
    rw [hname] at hreq
    rw [sequentialRestore]
    cases hr : requestRestore rt bp ctx [index] backupId index
        (bp.indexNames.NameIndex rt tr).1 (bp.indexNames.NameIndex rt tr).2 with
    | mk outcome tr1 =>
      rw [hr] at hreq
      simp only at hreq
      cases outcome with
      | panicked msg =>
        simp only []
        omega
      | returned err =>
        cases err with
        | some e =>
          simp only []
          omega
        | none =>
          simp only []
          have hloop := trackLoop_sleeps bp ctx backupId (bp.indexNames.NameIndex rt tr).1
            fromRepo 120 0 "" tr1
          split_ifs
          · simp only []
            simp only [List.length_cons]
            omega
          · refine le_trans (ih _ _) ?_
            simp only [List.length_cons]
            omega

/-- C17, as stated, fails: on a snapshot of two indices where the first index
is restored at its second poll and the second never is, one `RestoreBackup`
call sleeps 121 times, one second each time. -/
theorem RestoreBackup_sleeps_counterexample :
    ((RestoreBackup sampleRuntime slowProvider "dbaas_1_1" ["db1"] "snapshots" true
        sampleContext []).2).countP Event.isSleep = 121 ∧
    ((RestoreBackup sampleRuntime slowProvider "dbaas_1_1" ["db1"] "snapshots" true
        sampleContext []).2).count (Event.sleep 1) = 121 ∧
    ¬ (121 ≤ 120) ∧
    ((RestoreBackup sampleRuntime slowProvider "dbaas_1_1" ["db1"] "snapshots" true
        sampleContext []).2).countP Event.isCuratorDo = 2 := by
  refine ⟨by decide, by decide, by decide, by decide⟩

/-- C17 amended: the 120 one-second waits are the budget of one index, not of
the call: for every snapshot and every behaviour of the tracker, the number of
sleeps one `RestoreBackup` call adds to the trace is at most 120 times the
number of the snapshot's actual indices, and it is 0 without name
regeneration. -/
theorem RestoreBackup_sleep_bound (rt : Runtime) (bp : BackupProvider) (backupId : String)
    (dbs : List String) (fromRepo : String) (regenerateNames : Bool) (ctx : Context)
    (tr : Trace) :
    let result := RestoreBackup rt bp backupId dbs fromRepo regenerateNames ctx tr
    let indices := (getActualIndices bp backupId fromRepo (some []) ctx tr).1.1
    result.2.countP Event.isSleep ≤ tr.countP Event.isSleep + 120 * indices.length ∧
    (regenerateNames = false → result.2.countP Event.isSleep = tr.countP Event.isSleep) := by
  intro result indices
  have hplain : regenerateNames = false →
      result.2.countP Event.isSleep = tr.countP Event.isSleep := by
    intro hr
    subst hr
    show (RestoreBackup rt bp backupId dbs fromRepo false ctx tr).2.countP Event.isSleep = _
    by_cases hlen : dbs.length = 0
    · simp only [RestoreBackup, hlen, if_true]
    · have hreq := requestRestore_sleeps rt bp ctx dbs backupId "" "" tr
      simp only [RestoreBackup, hlen, if_false, Bool.false_eq_true]
      cases hq : requestRestore rt bp ctx dbs backupId "" "" tr with
      | mk outcome tr1 =>
        rw [hq] at hreq
        cases outcome <;> exact hreq
  refine ⟨?_, hplain⟩
  cases hr : regenerateNames with
  | false =>
    rw [hplain hr]
    omega
  | true =>
    have htrace := getActualIndices_trace bp backupId fromRepo (some []) ctx tr
    show (RestoreBackup rt bp backupId dbs fromRepo regenerateNames ctx tr).2.countP
      Event.isSleep ≤ _
    rw [hr]
    by_cases hlen : dbs.length = 0
    · simp only [RestoreBackup, hlen, if_true]
      omega
    · simp only [RestoreBackup, hlen, if_false, if_true]
      cases hq : getActualIndices bp backupId fromRepo (some []) ctx tr with
      | mk answer tr1 =>
        rw [hq] at htrace
        simp only at htrace
        have htr1 : tr1.countP Event.isSleep = tr.countP Event.isSleep := by
          rw [htrace]
          simp [List.countP_append, List.countP_cons, Event.isSleep]
        have hname : (bp.indexNames.NameIndex rt tr1).2.countP Event.isSleep
            = tr.countP Event.isSleep := by
          rw [NameIndex_trace, ← htr1]
          simp [List.countP_append, List.countP_cons, Event.isSleep]
        have hidx : indices = answer.1 := by
          simp only [indices, hq]
        cases answer with
        | mk found err =>
          cases err with
          | some e =>
            simp only []
            omega
          | none =>
            simp only []
            simp only at hidx
            split_ifs
            · have hseq := sequentialRestore_sleeps rt bp ctx backupId fromRepo found []
                (bp.indexNames.NameIndex rt tr1).2
              rw [hname] at hseq
              rw [hidx]
              exact hseq
            · have hreq := requestRestore_sleeps rt bp ctx found backupId ".+"
                ((bp.indexNames.NameIndex rt tr1).1 ++ "_" ++ "$0")
                (bp.indexNames.NameIndex rt tr1).2
              rw [hname] at hreq
              simp only [bulkRestore]
              cases hb : requestRestore rt bp ctx found backupId ".+"
                  ((bp.indexNames.NameIndex rt tr1).1 ++ "_" ++ "$0")
                  (bp.indexNames.NameIndex rt tr1).2 with
              | mk outcome tr2 =>
                rw [hb] at hreq
                simp only at hreq
                cases outcome with
                | panicked msg => simp only []; omega
                | returned e =>
                  cases e <;> (simp only []; omega)

/-! ### The order of the sequential restoration -/

/-- The events the poll loop adds are polls of the new name and sleeps; when it
ends with `SUCCESS`, its last event is a poll that reported `SUCCESS`. -/
theorem trackLoop_shape (bp : BackupProvider) (ctx : Context)
    (backupId newName fromRepo : String) (remaining tries : Nat) (status : String)
    (tr : Trace) :
    ∃ polls : Trace,
      (trackLoop bp ctx backupId newName fromRepo remaining tries status tr).2 = tr ++ polls ∧
      (∀ e ∈ polls, e = Event.indicesRecovery [newName] ∨ e = Event.sleep 1) ∧
      ((trackLoop bp ctx backupId newName fromRepo remaining tries status tr).1.2 = "SUCCESS" →
        status ≠ "SUCCESS" →
        ∃ q, polls = q ++ [Event.indicesRecovery [newName]] ∧
          (TrackRestoreIndices bp ctx backupId [newName] fromRepo none (tr ++ q)).1.Status
            = "SUCCESS") := by
  induction remaining generalizing tries status tr with
  | zero =>
    refine ⟨[], by simp [trackLoop], by simp, ?_⟩
    intro h hne
    simp only [trackLoop] at h
    exact absurd h hne
  | succ n ih =>
    by_cases hp : (TrackRestoreIndices bp ctx backupId [newName] fromRepo none tr).1.Status
        = "PROCEEDING"
    · have hstep : trackLoop bp ctx backupId newName fromRepo (n + 1) tries status tr
          = trackLoop bp ctx backupId newName fromRepo n (tries + 1) "PROCEEDING"
              (tr ++ [Event.indicesRecovery [newName]] ++ [Event.sleep 1]) := by
        simp only [trackLoop, hp, if_true, TrackRestoreIndices_trace]
      obtain ⟨polls, htrace, hpolls, hsuccess⟩ := ih (tries + 1) "PROCEEDING"
        (tr ++ [Event.indicesRecovery [newName]] ++ [Event.sleep 1])
      refine ⟨[Event.indicesRecovery [newName], Event.sleep 1] ++ polls, ?_, ?_, ?_⟩
      · rw [hstep, htrace]
        simp
      · intro e he
        rcases List.mem_append.mp he with h | h
        · simp only [List.mem_cons, List.mem_singleton, List.not_mem_nil, or_false] at h
          exact h
        · exact hpolls e h
      · intro h _
        rw [hstep] at h
        obtain ⟨q, hq, hstatus⟩ := hsuccess h (by decide)
        refine ⟨[Event.indicesRecovery [newName], Event.sleep 1] ++ q, ?_, ?_⟩
        · rw [hq]
          simp
        · have hassoc : tr ++ ([Event.indicesRecovery [newName], Event.sleep 1] ++ q)
              = tr ++ [Event.indicesRecovery [newName]] ++ [Event.sleep 1] ++ q := by
            simp
          rw [hassoc]
          exact hstatus
    · have hstep : trackLoop bp ctx backupId newName fromRepo (n + 1) tries status tr
          = ((tries + 1,
              (TrackRestoreIndices bp ctx backupId [newName] fromRepo none tr).1.Status),
             tr ++ [Event.indicesRecovery [newName]]) := by
        simp only [trackLoop, hp, if_false, TrackRestoreIndices_trace]
      refine ⟨[Event.indicesRecovery [newName]], by rw [hstep], ?_, ?_⟩
      · intro e he
        left
        simpa using he
      · intro h _
        rw [hstep] at h
        exact ⟨[], by simp, by simpa using h⟩

/-- Where a Curator request can stand in a trace that starts with a name
generation and a Curator request. -/
theorem curatorDo_position (first request : HttpRequest) (tail pre post : Trace)
    (h : Event.uuidNewV4 :: Event.curatorDo first :: tail
      = pre ++ Event.curatorDo request :: post) :
    pre = [Event.uuidNewV4] ∨
    ∃ pre', pre = Event.uuidNewV4 :: Event.curatorDo first :: pre' ∧
      tail = pre' ++ Event.curatorDo request :: post := by
  cases pre with
  | nil =>
    simp only [List.nil_append, List.cons.injEq] at h
    exact absurd h.1 (by simp)
  | cons a pre1 =>
    simp only [List.cons_append, List.cons.injEq] at h
    obtain ⟨ha, h⟩ := h
    cases pre1 with
    | nil => left; rw [← ha]
    | cons b pre2 =>
      simp only [List.cons_append, List.cons.injEq] at h
      obtain ⟨hb, h⟩ := h
      right
      exact ⟨pre2, by rw [← ha, ← hb], h⟩

/-- The trace of the loop over the indices: every Curator request after the
first follows a poll of the previous new name that reported `SUCCESS`, and on
normal completion there is one request per index. -/
theorem sequentialRestore_order (rt : Runtime) (bp : BackupProvider) (ctx : Context)
    (backupId fromRepo requestId : String)
    (hurl : rt.newRequestOk (bp.Curator.url ++ "/restore") = true)
    (hctx : ctx.requestId = some requestId)
    (indices : List String) (changedNameDb : NameMap) (tr : Trace) :
    ∃ added : Trace,
      (sequentialRestore rt bp ctx backupId fromRepo indices changedNameDb tr).2
        = tr ++ added ∧
      (∀ pre request post, added = pre ++ Event.curatorDo request :: post →
        pre = [Event.uuidNewV4] ∨
        ∃ before previous polls name index,
          pre = before ++ Event.curatorDo previous
            :: (polls ++ [Event.indicesRecovery [name], Event.uuidNewV4]) ∧
          (∀ e ∈ polls, e = Event.indicesRecovery [name] ∨ e = Event.sleep 1) ∧
          previous = restoreRequest bp requestId [index] backupId index name ∧
          (TrackRestoreIndices bp ctx backupId [name] fromRepo none
            (tr ++ (before ++ Event.curatorDo previous :: polls))).1.Status = "SUCCESS") ∧
      (∀ mapping,
        (sequentialRestore rt bp ctx backupId fromRepo indices changedNameDb tr).1
          = .returned (some mapping, none) →
        ∃ names : List String, names.length = indices.length ∧
          added.filter Event.isCuratorDo = List.zipWith
            (fun index newName =>
              Event.curatorDo (restoreRequest bp requestId [index] backupId index newName))
            indices names ∧
          ∀ name ∈ names, ∃ point : Trace, name = (bp.indexNames.NameIndex rt point).1) := by
  induction indices generalizing changedNameDb tr with
  | nil =>
    refine ⟨[], by simp [sequentialRestore], ?_, ?_⟩
    · intro pre request post h
      exact absurd h (by simp)
    · intro mapping _
      exact ⟨[], rfl, rfl, by simp⟩
  | cons index rest ih =>
    have hname := NameIndex_trace bp.indexNames rt tr
    have hreq := requestRestore_eq rt bp ctx [index] backupId index
      (bp.indexNames.NameIndex rt tr).1 (bp.indexNames.NameIndex rt tr).2 requestId hurl hctx
    generalize hnm : (bp.indexNames.NameIndex rt tr).1 = newName at hreq
    rw [hname] at hreq
    cases hc : bp.Curator.client (tr ++ [Event.uuidNewV4])
        (restoreRequest bp requestId [index] backupId index newName) with
    | error err =>
      rw [hc] at hreq
      have hres : sequentialRestore rt bp ctx backupId fromRepo (index :: rest)
          changedNameDb tr = (.returned (none, some err),
            tr ++ [Event.uuidNewV4] ++ [Event.curatorDo
              (restoreRequest bp requestId [index] backupId index newName)]) := by
        rw [sequentialRestore]
        simp only [hnm, hname, hreq]
      refine ⟨[Event.uuidNewV4, Event.curatorDo
        (restoreRequest bp requestId [index] backupId index newName)], ?_, ?_, ?_⟩
      · rw [hres]; simp
      · intro pre request post h
        rcases curatorDo_position _ _ _ _ _ h with h1 | ⟨pre', -, h2⟩
        · exact Or.inl h1
        · exact absurd h2 (by simp)
      · intro mapping h
        rw [hres] at h
        simp at h
    | ok response =>
      rw [hc] at hreq
      obtain ⟨polls, hptrace, hpolls, hpsuccess⟩ := trackLoop_shape bp ctx backupId newName
        fromRepo 120 0 "" (tr ++ [Event.uuidNewV4] ++ [Event.curatorDo
          (restoreRequest bp requestId [index] backupId index newName)])
      have hnocurator : ∀ request, Event.curatorDo request ∉ polls := by
        intro request hmem
        rcases hpolls _ hmem with h | h <;> exact Event.noConfusion h
      by_cases hs : (trackLoop bp ctx backupId newName fromRepo 120 0 ""
          (tr ++ [Event.uuidNewV4] ++ [Event.curatorDo
            (restoreRequest bp requestId [index] backupId index newName)])).1.2 = "SUCCESS"
      · have hres : sequentialRestore rt bp ctx backupId fromRepo (index :: rest)
            changedNameDb tr = sequentialRestore rt bp ctx backupId fromRepo rest
              (changedNameDb.set index newName)
              (tr ++ [Event.uuidNewV4] ++ [Event.curatorDo
                (restoreRequest bp requestId [index] backupId index newName)] ++ polls) := by
          rw [sequentialRestore]
          simp only [hnm, hname, hreq, hs, ne_eq, not_true_eq_false, if_false, hptrace]
        obtain ⟨q, hq, hqstatus⟩ := hpsuccess hs (by decide)
        obtain ⟨added', htrace', horder', hcount'⟩ := ih (changedNameDb.set index newName)
          (tr ++ [Event.uuidNewV4] ++ [Event.curatorDo
            (restoreRequest bp requestId [index] backupId index newName)] ++ polls)
        refine ⟨Event.uuidNewV4 :: Event.curatorDo
          (restoreRequest bp requestId [index] backupId index newName)
            :: (polls ++ added'), ?_, ?_, ?_⟩
        · rw [hres, htrace']; simp
        · intro pre request post h
          rcases curatorDo_position _ _ _ _ _ h with h1 | ⟨pre', hpre, h2⟩
          · exact Or.inl h1
          · right
            rcases List.append_eq_append_iff.mp h2 with ⟨a', ha1, ha2⟩ | ⟨c', hc1, hc2⟩
            · rcases horder' a' request post ha2 with hfirst | ⟨before, previous, polls',
                name, index', hb1, hb2, hb3, hb4⟩
              · refine ⟨[Event.uuidNewV4],
                  restoreRequest bp requestId [index] backupId index newName, q, newName,
                  index, ?_, ?_, rfl, ?_⟩
                · rw [hpre, ha1, hfirst, hq]; simp
                · intro e he
                  exact hpolls e (by rw [hq]; exact List.mem_append_left _ he)
                · have hassoc : tr ++ ([Event.uuidNewV4] ++ Event.curatorDo
                      (restoreRequest bp requestId [index] backupId index newName) :: q)
                      = tr ++ [Event.uuidNewV4] ++ [Event.curatorDo
                        (restoreRequest bp requestId [index] backupId index newName)]
                        ++ q := by simp
                  rw [hassoc]
                  exact hqstatus
              · refine ⟨Event.uuidNewV4 :: Event.curatorDo
                    (restoreRequest bp requestId [index] backupId index newName)
                    :: (polls ++ before), previous, polls', name, index', ?_, hb2, hb3, ?_⟩
                · rw [hpre, ha1, hb1]; simp
                · have hassoc : tr ++ ((Event.uuidNewV4 :: Event.curatorDo
                      (restoreRequest bp requestId [index] backupId index newName)
                      :: (polls ++ before)) ++ Event.curatorDo previous :: polls')
                      = tr ++ [Event.uuidNewV4] ++ [Event.curatorDo
                        (restoreRequest bp requestId [index] backupId index newName)]
                        ++ polls ++ (before ++ Event.curatorDo previous :: polls') := by
                    simp
                  rw [hassoc]
                  exact hb4
            · cases c' with
              | nil =>
                simp only [List.append_nil, List.nil_append] at hc1 hc2
                rcases horder' [] request post (by rw [← hc2]; rfl) with hfirst | ⟨before,
                  previous, polls', name, index', hb1, -, -, -⟩
                · exact absurd hfirst (by simp)
                · exact absurd hb1 (by simp)
              | cons x c'' =>
                simp only [List.cons_append, List.cons.injEq] at hc2
                exact absurd (by rw [hc1, ← hc2.1]; simp) (hnocurator request)
        · intro mapping h
          rw [hres] at h
          obtain ⟨names, hlen, hfilter, hgenerated⟩ := hcount' mapping h
          refine ⟨newName :: names, by simp [hlen], ?_, ?_⟩
          · have hpf : polls.filter Event.isCuratorDo = [] := by
              rw [List.filter_eq_nil_iff]
              intro e he
              rcases hpolls e he with h | h <;> rw [h] <;> simp [Event.isCuratorDo]
            simp [List.filter_cons, Event.isCuratorDo, List.filter_append, hpf, hfilter]
          · intro name hmem
            rcases List.mem_cons.mp hmem with h | h
            · exact ⟨tr, by rw [h, hnm]⟩
            · exact hgenerated name h
      · have hres : sequentialRestore rt bp ctx backupId fromRepo (index :: rest)
            changedNameDb tr = (.returned (none, some (restoreFailedMessage index newName
              (trackLoop bp ctx backupId newName fromRepo 120 0 ""
                (tr ++ [Event.uuidNewV4] ++ [Event.curatorDo
                  (restoreRequest bp requestId [index] backupId index newName)])).1.2
              (trackLoop bp ctx backupId newName fromRepo 120 0 ""
                (tr ++ [Event.uuidNewV4] ++ [Event.curatorDo
                  (restoreRequest bp requestId [index] backupId index newName)])).1.1)),
              tr ++ [Event.uuidNewV4] ++ [Event.curatorDo
                (restoreRequest bp requestId [index] backupId index newName)] ++ polls) := by
          rw [sequentialRestore]
          simp only [hnm, hname, hreq, hs, ne_eq, not_false_eq_true, if_true, hptrace]
        refine ⟨Event.uuidNewV4 :: Event.curatorDo
          (restoreRequest bp requestId [index] backupId index newName) :: polls, ?_, ?_, ?_⟩
        · rw [hres]; simp
        · intro pre request post h
          rcases curatorDo_position _ _ _ _ _ h with h1 | ⟨pre', -, h2⟩
          · exact Or.inl h1
          · exact absurd (by rw [h2]; simp) (hnocurator request)
        · intro mapping h
          rw [hres] at h
          simp at h

/-- C11: in sequential mode (the Curator URL being accepted by
`http.NewRequest` and the context carrying a request id), in every execution
each Curator restore request other than the first stands right after the
generation of its new name, which stands right after a poll of the previous
index's new name that reported `SUCCESS`, the last of the polls and sleeps that
follow the previous request; and when `RestoreBackup` completes normally, the
Curator requests are, in order, one per actual index, each for that index
alone, with the index name as rename pattern and a generated name as
replacement. -/
theorem RestoreBackup_sequential_order (rt : Runtime) (bp : BackupProvider)
    (backupId : String) (dbs : List String) (fromRepo : String) (ctx : Context)
    (tr tr1 : Trace) (indices : List String) (requestId : String)
    (hdbs : dbs ≠ [])
    (hindices : getActualIndices bp backupId fromRepo (some []) ctx tr
      = ((indices, none), tr1))
    (hurl : rt.newRequestOk (bp.Curator.url ++ "/restore") = true)
    (hctx : ctx.requestId = some requestId)
    (hsequential : ((bp.indexNames.NameIndex rt tr1).1 ++ "_").utf8ByteSize
      + longestName indices ≥ 255) :
    let start := tr ++ [Event.snapshotStatus (if fromRepo = "" then backupId else fromRepo)
      [backupId], Event.uuidNewV4]
    let result := RestoreBackup rt bp backupId dbs fromRepo true ctx tr
    ∃ added : Trace,
      result.2 = start ++ added ∧
      (∀ pre request post, added = pre ++ Event.curatorDo request :: post →
        pre = [Event.uuidNewV4] ∨
        ∃ before previous polls name index,
          pre = before ++ Event.curatorDo previous
            :: (polls ++ [Event.indicesRecovery [name], Event.uuidNewV4]) ∧
          (∀ e ∈ polls, e = Event.indicesRecovery [name] ∨ e = Event.sleep 1) ∧
          previous = restoreRequest bp requestId [index] backupId index name ∧
          (TrackRestoreIndices bp ctx backupId [name] fromRepo none
            (start ++ (before ++ Event.curatorDo previous :: polls))).1.Status
              = "SUCCESS") ∧
      (∀ mapping, result.1 = .returned (some mapping, none) →
        ∃ names : List String, names.length = indices.length ∧
          added.filter Event.isCuratorDo = List.zipWith
            (fun index newName =>
              Event.curatorDo (restoreRequest bp requestId [index] backupId index newName))
            indices names ∧
          ∀ name ∈ names, ∃ point : Trace, name = (bp.indexNames.NameIndex rt point).1) := by
  intro start result
  have htr1 : tr1 = tr ++ [Event.snapshotStatus (if fromRepo = "" then backupId else fromRepo)
      [backupId]] := by
    have h := getActualIndices_trace bp backupId fromRepo (some []) ctx tr
    rw [hindices] at h
    exact h
  have hstart : (bp.indexNames.NameIndex rt tr1).2 = start := by
    rw [NameIndex_trace, htr1]
    simp [start]
  have hres : result = sequentialRestore rt bp ctx backupId fromRepo indices [] start := by
    show RestoreBackup rt bp backupId dbs fromRepo true ctx tr = _
    rw [RestoreBackup_regenerate rt bp backupId dbs fromRepo ctx tr tr1 indices hdbs
      hindices, if_neg (by omega), hstart]
  rw [hres]
  exact sequentialRestore_order rt bp ctx backupId fromRepo requestId hurl hctx indices []
    start

/-- Witness of C11 on the snapshot with a 250-byte index name, the first index
being restored at its second poll. -/
theorem RestoreBackup_sequential_order_witness :
    ["db1"] ≠ [] ∧
    getActualIndices slowProvider "dbaas_1_1" "snapshots" (some []) sampleContext []
      = (([longIndex, "b"], none), [Event.snapshotStatus "snapshots" ["dbaas_1_1"]]) ∧
    sampleRuntime.newRequestOk (slowProvider.Curator.url ++ "/restore") = true ∧
    sampleContext.requestId = some "r1" ∧
    ("dbaas_u_".utf8ByteSize + longestName [longIndex, "b"] ≥ 255) ∧
    ∃ added : Trace,
      (RestoreBackup sampleRuntime slowProvider "dbaas_1_1" ["db1"] "snapshots" true
        sampleContext []).2
        = [Event.snapshotStatus "snapshots" ["dbaas_1_1"], Event.uuidNewV4] ++ added := by
  have hidx : getActualIndices slowProvider "dbaas_1_1" "snapshots" (some [])
      sampleContext []
      = (([longIndex, "b"], none), [Event.snapshotStatus "snapshots" ["dbaas_1_1"]]) := by
    decide
  have hseq : "dbaas_u_".utf8ByteSize + longestName [longIndex, "b"] ≥ 255 := by decide
  obtain ⟨added, htrace, -, -⟩ := RestoreBackup_sequential_order sampleRuntime slowProvider
    "dbaas_1_1" ["db1"] "snapshots" sampleContext []
    [Event.snapshotStatus "snapshots" ["dbaas_1_1"]] [longIndex, "b"] "r1" (by decide) hidx
    rfl rfl hseq
  exact ⟨by decide, hidx, rfl, rfl, hseq, added, htrace⟩

/-! ### The restore handler -/

/-- Whatever the job status, the track of `TrackRestore` has neither a track
path nor a name mapping. -/
theorem TrackRestore_fields (rt : Runtime) (bp : BackupProvider) (backupId : String)
    (ctx : Context) (tr tr1 : Trace) (track : ActionTrack)
    (h : TrackRestore rt bp backupId ctx tr = (.returned track, tr1)) :
    track.TrackPath = none ∧ track.ChangedNameDb = none := by
  simp only [TrackRestore] at h
  cases hj : getJobStatus rt bp backupId ctx tr with
  | mk outcome tr2 =>
    rw [hj] at h
    cases outcome with
    | panicked msg => simp at h
    | returned answer =>
      obtain ⟨status, err⟩ := answer
      cases err with
      | some e =>
        simp only [Prod.mk.injEq, Outcome.returned.injEq] at h
        rw [← h.1]
        exact ⟨rfl, rfl⟩
      | none =>
        simp only [Prod.mk.injEq, Outcome.returned.injEq] at h
        rw [← h.1]
        exact ⟨rfl, rfl⟩

/-- C18: the `ActionTrack` the restore handler writes has a trackPath if and
only if regenerateNames was requested; when the restore, the tracking and the
second lookup of the snapshot succeed, the trackPath is basePath +
`/backups/track/restoring/backups/` + backupID + `/indices/` + the comma-joined
list of the snapshot's index names after renaming: each name that has a
(non-empty) entry in the name mapping returned by `RestoreBackup` is replaced
by that entry, a name without entry stays. -/
theorem RestoreBackupHandler_trackPath (rt : Runtime) (bp : BackupProvider)
    (repo basePath : String) (r : RestoreHttpRequest) (tr : Trace) (dbs : List String)
    (hdbs : r.databases = .ok dbs) :
    let ctx := (PrepareContext rt r tr).1
    let start := (PrepareContext rt r tr).2
    let result := RestoreBackupHandler rt bp repo basePath r tr
    (∀ track, result.1 = .returned (.ok track) →
      (track.TrackPath.isSome = true ↔ r.regenerateNames = "true")) ∧
    (∀ changedNameDb tr1 track tr2 snapshots snapshot,
      r.regenerateNames = "true" →
      RestoreBackup rt bp r.backupID dbs repo true ctx start
        = (.returned (changedNameDb, none), tr1) →
      TrackRestore rt bp r.backupID ctx tr1 = (.returned track, tr2) →
      bp.client.snapshotStatus tr2 (if repo = "" then r.backupID else repo) [r.backupID]
        = .ok snapshots →
      snapshots.Snapshots.find? (fun s => decide (s.Snapshot = r.backupID))
        = some snapshot →
      ∃ renamed : List String,
        List.Forall₂ (fun name newName =>
            (∀ entry, changedNameDb.bind (fun m => m.get? name) = some entry →
              entry ≠ "" → newName = entry) ∧
            (changedNameDb.bind (fun m => m.get? name) = none → newName = name))
          snapshot.Indices renamed ∧
        result.1 = .returned (.ok { track with
          TrackPath := some (basePath ++ "/backups/track/restoring/backups/" ++ r.backupID
            ++ "/indices/" ++ ",".intercalate renamed) })) := by
  intro ctx start result
  refine ⟨?_, ?_⟩
  · intro track h
    simp only [result, RestoreBackupHandler, hdbs] at h
    cases hr : RestoreBackup rt bp r.backupID dbs repo (decide (r.regenerateNames = "true"))
        (PrepareContext rt r tr).1 (PrepareContext rt r tr).2 with
    | mk outcome tr1 =>
      rw [hr] at h
      cases outcome with
      | panicked msg => simp at h
      | returned answer =>
        obtain ⟨changedNameDb, err⟩ := answer
        cases err with
        | some e => simp at h
        | none =>
          simp only at h
          cases ht : TrackRestore rt bp r.backupID (PrepareContext rt r tr).1 tr1 with
          | mk outcome2 tr2 =>
            rw [ht] at h
            cases outcome2 with
            | panicked msg => simp at h
            | returned response =>
              have hfields := TrackRestore_fields rt bp r.backupID _ tr1 tr2 response ht
              simp only at h
              by_cases hreg : r.regenerateNames = "true"
              · simp only [hreg, decide_True, if_true] at h
                cases hg : getActualIndices bp r.backupID repo changedNameDb
                    (PrepareContext rt r tr).1 tr2 with
                | mk answer2 tr3 =>
                  rw [hg] at h
                  obtain ⟨indices, err2⟩ := answer2
                  cases err2 with
                  | some e => simp at h
                  | none =>
                    simp only [Outcome.returned.injEq, HandlerResponse.ok.injEq] at h
                    rw [← h]
                    simp [hreg]
              · simp only [hreg, decide_False, Bool.false_eq_true, if_false,
                  Outcome.returned.injEq, HandlerResponse.ok.injEq] at h
                rw [← h, hfields.1]
                simp [hreg]
  · intro changedNameDb tr1 track tr2 snapshots snapshot hreg hrestore htrack hquery hfound
    have hget := getActualIndices_found bp r.backupID repo changedNameDb ctx tr2 snapshots
      snapshot hquery hfound
    refine ⟨snapshot.Indices.map (fun name =>
      if mapIndex changedNameDb name = "" then name else mapIndex changedNameDb name),
      ?_, ?_⟩
    · rw [List.forall₂_map_right_iff, List.forall₂_same]
      intro name _
      cases hm : changedNameDb with
      | none => simp [mapIndex]
      | some m =>
        cases hg : m.get? name with
        | none => simp [mapIndex, hg]
        | some v =>
          by_cases hv : v = ""
          · simp [mapIndex, hg, hv]
          · simp [mapIndex, hg, hv]
    · simp only [result, RestoreBackupHandler, hdbs, hreg, decide_True, if_true]
      simp only [ctx, start] at hrestore htrack hget
      rw [hrestore]
      simp only []
      rw [htrack]
      simp only []
      rw [hget]

/-- Witness of C18 on the snapshot with the indices `a` and `b`, restored in
bulk with the prefix `dbaas_u_`. -/
theorem RestoreBackupHandler_trackPath_witness :
    sampleRestoreRequest.databases = .ok ["db1"] ∧
    (RestoreBackupHandler sampleRuntime sampleProvider "snapshots"
        "/api/v2/dbaas/adapter/opensearch" sampleRestoreRequest []).1
      = .returned (.ok
        { Action := "RESTORE"
          Details := { LocalId := "dbaas_1_1" }
          Status := "PROCEEDING"
          TrackID := "dbaas_1_1"
          ChangedNameDb := none
          TrackPath := some ("/api/v2/dbaas/adapter/opensearch"
            ++ "/backups/track/restoring/backups/dbaas_1_1/indices/dbaas_u_a,dbaas_u_b") })
    ∧ ((some ("/api/v2/dbaas/adapter/opensearch"
            ++ "/backups/track/restoring/backups/dbaas_1_1/indices/dbaas_u_a,dbaas_u_b")
          : Option String).isSome = true ↔ sampleRestoreRequest.regenerateNames = "true") := by
  have hvalue : (RestoreBackupHandler sampleRuntime sampleProvider "snapshots"
        "/api/v2/dbaas/adapter/opensearch" sampleRestoreRequest []).1
      = .returned (.ok
        { Action := "RESTORE"
          Details := { LocalId := "dbaas_1_1" }
          Status := "PROCEEDING"
          TrackID := "dbaas_1_1"
          ChangedNameDb := none
          TrackPath := some ("/api/v2/dbaas/adapter/opensearch"
            ++ "/backups/track/restoring/backups/dbaas_1_1/indices/dbaas_u_a,dbaas_u_b") })
      := by decide
  exact ⟨rfl, hvalue,
    (RestoreBackupHandler_trackPath sampleRuntime sampleProvider "snapshots"
      "/api/v2/dbaas/adapter/opensearch" sampleRestoreRequest [] ["db1"] rfl).1 _ hvalue⟩

/-- C20, the code at the failing input: for a restore with regenerateNames=true
`RestoreBackup` returns the mapping of `a` and `b` to their new names, yet the
`ActionTrack` the handler writes has no changedNameDb; the mapping only shows
in the index list of the trackPath. -/
theorem RestoreBackupHandler_drops_mapping :
    (RestoreBackup sampleRuntime sampleProvider "dbaas_1_1" ["db1"] "snapshots" true
        sampleContext []).1
      = .returned (some [("a", "dbaas_u_a"), ("b", "dbaas_u_b")], none) ∧
    (RestoreBackupHandler sampleRuntime sampleProvider "snapshots"
        "/api/v2/dbaas/adapter/opensearch" sampleRestoreRequest []).1
      = .returned (.ok
        { Action := "RESTORE"
          Details := { LocalId := "dbaas_1_1" }
          Status := "PROCEEDING"
          TrackID := "dbaas_1_1"
          ChangedNameDb := none
          TrackPath := some
            "/api/v2/dbaas/adapter/opensearch/backups/track/restoring/backups/dbaas_1_1/indices/dbaas_u_a,dbaas_u_b" })
    := by
  constructor <;> decide

/-! ### Health status -/

/-- The loop stops at the first status that one of the two components
reports. -/
theorem healthLoop_eq (statuses : List String) (h : Health) (aggregator : ComponentHealth)
    (hagg : h.DbaasAggregatorHealth = some aggregator) :
    healthLoop statuses h = .returned { h with
      Status := (statuses.find? (fun s =>
        decide (s = h.OpensearchHealth.Status ∨ s = aggregator.Status))).getD h.Status } := by
  induction statuses with
  | nil => rfl
  | cons status rest ih =>
    by_cases h1 : status = h.OpensearchHealth.Status
    · have hfind : (status :: rest).find? (fun s =>
          decide (s = h.OpensearchHealth.Status ∨ s = aggregator.Status)) = some status := by
        simp [List.find?, h1]
      rw [healthLoop, if_pos h1, hfind]
      rfl
    · by_cases h2 : status = aggregator.Status
      · have hfind : (status :: rest).find? (fun s =>
            decide (s = h.OpensearchHealth.Status ∨ s = aggregator.Status)) = some status := by
          simp [List.find?, h2]
        rw [healthLoop, if_neg h1, hfind]
        simp only [hagg, if_pos h2]
        rfl
      · have hfind : (status :: rest).find? (fun s =>
            decide (s = h.OpensearchHealth.Status ∨ s = aggregator.Status))
            = rest.find? (fun s =>
              decide (s = h.OpensearchHealth.Status ∨ s = aggregator.Status)) := by
          simp [List.find?, h1, h2]
        rw [healthLoop, if_neg h1, hfind]
        simp only [hagg, if_neg h2]
        rw [ih, hagg]

theorem find_first_of_two (l : List String) (a b : String) :
    (a ∈ l → b ∈ l → l.find? (fun s => decide (s = a ∨ s = b))
      = some (if l.indexOf a ≤ l.indexOf b then a else b)) ∧
    (a ∈ l → b ∉ l → l.find? (fun s => decide (s = a ∨ s = b)) = some a) ∧
    (a ∉ l → b ∈ l → l.find? (fun s => decide (s = a ∨ s = b)) = some b) ∧
    (a ∉ l → b ∉ l → l.find? (fun s => decide (s = a ∨ s = b)) = none) := by
  induction l with
  | nil => simp
  | cons x xs ih =>
    obtain ⟨ih1, ih2, ih3, ih4⟩ := ih
    by_cases hxa : x = a
    · subst hxa
      refine ⟨?_, ?_, ?_, ?_⟩
      · intro _ _; simp [List.find?]
      · intro _ _; simp [List.find?]
      · intro h; exact absurd (List.mem_cons_self _ _) h
      · intro h; exact absurd (List.mem_cons_self _ _) h
    · by_cases hxb : x = b
      · subst hxb
        have hax : ¬ a = x := fun e => hxa e.symm
        refine ⟨?_, ?_, ?_, ?_⟩
        · intro _ _
          have h0 : (x :: xs).indexOf x = 0 := List.indexOf_cons_self _ _
          have h1 : (x :: xs).indexOf a = xs.indexOf a + 1 := List.indexOf_cons_ne _ hxa
          simp [List.find?, h0, h1]
        · intro _ h; exact absurd (List.mem_cons_self _ _) h
        · intro _ _; simp [List.find?]
        · intro _ h; exact absurd (List.mem_cons_self _ _) h
      · have hax : ¬ a = x := fun e => hxa e.symm
        have hbx : ¬ b = x := fun e => hxb e.symm
        have hstep : (x :: xs).find? (fun s => decide (s = a ∨ s = b))
            = xs.find? (fun s => decide (s = a ∨ s = b)) := by
          simp [List.find?, hxa, hxb]
        have ha : (x :: xs).indexOf a = xs.indexOf a + 1 := List.indexOf_cons_ne _ hxa
        have hb : (x :: xs).indexOf b = xs.indexOf b + 1 := List.indexOf_cons_ne _ hxb
        simp only [List.mem_cons, hax, hbx, false_or, hstep, ha, hb, Nat.add_le_add_iff_right]
        exact ⟨ih1, ih2, ih3, ih4⟩

/-- C25: with the aggregator health present, `DetermineHealthStatus` stores the
search-engine status and sets the overall status to the more severe of the two
component statuses under the order DOWN, OUT_OF_SERVICE, PROBLEM, WARNING,
UNKNOWN, UP: the one that comes first when both are among the six, the known
one when only one is, and the previously stored overall status when neither
is; the overall status is UP only if neither component reports one of the five
more severe statuses; and it is the same when the two component statuses are
exchanged. -/
theorem DetermineHealthStatus_spec (getHealth : String) (h : Health)
    (aggregator : ComponentHealth)
    (hagg : h.DbaasAggregatorHealth = some aggregator) :
    ∃ h' : Health,
      DetermineHealthStatus getHealth h = .returned h' ∧
      h'.OpensearchHealth.Status = getHealth ∧
      h'.DbaasAggregatorHealth = some aggregator ∧
      (getHealth ∈ healthStatuses → aggregator.Status ∈ healthStatuses →
        h'.Status = if severity getHealth ≤ severity aggregator.Status then getHealth
          else aggregator.Status) ∧
      (getHealth ∈ healthStatuses → aggregator.Status ∉ healthStatuses →
        h'.Status = getHealth) ∧
      (getHealth ∉ healthStatuses → aggregator.Status ∈ healthStatuses →
        h'.Status = aggregator.Status) ∧
      (getHealth ∉ healthStatuses → aggregator.Status ∉ healthStatuses →
        h'.Status = h.Status) ∧
      (h'.Status = "UP" →
        ∀ s ∈ ["DOWN", "OUT_OF_SERVICE", "PROBLEM", "WARNING", "UNKNOWN"],
          getHealth ≠ s ∧ aggregator.Status ≠ s) ∧
      (∃ swapped : Health,
        DetermineHealthStatus aggregator.Status
          { h with DbaasAggregatorHealth := some { Status := getHealth } }
          = .returned swapped ∧
        swapped.Status = h'.Status) := by
  have hloop := healthLoop_eq healthStatuses
    { h with OpensearchHealth := { Status := getHealth } } aggregator hagg
  obtain ⟨hboth, hleft, hright, hnone⟩ :=
    find_first_of_two healthStatuses getHealth aggregator.Status
  refine ⟨_, hloop, rfl, hagg, ?_, ?_, ?_, ?_, ?_, ?_⟩
  · intro h1 h2
    simp only [hboth h1 h2, Option.getD_some, severity]
  · intro h1 h2
    simp only [hleft h1 h2, Option.getD_some]
  · intro h1 h2
    simp only [hright h1 h2, Option.getD_some]
  · intro h1 h2
    simp only [hnone h1 h2, Option.getD_none]
  · intro hup s hs
    simp only [healthStatuses, List.find?] at hup
    simp only [List.mem_cons, List.mem_singleton, List.not_mem_nil, or_false] at hs
    by_cases c1 : "DOWN" = getHealth ∨ "DOWN" = aggregator.Status
    · simp [c1] at hup
    · by_cases c2 : "OUT_OF_SERVICE" = getHealth ∨ "OUT_OF_SERVICE" = aggregator.Status
      · simp [c1, c2] at hup
      · by_cases c3 : "PROBLEM" = getHealth ∨ "PROBLEM" = aggregator.Status
        · simp [c1, c2, c3] at hup
        · by_cases c4 : "WARNING" = getHealth ∨ "WARNING" = aggregator.Status
          · simp [c1, c2, c3, c4] at hup
          · by_cases c5 : "UNKNOWN" = getHealth ∨ "UNKNOWN" = aggregator.Status
            · simp [c1, c2, c3, c4, c5] at hup
            · push_neg at c1 c2 c3 c4 c5
              rcases hs with rfl | rfl | rfl | rfl | rfl
              · exact ⟨fun e => c1.1 e.symm, fun e => c1.2 e.symm⟩
              · exact ⟨fun e => c2.1 e.symm, fun e => c2.2 e.symm⟩
              · exact ⟨fun e => c3.1 e.symm, fun e => c3.2 e.symm⟩
              · exact ⟨fun e => c4.1 e.symm, fun e => c4.2 e.symm⟩
              · exact ⟨fun e => c5.1 e.symm, fun e => c5.2 e.symm⟩
  · have hswap := healthLoop_eq healthStatuses
      { h with OpensearchHealth := { Status := aggregator.Status },
               DbaasAggregatorHealth := some { Status := getHealth } }
      { Status := getHealth } rfl
    refine ⟨_, hswap, ?_⟩
    have hpred : (fun s : String => decide (s = aggregator.Status ∨ s = getHealth))
        = (fun s : String => decide (s = getHealth ∨ s = aggregator.Status)) := by
      funext s
      simp only [or_comm]
    simp only [hpred]

/-- Witness of C25: a search engine that is `UP` and an aggregator with a
`PROBLEM` give the overall status `PROBLEM`. -/
theorem DetermineHealthStatus_spec_witness :
    (⟨"UP", ⟨"UP"⟩, some ⟨"PROBLEM"⟩⟩ : Health).DbaasAggregatorHealth = some ⟨"PROBLEM"⟩ ∧
    ∃ h' : Health,
      DetermineHealthStatus "UP" ⟨"UP", ⟨"UP"⟩, some ⟨"PROBLEM"⟩⟩ = .returned h' ∧
      h'.Status = "PROBLEM" := by
  refine ⟨rfl, ?_⟩
  obtain ⟨h', hret, -, -, hboth, -⟩ :=
    DetermineHealthStatus_spec "UP" ⟨"UP", ⟨"UP"⟩, some ⟨"PROBLEM"⟩⟩ ⟨"PROBLEM"⟩ rfl
  refine ⟨h', hret, ?_⟩
  rw [hboth (by decide) (by decide)]
  decide

/-! ### Connection properties as a map -/

theorem AnyMap.get?_after_set (m : AnyMap) (k : String) (v : AnyValue) (x : String) :
    (m.set k v).get? x = if x = k then some v else m.get? x := by
  induction m with
  | nil =>
    by_cases h : x = k
    · simp [AnyMap.set, AnyMap.get?, h]
    · have h' : ¬ k = x := fun e => h e.symm
      simp [AnyMap.set, AnyMap.get?, h, h']
  | cons p rest ih =>
    obtain ⟨k', v'⟩ := p
    by_cases hk : k' = k
    · by_cases h : x = k
      · simp [AnyMap.set, AnyMap.get?, hk, h]
      · have h' : ¬ k = x := fun e => h e.symm
        simp [AnyMap.set, AnyMap.get?, hk, h, h']
    · by_cases h : x = k
      · have hx : ¬ k' = x := fun e => hk (e.trans h)
        simp only [AnyMap.set, if_neg hk, AnyMap.get?, if_neg hx, ih, if_pos h]
      · simp only [AnyMap.set, if_neg hk, AnyMap.get?, ih, if_neg h]

/-- Reading a key from the map `json.Unmarshal` builds: the value of the last
member with that key. -/
theorem foldl_set_get?_append (members : List (String × JsonValue)) (m : AnyMap)
    (key : String) (value : JsonValue) (x : String) :
    ((members ++ [(key, value)]).foldl
      (fun m member => m.set member.1 (decodeValue member.2)) m).get? x
      = if x = key then some (decodeValue value)
        else (members.foldl (fun m member => m.set member.1 (decodeValue member.2)) m).get? x
    := by
  rw [List.foldl_append]
  simp only [List.foldl_cons, List.foldl_nil, AnyMap.get?_after_set]

theorem foldl_set_get?_cond (members : List (String × JsonValue)) (m : AnyMap)
    (c : Prop) [Decidable c] (key : String) (value : JsonValue) (x : String) :
    ((members ++ (if c then [] else [(key, value)])).foldl
      (fun m member => m.set member.1 (decodeValue member.2)) m).get? x
      = if ¬ c ∧ x = key then some (decodeValue value)
        else (members.foldl (fun m member => m.set member.1 (decodeValue member.2)) m).get? x
    := by
  by_cases hc : c
  · simp [hc]
  · simp only [hc, if_false, foldl_set_get?_append, not_false_eq_true, true_and]

/-- What the map of `ConvertStructToMap` holds under a key. -/
theorem ConvertStructToMap_get? (p : ConnectionProperties) (m : AnyMap) (x : String)
    (hm : ConvertStructToMap p = (some m, none)) :
    m.get? x =
      if x = "tls" then (if p.Tls = true then some (.bool true) else none)
      else if x = "role" then (if p.Role = "" then none else some (.string p.Role))
      else if x = "resourcePrefix" then
        (if p.ResourcePrefix = "" then none else some (.string p.ResourcePrefix))
      else if x = "password" then
        (if p.Password = "" then none else some (.string p.Password))
      else if x = "username" then
        (if p.Username = "" then none else some (.string p.Username))
      else if x = "url" then some (.string p.Url)
      else if x = "port" then some (.float64 p.Port)
      else if x = "host" then some (.string p.Host)
      else if x = "dbName" then some (.string p.DbName)
      else none := by
  simp only [ConvertStructToMap, jsonMarshal, jsonUnmarshal, Prod.mk.injEq, Option.some.injEq,
    and_true] at hm
  rw [← hm]
  simp only [foldl_set_get?_cond]
  simp only [List.foldl_cons, List.foldl_nil, AnyMap.get?_after_set, AnyMap.get?, decodeValue]
  by_cases h1 : x = "tls"
  · subst h1
    cases p.Tls <;> simp
  · by_cases h2 : x = "role"
    · subst h2
      by_cases c : p.Role = "" <;> simp [c]
    · by_cases h3 : x = "resourcePrefix"
      · subst h3
        by_cases c : p.ResourcePrefix = "" <;> simp [c]
      · by_cases h4 : x = "password"
        · subst h4
          by_cases c : p.Password = "" <;> simp [c]
        · by_cases h5 : x = "username"
          · subst h5
            by_cases c : p.Username = "" <;> simp [c]
          · simp only [h1, h2, h3, h4, h5, and_false, if_false]
            by_cases h6 : x = "url"
            · subst h6; simp
            · by_cases h7 : x = "port"
              · subst h7; simp
              · by_cases h8 : x = "host"
                · subst h8; simp
                · by_cases h9 : x = "dbName"
                  · subst h9; simp
                  · have g6 : ¬ "url" = x := fun e => h6 e.symm
                    have g7 : ¬ "port" = x := fun e => h7 e.symm
                    have g8 : ¬ "host" = x := fun e => h8 e.symm
                    have g9 : ¬ "dbName" = x := fun e => h9 e.symm
                    simp [h6, h7, h8, h9, g6, g7, g8, g9]

/-- C21: for every `ConnectionProperties` value, `ConvertStructToMap` returns
no error and a map that always has the keys dbName, host, port (as a number,
the `float64` of the field) and url with the field values, has each of
username, password, resourcePrefix and role exactly when that field is a
non-empty string, has tls exactly when it is true, and has no other key; the
zero value maps to exactly dbName "", host "", port 0 and url "", and the
properties of the test to its expected map. -/
theorem ConvertStructToMap_spec (p : ConnectionProperties) :
    ∃ m : AnyMap, ConvertStructToMap p = (some m, none) ∧
      m.get? "dbName" = some (.string p.DbName) ∧
      m.get? "host" = some (.string p.Host) ∧
      m.get? "port" = some (.float64 p.Port) ∧
      m.get? "url" = some (.string p.Url) ∧
      m.get? "username" = (if p.Username = "" then none else some (.string p.Username)) ∧
      m.get? "password" = (if p.Password = "" then none else some (.string p.Password)) ∧
      m.get? "resourcePrefix"
        = (if p.ResourcePrefix = "" then none else some (.string p.ResourcePrefix)) ∧
      m.get? "role" = (if p.Role = "" then none else some (.string p.Role)) ∧
      m.get? "tls" = (if p.Tls = true then some (.bool true) else none) ∧
      (∀ key, key ∉ ["dbName", "host", "port", "url", "username", "password",
          "resourcePrefix", "role", "tls"] → m.get? key = none) ∧
      ConvertStructToMap
          { DbName := "", Host := "", Port := 0, Url := "", Username := "", Password := "",
            ResourcePrefix := "", Role := "", Tls := false }
        = (some [("dbName", .string ""), ("host", .string ""), ("port", .float64 0),
            ("url", .string "")], none) ∧
      ConvertStructToMap
          { DbName := "", Host := "opensearch.opensearch-service", Port := 9200,
            Url := "http://opensearch.opensearch-service:9200/",
            Username := "a73a026a-da44-4257-aed8-b1ee1bff5b7c", Password := "WPJdruZ9@F",
            ResourcePrefix := "a73a026a-da44-4257-aed8-b1ee1bff5b7c", Role := "dml",
            Tls := false }
        = (some [("dbName", .string ""), ("host", .string "opensearch.opensearch-service"),
            ("port", .float64 9200),
            ("url", .string "http://opensearch.opensearch-service:9200/"),
            ("username", .string "a73a026a-da44-4257-aed8-b1ee1bff5b7c"),
            ("password", .string "WPJdruZ9@F"),
            ("resourcePrefix", .string "a73a026a-da44-4257-aed8-b1ee1bff5b7c"),
            ("role", .string "dml")], none) := by
  obtain ⟨m, hm⟩ : ∃ m : AnyMap, ConvertStructToMap p = (some m, none) := ⟨_, rfl⟩
  have hget := ConvertStructToMap_get? p m
  refine ⟨m, hm, ?_, ?_, ?_, ?_, ?_, ?_, ?_, ?_, ?_, ?_, by decide, by decide⟩
  · rw [hget "dbName" hm]; simp
  · rw [hget "host" hm]; simp
  · rw [hget "port" hm]; simp
  · rw [hget "url" hm]; simp
  · rw [hget "username" hm]; simp
  · rw [hget "password" hm]; simp
  · rw [hget "resourcePrefix" hm]; simp
  · rw [hget "role" hm]; simp
  · rw [hget "tls" hm]; simp
  · intro key hkey
    simp only [List.mem_cons, List.mem_singleton, List.not_mem_nil, or_false, not_or] at hkey
    obtain ⟨k1, k2, k3, k4, k5, k6, k7, k8, k9⟩ := hkey
    rw [hget key hm]
    simp only [k1, k2, k3, k4, k5, k6, k7, k8, k9, if_false]

/-! ### The index list of a track path -/

theorem list_intercalate_cons (sep : List Char) (first : List Char)
    (rest : List (List Char)) :
    sep.intercalate (first :: rest) = first ++ (rest.map (fun a => sep ++ a)).flatten := by
  induction rest generalizing first with
  | nil => simp [List.intercalate]
  | cons a rest ih =>
    have h := ih a
    simp only [List.intercalate, List.intersperse_cons_cons, List.flatten_cons,
      List.map_cons] at h ⊢
    rw [h, List.append_assoc]

/-- The characters of a joined list. -/
theorem intercalate_data (sep : String) (names : List String) :
    (sep.intercalate names).data = sep.data.intercalate (names.map String.data) := by
  cases names with
  | nil => rfl
  | cons a rest =>
    rw [List.map_cons, list_intercalate_cons, List.map_map]
    simp only [String.intercalate, intercalate_go_data]
    rfl

/-- C24: the index list written into a trackPath is read back unchanged by the
per-index tracking handler: for a non-empty list of index names none of which
contains a comma, splitting the comma-joined list on `,` returns the original
list in the same order, and `TrackRestoreFromIndicesHandler`, given the joined
list as its `indices` variable, polls the recovery of exactly that list; for an
empty list the round trip yields a one-element list holding the empty string. -/
theorem stringsSplit_join (names : List String)
    (hnames : names ≠ [])
    (hcomma : ∀ name ∈ names, ',' ∉ name.data) :
    stringsSplit (",".intercalate names) ',' = names ∧
    (∀ (rt : Runtime) (bp : BackupProvider) (fromRepo : String) (r : RestoreHttpRequest)
        (tr : Trace), r.indices = ",".intercalate names →
      (TrackRestoreFromIndicesHandler rt bp fromRepo r tr).2
        = (PrepareContext rt r tr).2 ++ [Event.indicesRecovery names]) ∧
    stringsSplit (",".intercalate []) ',' = [""] := by
  have hsplit : stringsSplit (",".intercalate names) ',' = names := by
    have hdata : (",".intercalate names).data
        = [','].intercalate (names.map String.data) := intercalate_data "," names
    have hne : names.map String.data ≠ [] := by
      intro h
      exact hnames (List.map_eq_nil_iff.mp h)
    have hx : ∀ l ∈ names.map String.data, ',' ∉ l := by
      intro l hl
      obtain ⟨name, hname, rfl⟩ := List.mem_map.mp hl
      exact hcomma name hname
    simp only [stringsSplit, hdata, List.splitOn_intercalate _ ',' hx hne, List.map_map]
    conv_rhs => rw [← List.map_id names]
    apply List.map_congr_left
    intro name _
    rfl
  refine ⟨hsplit, ?_, by decide⟩
  intro rt bp fromRepo r tr hr
  simp only [TrackRestoreFromIndicesHandler, TrackRestoreIndices_trace, hr, hsplit]

/-- Witness of C24 on the renamed indices of the bulk restoration. -/
theorem stringsSplit_join_witness :
    ["dbaas_u_a", "dbaas_u_b"] ≠ [] ∧
    (∀ name ∈ ["dbaas_u_a", "dbaas_u_b"], ',' ∉ name.data) ∧
    stringsSplit "dbaas_u_a,dbaas_u_b" ',' = ["dbaas_u_a", "dbaas_u_b"] :=
  ⟨by decide, by decide,
    (stringsSplit_join ["dbaas_u_a", "dbaas_u_b"] (by decide) (by decide)).1⟩

/-! ### The error of an unfinished index -/

theorem TrackRestoreIndices_status_cases (bp : BackupProvider) (ctx : Context)
    (backupId : String) (indices : List String) (repoName : String)
    (changedNameDb : Option NameMap) (tr : Trace) :
    (TrackRestoreIndices bp ctx backupId indices repoName changedNameDb tr).1.Status
        = "PROCEEDING" ∨
    (TrackRestoreIndices bp ctx backupId indices repoName changedNameDb tr).1.Status
        = "SUCCESS" := by
  cases hq : bp.client.indicesRecovery tr indices with
  | error err =>
    left
    simp [TrackRestoreIndices, hq, restoreTrack]
  | ok info =>
    rw [TrackRestoreIndices_status bp ctx backupId indices repoName changedNameDb tr info hq]
    exact (ite_eq_or_eq _ _ _).symm

/-- The poll loop ends with `SUCCESS` or after all its rounds, each of which
reported `PROCEEDING`. -/
theorem trackLoop_result (bp : BackupProvider) (ctx : Context)
    (backupId newName fromRepo : String) (remaining tries : Nat) (status : String)
    (tr : Trace) :
    (trackLoop bp ctx backupId newName fromRepo remaining tries status tr).1.2 = "SUCCESS" ∨
    (trackLoop bp ctx backupId newName fromRepo remaining tries status tr).1
      = (tries + remaining, if remaining = 0 then status else "PROCEEDING") := by
  induction remaining generalizing tries status tr with
  | zero => right; simp [trackLoop]
  | succ n ih =>
    rcases TrackRestoreIndices_status_cases bp ctx backupId [newName] fromRepo none tr
      with hp | hs
    · have hstep : trackLoop bp ctx backupId newName fromRepo (n + 1) tries status tr
          = trackLoop bp ctx backupId newName fromRepo n (tries + 1) "PROCEEDING"
              ((TrackRestoreIndices bp ctx backupId [newName] fromRepo none tr).2
                ++ [Event.sleep 1]) := by
        simp only [trackLoop, hp, if_true]
      rw [hstep]
      rcases ih (tries + 1) "PROCEEDING"
        ((TrackRestoreIndices bp ctx backupId [newName] fromRepo none tr).2
          ++ [Event.sleep 1]) with h | h
      · exact Or.inl h
      · right
        rw [h]
        have h1 : tries + 1 + n = tries + (n + 1) := by omega
        have h2 : (if n = 0 then "PROCEEDING" else "PROCEEDING") = "PROCEEDING" := by
          split_ifs <;> rfl
        simp [h1, h2]
    · left
      have hne : ¬ (TrackRestoreIndices bp ctx backupId [newName] fromRepo none tr).1.Status
          = "PROCEEDING" := by
        rw [hs]; decide
      simp only [trackLoop, hne, if_false]
      exact hs

theorem restoreFailedMessage_exhausted (index newName : String) :
    restoreFailedMessage index newName "PROCEEDING" 120
      = "failed to restore " ++ index ++ "->" ++ newName
        ++ ", status is 'PROCEEDING' after 120 retries" := by
  have h120 : toString (120 : Nat) = "120" := by decide
  simp only [restoreFailedMessage, h120]
  apply String.ext
  simp

/-- An error of the loop over the indices is the transport error of a Curator
request or the message of an index that stayed `PROCEEDING` for 120 polls. -/
theorem sequentialRestore_error (rt : Runtime) (bp : BackupProvider) (ctx : Context)
    (backupId fromRepo requestId : String)
    (hurl : rt.newRequestOk (bp.Curator.url ++ "/restore") = true)
    (hctx : ctx.requestId = some requestId)
    (indices : List String) (changedNameDb : NameMap) (tr : Trace) (err : String)
    (herr : (sequentialRestore rt bp ctx backupId fromRepo indices changedNameDb tr).1
      = .returned (none, some err)) :
    (∃ (request : HttpRequest) (point : Trace), bp.Curator.client point request = .error err) ∨
    (∃ index ∈ indices, ∃ point : Trace,
      err = "failed to restore " ++ index ++ "->" ++ (bp.indexNames.NameIndex rt point).1
        ++ ", status is 'PROCEEDING' after 120 retries") := by
  induction indices generalizing changedNameDb tr with
  | nil => simp [sequentialRestore] at herr
  | cons index rest ih =>
    have hreq := requestRestore_eq rt bp ctx [index] backupId index
      (bp.indexNames.NameIndex rt tr).1 (bp.indexNames.NameIndex rt tr).2 requestId hurl hctx
    cases hc : bp.Curator.client (bp.indexNames.NameIndex rt tr).2
        (restoreRequest bp requestId [index] backupId index
          (bp.indexNames.NameIndex rt tr).1) with
    | error e =>
      rw [hc] at hreq
      rw [sequentialRestore] at herr
      simp only [hreq, Outcome.returned.injEq, Prod.mk.injEq, Option.some.injEq,
        true_and] at herr
      exact Or.inl ⟨_, _, herr ▸ hc⟩
    | ok response =>
      have hcons := sequentialRestore_cons rt bp ctx backupId fromRepo index rest
        changedNameDb tr requestId hurl hctx ⟨response, hc⟩
      rw [hcons] at herr
      split_ifs at herr with hs
      · right
        rcases trackLoop_result bp ctx backupId (bp.indexNames.NameIndex rt tr).1 fromRepo
            120 0 "" ((bp.indexNames.NameIndex rt tr).2 ++ [Event.curatorDo
              (restoreRequest bp requestId [index] backupId index
                (bp.indexNames.NameIndex rt tr).1)]) with h | h
        · exact absurd h hs
        · rw [h] at herr
          simp only [Outcome.returned.injEq, Prod.mk.injEq, Option.some.injEq, true_and,
            Nat.zero_add] at herr
          refine ⟨index, List.mem_cons_self _ _, tr, ?_⟩
          rw [← herr]
          exact restoreFailedMessage_exhausted index _
      · rcases ih _ _ herr with h | ⟨i, hi, point, h⟩
        · exact Or.inl h
        · exact Or.inr ⟨i, List.mem_cons_of_mem _ hi, point, h⟩

/-- The polls the loop adds to the trace are as many as the tries it counts. -/
theorem trackLoop_polls (bp : BackupProvider) (ctx : Context)
    (backupId newName fromRepo : String) (remaining tries : Nat) (status : String)
    (tr : Trace) :
    (trackLoop bp ctx backupId newName fromRepo remaining tries status tr).2.countP
        Event.isIndicesRecovery + tries
      = tr.countP Event.isIndicesRecovery
        + (trackLoop bp ctx backupId newName fromRepo remaining tries status tr).1.1 := by
  induction remaining generalizing tries status tr with
  | zero => simp [trackLoop]
  | succ n ih =>
    simp only [trackLoop]
    split_ifs
    · have h := ih (tries + 1)
        (TrackRestoreIndices bp ctx backupId [newName] fromRepo none tr).1.Status
        ((TrackRestoreIndices bp ctx backupId [newName] fromRepo none tr).2
          ++ [Event.sleep 1])
      simp only [TrackRestoreIndices_trace, List.countP_append, List.countP_cons,
        List.countP_nil, Event.isIndicesRecovery] at h ⊢
      simp only [if_true, Bool.false_eq_true, if_false] at h
      omega
    · simp only [TrackRestoreIndices_trace, List.countP_append, List.countP_cons,
        List.countP_nil, Event.isIndicesRecovery, if_true]
      omega

/-- C23: in sequential mode (the Curator URL being accepted by
`http.NewRequest` and the context carrying a request id), whenever the poll
loop of an index ends without `SUCCESS`, it has made exactly 120 polls, its last
status is `PROCEEDING`, and `RestoreBackup` stops there with the error
`failed to restore <index>-><new name>, status is 'PROCEEDING' after 120
retries`, which names the original index, its generated name, the last status
and the number of polls; so every error `RestoreBackup` returns in sequential
mode is the transport error of a Curator request or this message for one of
the snapshot's indices. -/
theorem RestoreBackup_sequential_failure (rt : Runtime) (bp : BackupProvider)
    (backupId : String) (dbs : List String) (fromRepo : String) (ctx : Context)
    (tr tr1 : Trace) (indices : List String) (requestId : String)
    (hdbs : dbs ≠ [])
    (hindices : getActualIndices bp backupId fromRepo (some []) ctx tr
      = ((indices, none), tr1))
    (hurl : rt.newRequestOk (bp.Curator.url ++ "/restore") = true)
    (hctx : ctx.requestId = some requestId)
    (hsequential : ((bp.indexNames.NameIndex rt tr1).1 ++ "_").utf8ByteSize
      + longestName indices ≥ 255) :
    (∀ err, (RestoreBackup rt bp backupId dbs fromRepo true ctx tr).1
        = .returned (none, some err) →
      (∃ (request : HttpRequest) (point : Trace),
        bp.Curator.client point request = .error err) ∨
      (∃ index ∈ indices, ∃ point : Trace,
        err = "failed to restore " ++ index ++ "->" ++ (bp.indexNames.NameIndex rt point).1
          ++ ", status is 'PROCEEDING' after 120 retries")) ∧
    (∀ (index : String) (rest : List String) (changedNameDb : NameMap) (point : Trace),
      (∃ response, bp.Curator.client (bp.indexNames.NameIndex rt point).2
        (restoreRequest bp requestId [index] backupId index
          (bp.indexNames.NameIndex rt point).1) = .ok response) →
      ∀ requested polled,
        requested = (bp.indexNames.NameIndex rt point).2 ++ [Event.curatorDo
          (restoreRequest bp requestId [index] backupId index
            (bp.indexNames.NameIndex rt point).1)] →
        polled = trackLoop bp ctx backupId (bp.indexNames.NameIndex rt point).1 fromRepo
          120 0 "" requested →
        polled.1.2 ≠ "SUCCESS" →
        polled.1 = (120, "PROCEEDING") ∧
        polled.2.countP Event.isIndicesRecovery
          = requested.countP Event.isIndicesRecovery + 120 ∧
        sequentialRestore rt bp ctx backupId fromRepo (index :: rest) changedNameDb point
          = (.returned (none, some ("failed to restore " ++ index ++ "->"
              ++ (bp.indexNames.NameIndex rt point).1
              ++ ", status is 'PROCEEDING' after 120 retries")), polled.2)) := by
  refine ⟨?_, ?_⟩
  · intro err herr
    rw [RestoreBackup_regenerate rt bp backupId dbs fromRepo ctx tr tr1 indices hdbs
      hindices, if_neg (by omega)] at herr
    exact sequentialRestore_error rt bp ctx backupId fromRepo requestId hurl hctx indices []
      _ err herr
  · intro index rest changedNameDb point haccepted requested polled hrequested hpolled hs
    have hresult : polled.1 = (120, "PROCEEDING") := by
      rcases trackLoop_result bp ctx backupId (bp.indexNames.NameIndex rt point).1 fromRepo
          120 0 "" requested with h | h
      · rw [← hpolled] at h
        exact absurd h hs
      · rw [hpolled, h]
        simp
    have hpolls := trackLoop_polls bp ctx backupId (bp.indexNames.NameIndex rt point).1
      fromRepo 120 0 "" requested
    rw [← hpolled, hresult] at hpolls
    refine ⟨hresult, by simpa using hpolls, ?_⟩
    rw [sequentialRestore_cons rt bp ctx backupId fromRepo index rest changedNameDb point
      requestId hurl hctx haccepted, ← hrequested, ← hpolled, if_pos hs, hresult,
      restoreFailedMessage_exhausted]

/-- Witness of C23 on the snapshot with a 250-byte index name and a search
engine that never reports a recovery. -/
theorem RestoreBackup_sequential_failure_witness :
    ["db1"] ≠ [] ∧
    getActualIndices stalledProvider "dbaas_1_1" "snapshots" (some []) sampleContext []
      = (([longIndex, "b"], none), [Event.snapshotStatus "snapshots" ["dbaas_1_1"]]) ∧
    sampleRuntime.newRequestOk (stalledProvider.Curator.url ++ "/restore") = true ∧
    sampleContext.requestId = some "r1" ∧
    ("dbaas_u_".utf8ByteSize + longestName [longIndex, "b"] ≥ 255) ∧
    (RestoreBackup sampleRuntime stalledProvider "dbaas_1_1" ["db1"] "snapshots" true
        sampleContext []).1
      = .returned (none, some ("failed to restore " ++ longIndex
          ++ "->dbaas_u, status is 'PROCEEDING' after 120 retries")) ∧
    ((∃ (request : HttpRequest) (point : Trace),
        stalledProvider.Curator.client point request
          = .error ("failed to restore " ++ longIndex
            ++ "->dbaas_u, status is 'PROCEEDING' after 120 retries")) ∨
      (∃ index ∈ [longIndex, "b"], ∃ point : Trace,
        "failed to restore " ++ longIndex
            ++ "->dbaas_u, status is 'PROCEEDING' after 120 retries"
          = "failed to restore " ++ index ++ "->"
            ++ (stalledProvider.indexNames.NameIndex sampleRuntime point).1
            ++ ", status is 'PROCEEDING' after 120 retries")) := by
  have hidx : getActualIndices stalledProvider "dbaas_1_1" "snapshots" (some [])
      sampleContext []
      = (([longIndex, "b"], none), [Event.snapshotStatus "snapshots" ["dbaas_1_1"]]) := by
    decide
  have hseq : "dbaas_u_".utf8ByteSize + longestName [longIndex, "b"] ≥ 255 := by decide
  have hvalue : (RestoreBackup sampleRuntime stalledProvider "dbaas_1_1" ["db1"] "snapshots"
      true sampleContext []).1
      = .returned (none, some ("failed to restore " ++ longIndex
          ++ "->dbaas_u, status is 'PROCEEDING' after 120 retries")) := by decide
  exact ⟨by decide, hidx, rfl, rfl, hseq, hvalue,
    (RestoreBackup_sequential_failure sampleRuntime stalledProvider "dbaas_1_1" ["db1"]
      "snapshots" sampleContext [] [Event.snapshotStatus "snapshots" ["dbaas_1_1"]]
      [longIndex, "b"] "r1" (by decide) hidx rfl rfl hseq).1 _ hvalue⟩

/-! ### The background executor -/

/-- What a run keeps: the works run and the works waiting are, together and in
order, those the executor held plus those accepted since; an executor that is
not active stays so. -/
theorem BackgroundExecutor.run_queue {Task : Type} (actions : List (ExecutorAction Task))
    (executor final : BackgroundExecutor Task)
    (hrun : executor.run actions = some final) :
    final.executed ++ final.queue
      = executor.executed ++ executor.queue
        ++ (if executor.active then submittedBeforeShutdown actions else []) ∧
    (executor.active = false → final.active = false) := by
  induction actions generalizing executor with
  | nil =>
    simp only [BackgroundExecutor.run, Option.some.injEq] at hrun
    subst hrun
    simp [submittedBeforeShutdown]
  | cons action rest ih =>
    simp only [BackgroundExecutor.run] at hrun
    cases hstep : executor.step action with
    | none => rw [hstep] at hrun; exact Option.noConfusion hrun
    | some next =>
      rw [hstep] at hrun
      obtain ⟨hq, ha⟩ := ih next hrun
      obtain ⟨queue, closed, active, executed, stopped⟩ := executor
      cases action with
      | submit work =>
        simp only [BackgroundExecutor.step, BackgroundExecutor.Submit] at hstep
        cases active with
        | true =>
          simp only [if_true] at hstep
          by_cases hlen : queue.length < queueCapacity
          · rw [if_pos hlen] at hstep
            simp only [Option.some.injEq] at hstep
            subst hstep
            simp only [if_true, submittedBeforeShutdown] at hq ⊢
            refine ⟨?_, fun h => Bool.noConfusion h⟩
            rw [hq]
            simp
          · rw [if_neg hlen] at hstep
            exact Option.noConfusion hstep
        | false =>
          simp only [Bool.false_eq_true, if_false, Option.some.injEq] at hstep
          subst hstep
          simp only [Bool.false_eq_true, if_false] at hq ⊢
          exact ⟨hq, fun _ => ha rfl⟩
      | shutdown =>
        simp only [BackgroundExecutor.step, BackgroundExecutor.Shutdown,
          Option.some.injEq] at hstep
        subst hstep
        cases active with
        | true =>
          simp only [if_true, Bool.false_eq_true, if_false, submittedBeforeShutdown] at hq ha ⊢
          exact ⟨hq, fun h => Bool.noConfusion h⟩
        | false =>
          simp only [Bool.false_eq_true, if_false] at hq ⊢
          exact ⟨hq, fun _ => ha rfl⟩
      | receive =>
        simp only [BackgroundExecutor.step, BackgroundExecutor.receive] at hstep
        cases stopped with
        | true => simp at hstep
        | false =>
          simp only [Bool.false_eq_true, if_false] at hstep
          cases queue with
          | nil =>
            cases closed with
            | true =>
              simp only [if_true, Option.some.injEq] at hstep
              subst hstep
              simp only [submittedBeforeShutdown] at hq ha ⊢
              exact ⟨hq, ha⟩
            | false => simp at hstep
          | cons work pending =>
            simp only [Option.some.injEq] at hstep
            subst hstep
            simp only [submittedBeforeShutdown] at hq ha ⊢
            refine ⟨?_, ha⟩
            rw [hq]
            simp

/-- The goroutine runs the waiting works in order, one per round. -/
theorem BackgroundExecutor.run_receive {Task : Type} (executor : BackgroundExecutor Task)
    (hstopped : executor.stopped = false) :
    executor.run (List.replicate executor.queue.length ExecutorAction.receive)
      = some { executor with
          queue := [], executed := executor.executed ++ executor.queue } := by
  obtain ⟨queue, closed, active, executed, stopped⟩ := executor
  simp only at hstopped
  subst hstopped
  induction queue generalizing executed with
  | nil => simp [BackgroundExecutor.run]
  | cons work pending ih =>
    simp only [List.length_cons, List.replicate_succ, BackgroundExecutor.run,
      BackgroundExecutor.step, BackgroundExecutor.receive, Bool.false_eq_true, if_false]
    have h := ih (executed ++ [work])
    simp only [List.append_assoc, List.singleton_append] at h
    exact h

/-- A stopped goroutine has left nothing in the queue. -/
theorem BackgroundExecutor.run_stopped {Task : Type} (actions : List (ExecutorAction Task))
    (executor final : BackgroundExecutor Task)
    (hinv : (executor.stopped = true → executor.queue = [] ∧ executor.closed = true) ∧
      (executor.closed = true → executor.active = false))
    (hrun : executor.run actions = some final) :
    (final.stopped = true → final.queue = [] ∧ final.closed = true) ∧
    (final.closed = true → final.active = false) := by
  induction actions generalizing executor with
  | nil =>
    simp only [BackgroundExecutor.run, Option.some.injEq] at hrun
    subst hrun
    exact hinv
  | cons action rest ih =>
    simp only [BackgroundExecutor.run] at hrun
    cases hstep : executor.step action with
    | none => rw [hstep] at hrun; exact Option.noConfusion hrun
    | some next =>
      rw [hstep] at hrun
      apply ih next _ hrun
      obtain ⟨queue, closed, active, executed, stopped⟩ := executor
      simp only at hinv
      cases action with
      | submit work =>
        simp only [BackgroundExecutor.step, BackgroundExecutor.Submit] at hstep
        cases active with
        | true =>
          simp only [if_true] at hstep
          by_cases hlen : queue.length < queueCapacity
          · rw [if_pos hlen] at hstep
            simp only [Option.some.injEq] at hstep
            subst hstep
            constructor
            · intro hs
              exact Bool.noConfusion (hinv.2 (hinv.1 hs).2)
            · exact hinv.2
          · rw [if_neg hlen] at hstep
            exact Option.noConfusion hstep
        | false =>
          simp only [Bool.false_eq_true, if_false, Option.some.injEq] at hstep
          subst hstep
          exact hinv
      | shutdown =>
        simp only [BackgroundExecutor.step, BackgroundExecutor.Shutdown,
          Option.some.injEq] at hstep
        subst hstep
        cases active with
        | true =>
          exact ⟨fun hs => ⟨(hinv.1 hs).1, rfl⟩, fun _ => rfl⟩
        | false =>
          exact hinv
      | receive =>
        simp only [BackgroundExecutor.step, BackgroundExecutor.receive] at hstep
        cases stopped with
        | true => simp at hstep
        | false =>
          simp only [Bool.false_eq_true, if_false] at hstep
          cases queue with
          | nil =>
            cases closed with
            | true =>
              simp only [if_true, Option.some.injEq] at hstep
              subst hstep
              exact ⟨fun _ => ⟨rfl, rfl⟩, hinv.2⟩
            | false => simp at hstep
          | cons work pending =>
            simp only [Option.some.injEq] at hstep
            subst hstep
            exact ⟨fun hs => Bool.noConfusion hs, hinv.2⟩

/-- C22: modelling the executor as its queue and its `active` flag, for every
run of submissions, shutdowns and rounds of its goroutine from a new executor:
the works run so far followed by the works still waiting are the works
submitted before the first shutdown, in the order of their submission (FIFO);
the next rounds of the goroutine run every waiting work, so every work
submitted before the shutdown is still executed; after `Shutdown` a `Submit`
returns at once and leaves the executor unchanged, and no later action adds a
work; a second `Shutdown` changes nothing. -/
theorem BackgroundExecutor_fifo {Task : Type} (actions : List (ExecutorAction Task))
    (executor : BackgroundExecutor Task)
    (hrun : (NewBackgroundExecutor Task).run actions = some executor) :
    executor.executed ++ executor.queue = submittedBeforeShutdown actions ∧
    (∃ drained : BackgroundExecutor Task,
      executor.run (List.replicate executor.queue.length ExecutorAction.receive)
        = some drained ∧
      drained.executed = submittedBeforeShutdown actions ∧ drained.queue = []) ∧
    (∀ work, executor.Shutdown.Submit work = some executor.Shutdown) ∧
    (∀ (more : List (ExecutorAction Task)) (later : BackgroundExecutor Task),
      executor.Shutdown.run more = some later →
      later.executed ++ later.queue = executor.executed ++ executor.queue) ∧
    executor.Shutdown.Shutdown = executor.Shutdown ∧
    (executor.active = false → executor.Shutdown = executor) := by
  have hqueue := (BackgroundExecutor.run_queue actions (NewBackgroundExecutor Task) executor
    hrun).1
  simp only [NewBackgroundExecutor, List.append_nil, List.nil_append, if_true] at hqueue
  have hinv := BackgroundExecutor.run_stopped actions (NewBackgroundExecutor Task) executor
    ⟨fun h => Bool.noConfusion h, fun h => Bool.noConfusion h⟩ hrun
  have hshut : executor.Shutdown.active = false := by
    unfold BackgroundExecutor.Shutdown
    split_ifs with h
    · rfl
    · simpa using h
  have hidle : ∀ idle : BackgroundExecutor Task, idle.active = false → idle.Shutdown = idle := by
    intro idle hact
    simp only [BackgroundExecutor.Shutdown, hact, Bool.false_eq_true, if_false]
  refine ⟨hqueue, ?_, ?_, ?_, ?_, ?_⟩
  · cases hs : executor.stopped with
    | false =>
      refine ⟨_, BackgroundExecutor.run_receive executor hs, ?_, rfl⟩
      exact hqueue
    | true =>
      have hempty := (hinv.1 hs).1
      refine ⟨executor, ?_, ?_, hempty⟩
      · rw [hempty]
        rfl
      · rw [hempty, List.append_nil] at hqueue
        exact hqueue
  · intro work
    simp only [BackgroundExecutor.Submit, hshut, Bool.false_eq_true, if_false]
  · intro more later hlater
    have h := (BackgroundExecutor.run_queue more executor.Shutdown later hlater).1
    rw [hshut] at h
    simp only [Bool.false_eq_true, if_false, List.append_nil] at h
    rw [h]
    unfold BackgroundExecutor.Shutdown
    split_ifs <;> rfl
  · exact hidle executor.Shutdown hshut
  · exact hidle executor

/-- Witness of C22: two works are submitted, one is run, the executor is shut
down, a third work is submitted and the goroutine makes its last rounds. -/
theorem BackgroundExecutor_fifo_witness :
    (NewBackgroundExecutor Nat).run
        [.submit 1, .submit 2, .receive, .shutdown, .submit 3, .receive, .receive]
      = some { queue := [], closed := true, active := false, executed := [1, 2],
               stopped := true } ∧
    ([1, 2] : List Nat) ++ [] = submittedBeforeShutdown
      [ExecutorAction.submit 1, .submit 2, .receive, .shutdown, .submit 3, .receive,
        .receive] :=
  ⟨by decide,
    (BackgroundExecutor_fifo
      [.submit 1, .submit 2, .receive, .shutdown, .submit 3, .receive, .receive]
      { queue := [], closed := true, active := false, executed := [1, 2], stopped := true }
      (by decide)).1⟩

end Backup
